import Mathlib

/-!
ShadowsocksR connection transforms: the `auth_sha1_v4` framer, the HTTP-simple
obfuscation, the stream ciphers and the outbound adapter.

A shallow embedding of, under `clash/component/shadowsocksr/`,
`helpers.go`, `protocol/authsha1v4.go`, `obfs/http-simple.go`,
`encryption/cipher.go`, `encryption/stream/stream.go` and
`encryption/stream/{mode,cipher}`, and of
`clash/adapters/outbound/shadowsocksr.go`.

Conventions of the embedding:

* a Go `[]byte` is a `List Nat` whose elements are bytes (naturals below 256);
  every store into a buffer made by the program truncates to a byte exactly
  where the Go code converts (`byte(x)`, `uint16(x)`, `uint32(x)`);
* a Go run-time panic is a `Fault` carried by `Except`;
* the global `math/rand` source is a tape of raw draws threaded through the
  functions; an exhausted tape yields zeros, so quantifying over all tapes
  covers every outcome of the source;
* `time.Now().Unix()` is a parameter `now`;
* the embedded `net.Conn` is the function `under`, giving the result
  `(n, err)` of the underlying `Write`; where the order of the underlying
  calls matters it is a `Wire` (writes) or a `Source` (reads).
-/

set_option autoImplicit false

namespace SSR

/-! ## Go run-time model -/

/-- Run-time panics of the Go program (and fuel exhaustion of the loop model). -/
inductive Fault where
  | nilDeref
  | sliceBounds
  | indexRange
  | makeLen
  | panicCall
  | outOfFuel
deriving DecidableEq

/-- The tape of raw draws of the global `math/rand` source. -/
abbrev Rand := List Nat

/-- Go `rand.Intn(n)`: a value in `[0, n)`. -/
def randIntn (n : Nat) (rnd : Rand) : Nat × Rand :=
  (rnd.headD 0 % n, rnd.tail)

/-- Go `rand.Uint32()`. -/
def randUint32 (rnd : Rand) : Nat × Rand :=
  (rnd.headD 0 % 2 ^ 32, rnd.tail)

/-- Go `rand.Read(p)` for a buffer of `k` bytes: `k` random bytes. -/
def randRead (k : Nat) (rnd : Rand) : List Nat × Rand :=
  ((List.range k).map (fun i => rnd.getD i 0 % 256), rnd.drop k)

/-- Go `make([]byte, n)`. -/
def makeBytes (n : Nat) : List Nat := List.replicate n 0

/-- Go slice expression `b[lo:hi]` (capacity taken equal to the length). -/
def goSlice (b : List Nat) (lo hi : Nat) : Except Fault (List Nat) :=
  if lo ≤ hi ∧ hi ≤ b.length then .ok ((b.take hi).drop lo) else .error .sliceBounds

/-- Go `copy(out[lo:hi], src)`: copies `min (hi - lo) (len src)` bytes. -/
def copyAt (out : List Nat) (lo hi : Nat) (src : List Nat) : Except Fault (List Nat) :=
  if lo ≤ hi ∧ hi ≤ out.length then
    .ok (out.take lo ++ src.take (hi - lo) ++ out.drop (lo + min (hi - lo) src.length))
  else .error .sliceBounds

/-- Go `binary.<order>.PutUintN(out[lo:hi], v)` with `bs` the `N/8` encoded bytes:
the slice expression is checked first, then the early bounds check
`_ = b[N/8-1]` of `encoding/binary`. -/
def storeAt (out : List Nat) (lo hi : Nat) (bs : List Nat) : Except Fault (List Nat) :=
  if lo ≤ hi ∧ hi ≤ out.length then
    if bs.length ≤ hi - lo then .ok (out.take lo ++ bs ++ out.drop (lo + bs.length))
    else .error .indexRange
  else .error .sliceBounds

/-- Go indexed store `out[i] = x`. -/
def setIdx (out : List Nat) (i x : Nat) : Except Fault (List Nat) :=
  if i < out.length then .ok (out.take i ++ [x] ++ out.drop (i + 1)) else .error .indexRange

/-- Go `rand.Read(out[lo:hi])`. -/
def randReadAt (out : List Nat) (lo hi : Nat) (rnd : Rand) : Except Fault (List Nat × Rand) :=
  if lo ≤ hi ∧ hi ≤ out.length then
    .ok (out.take lo ++ (randRead (hi - lo) rnd).1 ++ out.drop hi, (randRead (hi - lo) rnd).2)
  else .error .sliceBounds

/-- Bytes of a big-endian `uint16`. -/
def be16 (v : Nat) : List Nat := [v / 256 % 256, v % 256]

/-- Bytes of a little-endian `uint16`. -/
def le16 (v : Nat) : List Nat := [v % 256, v / 256 % 256]

/-- Bytes of a little-endian `uint32`. -/
def le32 (v : Nat) : List Nat :=
  [v % 256, v / 256 % 256, v / 65536 % 256, v / 16777216 % 256]

/-- Bytes of a big-endian `uint32`. -/
def be32 (v : Nat) : List Nat :=
  [v / 16777216 % 256, v / 65536 % 256, v / 256 % 256, v % 256]

/-- Value of a big-endian byte string. -/
def beVal (bs : List Nat) : Nat := bs.foldl (fun acc x => acc * 256 + x) 0

/-! ## Checksums of the Go standard library -/

/-- One bit step of the reflected CRC-32 (IEEE polynomial `0xEDB88320`). -/
def crcStep (c : Nat) : Nat :=
  if c % 2 = 1 then (c / 2) ^^^ 0xEDB88320 else c / 2

/-- CRC-32 update with one byte. -/
def crcByte (c x : Nat) : Nat := crcStep^[8] (c ^^^ (x % 256))

/-- Go `crc32.ChecksumIEEE`. -/
def ChecksumIEEE (p : List Nat) : Nat :=
  (p.foldl crcByte 0xFFFFFFFF) ^^^ 0xFFFFFFFF

/-- Adler-32 update with one byte on the pair `(a, b)`. -/
def adlerByte (s : Nat × Nat) (x : Nat) : Nat × Nat :=
  ((s.1 + x % 256) % 65521, (s.2 + (s.1 + x % 256) % 65521) % 65521)

/-- Go `adler32.Checksum`. -/
def adler32 (p : List Nat) : Nat :=
  let s := p.foldl adlerByte (1, 0)
  s.2 * 65536 + s.1

/-! ## SHA-1 and HMAC (Go `crypto/sha1`, `crypto/hmac`) -/

/-- Rotate a 32-bit word left. -/
def rotl32 (x n : Nat) : Nat := ((x <<< n) ||| (x >>> (32 - n))) % 2 ^ 32

/-- SHA-1 message padding. -/
def sha1Pad (m : List Nat) : List Nat :=
  m ++ [0x80] ++ List.replicate ((119 - m.length % 64) % 64) 0
    ++ be32 (8 * m.length / 2 ^ 32 % 2 ^ 32) ++ be32 (8 * m.length % 2 ^ 32)

/-- Split into blocks of `n` items; `fuel` bounds the number of blocks. -/
def blocksOf (n : Nat) : Nat → List Nat → List (List Nat)
  | 0, _ => []
  | fuel + 1, xs => if xs = [] then [] else xs.take n :: blocksOf n fuel (xs.drop n)

/-- Extend the message schedule by `k` words. -/
def sha1Extend : Nat → List Nat → List Nat
  | 0, w => w
  | k + 1, w =>
    let i := w.length
    sha1Extend k (w ++ [rotl32 (w.getD (i - 3) 0 ^^^ w.getD (i - 8) 0
      ^^^ w.getD (i - 14) 0 ^^^ w.getD (i - 16) 0) 1])

/-- The five chaining words. -/
structure Sha1State where
  a : Nat
  b : Nat
  c : Nat
  d : Nat
  e : Nat

/-- One of the eighty SHA-1 rounds. -/
def sha1Round (s : Sha1State) (iw : Nat × Nat) : Sha1State :=
  let i := iw.1
  let fk : Nat × Nat :=
    if i < 20 then ((s.b &&& s.c) ||| ((s.b ^^^ 0xFFFFFFFF) &&& s.d), 0x5A827999)
    else if i < 40 then (s.b ^^^ s.c ^^^ s.d, 0x6ED9EBA1)
    else if i < 60 then ((s.b &&& s.c) ||| (s.b &&& s.d) ||| (s.c &&& s.d), 0x8F1BBCDC)
    else (s.b ^^^ s.c ^^^ s.d, 0xCA62C1D6)
  { a := (rotl32 s.a 5 + fk.1 + s.e + fk.2 + iw.2) % 2 ^ 32
    b := s.a
    c := rotl32 s.b 30
    d := s.c
    e := s.d }

/-- SHA-1 compression of one 64-byte block. -/
def sha1Block (h : Sha1State) (blk : List Nat) : Sha1State :=
  let w := sha1Extend 64 ((blocksOf 4 16 blk).map beVal)
  let s := (List.range 80).foldl (fun s i => sha1Round s (i, w.getD i 0)) h
  { a := (h.a + s.a) % 2 ^ 32
    b := (h.b + s.b) % 2 ^ 32
    c := (h.c + s.c) % 2 ^ 32
    d := (h.d + s.d) % 2 ^ 32
    e := (h.e + s.e) % 2 ^ 32 }

/-- Go `sha1.Sum`: the 20-byte digest. -/
def sha1 (m : List Nat) : List Nat :=
  let p := sha1Pad m
  let h := (blocksOf 64 (p.length / 64 + 1) p).foldl sha1Block
    { a := 0x67452301, b := 0xEFCDAB89, c := 0x98BADCFE, d := 0x10325476, e := 0xC3D2E1F0 }
  be32 h.a ++ be32 h.b ++ be32 h.c ++ be32 h.d ++ be32 h.e

/-- Go `hmac.New(sha1.New, key)` followed by `Write(msg)` and `Sum(nil)`. -/
def hmacSHA1 (key msg : List Nat) : List Nat :=
  let k0 := if key.length > 64 then sha1 key else key
  let k := k0 ++ List.replicate (64 - k0.length) 0
  sha1 (k.map (fun x => x ^^^ 0x5c) ++ sha1 (k.map (fun x => x ^^^ 0x36) ++ msg))

/-! ## `helpers.go` -/

/-- Go `shadowsocksr.GetPacketTCPHeaderSize` (helpers.go, lines 10-28). -/
def GetPacketTCPHeaderSize (b : List Nat) (defaultLength : Int) : Int :=
  match b with
  | b0 :: b1 :: _ =>
    if b0 &&& 0x07 = 1 then 7
    else if b0 &&& 0x07 = 4 then 19
    else if b0 &&& 0x07 = 3 then 4 + (b1 : Int)
    else defaultLength
  | _ => defaultLength

/-! ## `protocol/authsha1v4.go` -/

/-- Go `ClientInfo` (the mutex is not modelled: one caller at a time). -/
structure ClientInfo where
  ClientID : List Nat
  ConnID : Nat
deriving DecidableEq

/-- Go `AuthSHA1v4`; the pointer `clientInfo` is `none` when nil. -/
structure AuthSHA1v4 where
  authenticated : Bool
  clientInfo : Option ClientInfo
  iv : List Nat
  key : List Nat
deriving DecidableEq

/-- Go `NewAuthSHA1v4Protocol` (lines 32-37): only `Conn` and `authenticated`
are set, every other field has its zero value; the returned error is nil. -/
def NewAuthSHA1v4Protocol (_param : String) : AuthSHA1v4 :=
  { authenticated := false, clientInfo := none, iv := [], key := [] }

/-- Go `getRandomDataLength` (lines 192-200). -/
def getRandomDataLength (b : List Nat) (rnd : Rand) : Nat × Rand :=
  if b.length ≤ 400 then ((randIntn 1024 rnd).1 + 1, (randIntn 1024 rnd).2)
  else if b.length ≤ 1300 then ((randIntn 128 rnd).1 + 1, (randIntn 128 rnd).2)
  else (1, rnd)

/-- The rand-length indicator stored at offset `at_` (lines 118-125 and
171-178): one byte below 128, else `0xFF` and a big-endian `uint16`. -/
def putRandLength (outData : List Nat) (at_ randLength : Nat) : Except Fault (List Nat) :=
  if randLength < 128 then
    setIdx outData at_ (randLength &&& 0xFF)
  else do
    let outData ← setIdx outData at_ 0xFF
    storeAt outData (at_ + 1) outData.length (be16 (randLength &&& 0xFFFF))

/-- Go `pack` (lines 153-190). -/
def pack (b : List Nat) (rnd : Rand) : Except Fault (List Nat × Rand) := do
  let dataLength := b.length
  let randLength := (getRandomDataLength b rnd).1
  let rnd := (getRandomDataLength b rnd).2
  let outLength := randLength + dataLength + 8
  let outData := makeBytes outLength
  -- 0~1, out length
  let outData ← storeAt outData 0 2 (be16 (outLength &&& 0xFFFF))
  -- 2~3, crc of out length
  let crc32 := ChecksumIEEE b
  let outData ← storeAt outData 2 4 (le16 (crc32 &&& 0xFFFF))
  -- 4~rand length+4, rand number
  let filled ← randReadAt outData 4 (4 + randLength) rnd
  let outData := filled.1
  let rnd := filled.2
  -- 4, rand length
  let outData ← putRandLength outData 4 randLength
  -- rand length+4~out length-4, data
  let outData ← if dataLength > 0 then copyAt outData (randLength + 4) outData.length b
    else pure outData
  -- out length-4~end, adler32 of full data
  let summed ← goSlice outData 0 (outLength - 4)
  let adler := adler32 summed
  let outData ← storeAt outData (outLength - 4) outData.length (le32 adler)
  return (outData, rnd)

/-- The literal `[]byte("auth_sha1_v4")`. -/
def salt : List Nat := "auth_sha1_v4".toList.map Char.toNat

/-- The identity section of `packWithAuth` between `Lock` and the snapshot
(lines 88-96). -/
def acquireIdentity (ci : ClientInfo) (rnd : Rand) : ClientInfo × Rand :=
  let ci : ClientInfo := { ci with ConnID := (ci.ConnID + 1) % 2 ^ 32 }
  let ci : ClientInfo := if ci.ConnID > 0xFF000000 then { ci with ClientID := [] } else ci
  if ci.ClientID.length = 0 then
    ({ ClientID := (randRead 8 rnd).1
       ConnID := (randUint32 (randRead 8 rnd).2).1 &&& 0xFFFFF },
     (randUint32 (randRead 8 rnd).2).2)
  else (ci, rnd)

/-- Go `copy(dst, src)` on a whole destination: the destination afterwards. -/
def goCopy (dst src : List Nat) : List Nat :=
  src.take dst.length ++ dst.drop src.length

/-- Go `packWithAuth` (lines 78-151). The result carries the frame, the
connection with the identity as left by the call, and the random tape. -/
def packWithAuth (c : AuthSHA1v4) (b : List Nat) (now : Int) (rnd : Rand) :
    Except Fault (List Nat × AuthSHA1v4 × Rand) := do
  let dataLength := b.length
  let randLength := (getRandomDataLength b rnd).1
  let rnd := (getRandomDataLength b rnd).2
  let ObfsHMACSHA1Len := 10
  let dataOffset := randLength + 4 + 2
  let outLength := dataOffset + dataLength + 12 + ObfsHMACSHA1Len
  let outData := makeBytes outLength
  -- c.clientInfo.Mux.Lock() ... Unlock()
  let ci ← match c.clientInfo with
    | none => throw Fault.nilDeref
    | some ci => pure ci
  let ci' := (acquireIdentity ci rnd).1
  let rnd := (acquireIdentity ci rnd).2
  -- var clientID []byte; copy(clientID, c.clientInfo.ClientID)
  let clientID := goCopy [] ci'.ClientID
  let connID := ci'.ConnID
  let c := { c with clientInfo := some ci' }
  -- 0-1, out length
  let outData ← storeAt outData 0 outData.length (be16 (outLength &&& 0xFFFF))
  -- 2~6, crc of out length+salt+key
  let crcData := makeBytes (salt.length + c.key.length + 2)
  let lenBytes ← goSlice outData 0 2
  let crcData ← copyAt crcData 0 2 lenBytes
  let crcData ← copyAt crcData 2 crcData.length salt
  let crcData ← copyAt crcData (2 + salt.length) crcData.length c.key
  let crc32 := ChecksumIEEE crcData
  let outData ← storeAt outData 2 outData.length (le32 crc32)
  -- 6~rand length+6, rand numbers
  let filled ← randReadAt outData 6 dataOffset rnd
  let outData := filled.1
  let rnd := filled.2
  -- 6, rand length
  let outData ← putRandLength outData 6 randLength
  -- rand length+6~rand length+10, time stamp
  let outData ← storeAt outData dataOffset (dataOffset + 4) (le32 (now % 2 ^ 32).toNat)
  -- rand length+10~rand length+14, client ID
  let _ ← goSlice outData (dataOffset + 4) (dataOffset + 8)
  let idBytes ← goSlice clientID 0 4
  let outData ← copyAt outData (dataOffset + 4) (dataOffset + 8) idBytes
  -- rand length+14~rand length+18, connection ID
  let outData ← storeAt outData (dataOffset + 8) (dataOffset + 12) (le32 connID)
  -- rand length+18~rand length+18+data length, data
  let outData ← copyAt outData (dataOffset + 12) outData.length b
  let key := makeBytes (c.iv.length + c.key.length)
  let key := goCopy key c.iv
  let key ← copyAt key c.iv.length key.length c.key
  let signed ← goSlice outData 0 (outLength - ObfsHMACSHA1Len)
  let h ← goSlice (hmacSHA1 key signed) 0 10
  -- out length-10~out length, hmac
  let tag ← goSlice h 0 ObfsHMACSHA1Len
  let outData ← copyAt outData (outLength - ObfsHMACSHA1Len) outData.length tag
  return (outData, c, rnd)

/-- The constant `blockSize` of `Write`. -/
def blockSize : Nat := 4096

/-- The loop `for dataLength > blockSize` of `Write` (lines 63-68); the result
is `(outData, dataLength, offset, rnd)` at loop exit. -/
def writeLoop (b : List Nat) :
    Nat → Nat → Nat → List Nat → Rand → Except Fault (List Nat × Nat × Nat × Rand)
  | 0, dataLength, offset, outData, rnd =>
    if dataLength > blockSize then .error .outOfFuel else .ok (outData, dataLength, offset, rnd)
  | fuel + 1, dataLength, offset, outData, rnd =>
    if dataLength > blockSize then do
      let chunk ← goSlice b offset (offset + blockSize)
      let packed ← pack chunk rnd
      writeLoop b fuel (dataLength - blockSize) (offset + blockSize) (outData ++ packed.1) packed.2
    else .ok (outData, dataLength, offset, rnd)

/-- What a call of `Write` leaves behind: the result `(n, err)` of the
underlying write, the buffer handed to it, the connection and the tape. -/
structure WriteResult (ε : Type) where
  n : Int
  err : Option ε
  sent : List Nat
  conn : AuthSHA1v4
  rnd : Rand

/-- Go `AuthSHA1v4.Write` (lines 43-76). -/
def Write {ε : Type} (under : List Nat → Int × Option ε) (c : AuthSHA1v4) (b : List Nat)
    (now : Int) (rnd : Rand) : Except Fault (WriteResult ε) := do
  let dataLength : Int := b.length
  let outData : List Nat := []
  let st ← if !c.authenticated && dataLength > 0 then do
      let headSize := GetPacketTCPHeaderSize b 30
      let authLength : Int := if headSize ≤ dataLength then headSize else dataLength
      let head ← if authLength < 0 then throw Fault.sliceBounds else goSlice b 0 authLength.toNat
      let packed ← packWithAuth c head now rnd
      let c := { packed.2.1 with authenticated := true }
      pure (c, outData ++ packed.1, (dataLength - authLength).toNat, authLength.toNat, packed.2.2)
    else pure (c, outData, dataLength.toNat, 0, rnd)
  let c := st.1
  let looped ← writeLoop b st.2.2.1 st.2.2.1 st.2.2.2.1 st.2.1 st.2.2.2.2
  let outData := looped.1
  let dataLength := looped.2.1
  let offset := looped.2.2.1
  let rnd := looped.2.2.2
  let tail ← if dataLength > 0 then do
      let rest ← goSlice b offset b.length
      let packed ← pack rest rnd
      pure (outData ++ packed.1, packed.2)
    else pure (outData, rnd)
  let res := under tail.1
  return { n := res.1, err := res.2, sent := tail.1, conn := c, rnd := tail.2 }

/-! ## Closed forms used to state the frame layout -/

/-- The filler region of a frame as it leaves `pack`/`packWithAuth`:
`randLength` random bytes, the first one (rand length below 128) or the first
three overwritten by the rand-length indicator. -/
def fillerBytes (randLength : Nat) (rnd : Rand) : List Nat :=
  if randLength < 128 then
    [randLength &&& 0xFF] ++ (randRead randLength rnd).1.drop 1
  else
    [0xFF] ++ be16 (randLength &&& 0xFFFF) ++ (randRead randLength rnd).1.drop 3

/-- Everything of a plain frame before its Adler-32 trailer, written out by
layout: length field, CRC field, filler region, payload. -/
def plainBody (b : List Nat) (rnd : Rand) : List Nat :=
  be16 (((getRandomDataLength b rnd).1 + b.length + 8) &&& 0xFFFF)
    ++ le16 (ChecksumIEEE b &&& 0xFFFF)
    ++ fillerBytes (getRandomDataLength b rnd).1 (getRandomDataLength b rnd).2
    ++ b

/-- The plain frame written out by layout. -/
def plainFrame (b : List Nat) (rnd : Rand) : List Nat :=
  plainBody b rnd ++ le32 (adler32 (plainBody b rnd))

/-- The random tape after `pack` has framed `b`. -/
def packTape (b : List Nat) (rnd : Rand) : Rand :=
  (randRead (getRandomDataLength b rnd).1 (getRandomDataLength b rnd).2).2

/-- The frames `pack` makes of a list of payloads, in order, threading the
random tape from one frame to the next. -/
def packEach : List (List Nat) → Rand → Except Fault (List (List Nat) × Rand)
  | [], rnd => .ok ([], rnd)
  | p :: ps, rnd => do
    let packed ← pack p rnd
    let rest ← packEach ps packed.2
    pure (packed.1 :: rest.1, rest.2)

/-- The closed form of `packEach`. -/
def framesOf : List (List Nat) → Rand → List (List Nat) × Rand
  | [], rnd => ([], rnd)
  | p :: ps, rnd =>
    (plainFrame p rnd :: (framesOf ps (packTape p rnd)).1, (framesOf ps (packTape p rnd)).2)

/-! ## Go strings

A Go `string` that holds text is a `List Char` (valid UTF-8); `[]byte(s)` is
its UTF-8 encoding. -/

/-- Go `[]byte(s)`. -/
def strBytes (s : List Char) : List Nat :=
  (s.map (fun c => (String.utf8EncodeChar c).map UInt8.toNat)).flatten

/-- Go indexing `xs[i]`. -/
def goIndex {α : Type} (xs : List α) (i : Nat) : Except Fault α :=
  match xs.get? i with
  | some x => .ok x
  | none => .error .indexRange

/-- Go `strings.Split(s, sep)` for a one-character separator. -/
def Split (sep : Char) : List Char → List (List Char)
  | [] => [[]]
  | c :: cs =>
    if c = sep then [] :: Split sep cs
    else match Split sep cs with
      | p :: ps => (c :: p) :: ps
      | [] => [[c]]

/-- Go `unicode.IsSpace`. -/
def isSpace (c : Char) : Bool :=
  let n := c.toNat
  (9 ≤ n && n ≤ 13) || n = 0x20 || n = 0x85 || n = 0xA0 || n = 0x1680
    || (0x2000 ≤ n && n ≤ 0x200a) || n = 0x2028 || n = 0x2029 || n = 0x202f
    || n = 0x205f || n = 0x3000

/-- Go `strings.TrimSpace`. -/
def TrimSpace (s : List Char) : List Char :=
  ((s.dropWhile isSpace).reverse.dropWhile isSpace).reverse

/-- Value of a string of decimal digits, `none` when a character is not a digit. -/
def digitsVal : List Char → Nat → Option Nat
  | [], acc => some acc
  | c :: cs, acc =>
    if 48 ≤ c.toNat ∧ c.toNat ≤ 57 then digitsVal cs (acc * 10 + (c.toNat - 48)) else none

/-- The value returned by Go `strconv.Atoi(s)` (the error is dropped by the
caller): 0 on a syntax error, the nearest `int64` on a range error. -/
def Atoi (s : List Char) : Int :=
  let neg := s.head? = some '-'
  let ds := if s.head? = some '-' ∨ s.head? = some '+' then s.tail else s
  if ds = [] then 0
  else match digitsVal ds 0 with
    | none => 0
    | some v =>
      if neg then (if v > 2 ^ 63 then -(2 ^ 63 : Int) else -(v : Int))
      else (if v ≥ 2 ^ 63 then (2 ^ 63 - 1 : Int) else (v : Int))

/-- Go `strings.Replace(s, "\\n", "\r\n", -1)`: every backslash followed by
`n`, left to right, becomes CR LF. -/
def replaceEscapedNewlines : List Char → List Char
  | [] => []
  | [c] => [c]
  | c :: d :: rest =>
    if c = Char.ofNat 92 ∧ d = 'n' then '\r' :: '\n' :: replaceEscapedNewlines rest
    else c :: replaceEscapedNewlines (d :: rest)

/-- Go `upperhex[n]`. -/
def hexDigit (n : Nat) : Char := "0123456789ABCDEF".toList.getD n '0'

/-- Go `shouldEscape(c, encodeQueryComponent)` of `net/url`. -/
def shouldEscape (c : Nat) : Bool :=
  !((97 ≤ c && c ≤ 122) || (65 ≤ c && c ≤ 90) || (48 ≤ c && c ≤ 57)
    || c = 45 || c = 95 || c = 46 || c = 126)

/-- Go `url.QueryEscape(string(p))` on the bytes `p`. -/
def QueryEscape : List Nat → List Char
  | [] => []
  | c :: cs =>
    if c = 32 then '+' :: QueryEscape cs
    else if shouldEscape c then '%' :: hexDigit (c / 16) :: hexDigit (c % 16) :: QueryEscape cs
    else Char.ofNat c :: QueryEscape cs

/-- Go `unhex` of `net/url`, `none` when the character is not a hex digit. -/
def unhex (c : Char) : Option Nat :=
  let n := c.toNat
  if 48 ≤ n ∧ n ≤ 57 then some (n - 48)
  else if 97 ≤ n ∧ n ≤ 102 then some (n - 97 + 10)
  else if 65 ≤ n ∧ n ≤ 70 then some (n - 65 + 10)
  else none

/-- Go `url.QueryUnescape` on an ASCII string, as bytes; `none` is the
`EscapeError`. -/
def QueryUnescape : List Char → Option (List Nat)
  | [] => some []
  | c :: cs =>
    if c = '%' then
      match cs with
      | h :: l :: rest =>
        match unhex h, unhex l, QueryUnescape rest with
        | some hv, some lv, some out => some ((hv * 16 + lv) :: out)
        | _, _, _ => none
      | _ => none
    else if c = '+' then (QueryUnescape cs).map (fun out => 32 :: out)
    else (QueryUnescape cs).map (fun out => c.toNat :: out)

/-! ## `obfs/http-simple.go` -/

namespace Obfs

/-- Go `ShadowSocksRHTTPSimpleObfs` without the embedded `net.Conn`. -/
structure ShadowSocksRHTTPSimpleObfs where
  headerSent : Bool
  tcpHeaderLength : Int
  ivLen : Int
  Method : List Char
  RequestURI : List (List Char)
  Host : List Char
  Port : Int
  UserAgent : List Char
  CustomHeader : List Char

/-- Go `RequestURIs`. -/
def RequestURIs : List (List (List Char)) :=
  [ ["/".toList, "".toList],
    ["/login.php?redir=".toList, "".toList],
    ["/register.php?code=".toList, "".toList],
    ["/s?ie=utf-8&f=8&rsv_bp=1&rsv_idx=1&ch=&bar=&wd=".toList, "&rn=".toList],
    ["/post.php?id=".toList, "&goto=view.php".toList] ]

/-- Go `UserAgents`. -/
def UserAgents : List (List Char) :=
  [ "Mozilla/5.0 (Windows NT 6.3; WOW64; rv:40.0) Gecko/20100101 Firefox/40.0".toList,
    "Mozilla/5.0 (Windows NT 6.3; WOW64; rv:40.0) Gecko/20100101 Firefox/44.0".toList,
    "Mozilla/5.0 (Windows NT 6.1) AppleWebKit/537.36 (KHTML, like Gecko) Chrome/41.0.2228.0 Safari/537.36".toList,
    "Mozilla/5.0 (X11; Linux x86_64) AppleWebKit/535.11 (KHTML, like Gecko) Ubuntu/11.10 Chromium/27.0.1453.93 Chrome/27.0.1453.93 Safari/537.36".toList,
    "Mozilla/5.0 (X11; Ubuntu; Linux x86_64; rv:35.0) Gecko/20100101 Firefox/35.0".toList,
    "Mozilla/5.0 (compatible; WOW64; MSIE 10.0; Windows NT 6.2)".toList,
    "Mozilla/5.0 (Windows; U; Windows NT 6.1; en-US) AppleWebKit/533.20.25 (KHTML, like Gecko) Version/5.0.4 Safari/533.20.27".toList,
    "Mozilla/4.0 (compatible; MSIE 7.0; Windows NT 6.3; Trident/7.0; .NET4.0E; .NET4.0C)".toList,
    "Mozilla/5.0 (Windows NT 6.3; Trident/7.0; rv:11.0) like Gecko".toList,
    "Mozilla/5.0 (Linux; Android 4.4; Nexus 5 Build/BuildID) AppleWebKit/537.36 (KHTML, like Gecko) Version/4.0 Chrome/30.0.0.0 Mobile Safari/537.36".toList,
    "Mozilla/5.0 (iPad; CPU OS 5_0 like Mac OS X) AppleWebKit/534.46 (KHTML, like Gecko) Version/5.1 Mobile/9A334 Safari/7534.48.3".toList,
    "Mozilla/5.0 (iPhone; CPU iPhone OS 5_0 like Mac OS X) AppleWebKit/534.46 (KHTML, like Gecko) Version/5.1 Mobile/9A334 Safari/7534.48.3".toList ]

/-- Go `NewShadowSocksRHTTPSimpleObfs` (lines 52-84). -/
def NewShadowSocksRHTTPSimpleObfs (param : List Char) (rnd : Rand) :
    Except Fault (ShadowSocksRHTTPSimpleObfs × Rand) := do
  let parsed ← if param.length > 0 then do
      let paramParts := Split '#' param
      let part0 ← goIndex paramParts 0
      let domains := Split ',' part0
      let domain ← goIndex domains (randIntn domains.length rnd).1
      let rnd := (randIntn domains.length rnd).2
      let domainParts := Split ':' domain
      let first ← goIndex domainParts 0
      let host := TrimSpace first
      let port ← if domainParts.length > 1 then do
          let portText ← goIndex domainParts 1
          pure (Atoi portText)
        else pure (80 : Int)
      let customHeader ← if paramParts.length > 1 then do
          let part1 ← goIndex paramParts 1
          pure (replaceEscapedNewlines part1)
        else pure []
      pure (host, port, customHeader, rnd)
    else pure ("bing.com".toList, (80 : Int), [], rnd)
  let rnd := parsed.2.2.2
  let requestURI ← goIndex RequestURIs (randIntn RequestURIs.length rnd).1
  let rnd := (randIntn RequestURIs.length rnd).2
  let userAgent ← goIndex UserAgents (randIntn UserAgents.length rnd).1
  let rnd := (randIntn UserAgents.length rnd).2
  return ({ headerSent := false
            tcpHeaderLength := 0
            ivLen := 0
            Method := "GET".toList
            RequestURI := requestURI
            Host := parsed.1
            Port := parsed.2.1
            UserAgent := userAgent
            CustomHeader := parsed.2.2.1 }, rnd)

/-- Go `SetTCPHeaderLength` (lines 86-88). -/
def SetTCPHeaderLength (c : ShadowSocksRHTTPSimpleObfs) (b : List Nat) (defaultLength : Int) :
    ShadowSocksRHTTPSimpleObfs :=
  { c with tcpHeaderLength := GetPacketTCPHeaderSize b defaultLength }

/-- The character set of `randomBoundary`. -/
def boundarySet : List Char :=
  "ABCDEFGHIJKLMNOPQRSTUVWXYZabcdefghijklmnopqrstuvwxyz0123456789".toList

/-- Go `randomBoundary` (lines 90-97): `k` more characters of the loop. -/
def randomBoundaryLoop : Nat → Rand → Except Fault (List Char × Rand)
  | 0, rnd => .ok ([], rnd)
  | k + 1, rnd => do
    let ch ← goIndex boundarySet (randIntn boundarySet.length rnd).1
    let rest ← randomBoundaryLoop k (randIntn boundarySet.length rnd).2
    pure (ch :: rest.1, rest.2)

/-- Go `randomBoundary` (lines 90-97). -/
def randomBoundary (rnd : Rand) : Except Fault (List Char × Rand) :=
  randomBoundaryLoop 32 rnd

/-- The choice of `dataInHeader` in `Write` (lines 104-111). -/
def dataInHeader (c : ShadowSocksRHTTPSimpleObfs) (b : List Nat) (rnd : Rand) :
    Except Fault (List Nat × Rand) := do
  let dataLength : Int := b.length
  let headSize := c.ivLen + c.tcpHeaderLength
  let made ← if dataLength - headSize > 64 then
      (if headSize + ((randIntn 64 rnd).1 : Int) < 0 then throw Fault.makeLen
       else pure (makeBytes (headSize + ((randIntn 64 rnd).1 : Int)).toNat, (randIntn 64 rnd).2))
    else pure (makeBytes dataLength.toNat, rnd)
  let src ← goSlice b 0 made.1.length
  return (goCopy made.1 src, made.2)

/-- The header lines after the `Host` line in `Write` (lines 121-137), with
the blank line that ends the block. -/
def headerLines (c : ShadowSocksRHTTPSimpleObfs) (rnd : Rand) :
    Except Fault (List Char × Rand) :=
  if c.CustomHeader.length > 0 then
    .ok (c.CustomHeader ++ "\r\n\r\n".toList, rnd)
  else do
    let ct ← if c.Method = "GET".toList then do
        let bd ← randomBoundary rnd
        pure ("Content-Type: multipart/form-data; boundary=".toList ++ bd.1 ++ "\r\n".toList, bd.2)
      else pure ([], rnd)
    pure ("User-Agent: ".toList ++ c.UserAgent ++ "\r\n".toList ++
      "Accept: text/html,application/xhtml+xml,application/xml;q=0.9,*/*;q=0.8\r\n".toList ++
      "Accept-Language: en-US,en;q=0.8\r\n".toList ++
      "Accept-Encoding: gzip, deflate\r\n".toList ++
      ct.1 ++
      "DNT: 1\r\n".toList ++
      "Connection: keep-alive\r\n".toList ++
      "\r\n".toList, ct.2)

/-- The request line and the `Host` line of `Write` (lines 113-119):
`fmt.Sprintf("%s %s%s%s HTTP/1.1\r\nHost: %s:%d\r\n", ...)` with the escaped
payload `escaped` between the two halves of the request URI. -/
def httpHead (c : ShadowSocksRHTTPSimpleObfs) (uri0 escaped uri1 : List Char) : List Char :=
  c.Method ++ " ".toList ++ uri0 ++ escaped ++ uri1 ++ " HTTP/1.1\r\n".toList ++
    "Host: ".toList ++ c.Host ++ ":".toList ++ (toString c.Port).toList ++ "\r\n".toList

/-- What a call of `Write` leaves behind: the result `(n, err)` of the
underlying write, the buffer handed to it, the connection and the tape. -/
structure WriteResult (ε : Type) where
  n : Int
  err : Option ε
  sent : List Nat
  conn : ShadowSocksRHTTPSimpleObfs
  rnd : Rand

/-- Go `ShadowSocksRHTTPSimpleObfs.Write` (lines 99-150). -/
def Write {ε : Type} (under : List Nat → Int × Option ε) (c : ShadowSocksRHTTPSimpleObfs)
    (b : List Nat) (rnd : Rand) : Except Fault (WriteResult ε) :=
  if c.headerSent then
    .ok { n := (under b).1, err := (under b).2, sent := b, conn := c, rnd := rnd }
  else do
    let dataLength := b.length
    let chosen ← dataInHeader c b rnd
    let inHeader := chosen.1
    let rnd := chosen.2
    let uri0 ← goIndex c.RequestURI 0
    let uri1 ← goIndex c.RequestURI 1
    let httpBuf := httpHead c uri0 (QueryEscape inHeader) uri1
    let lines ← headerLines c rnd
    let httpBuf := httpBuf ++ lines.1
    let rnd := lines.2
    let dataToWrite ← if inHeader.length < dataLength then do
        let out := makeBytes ((strBytes httpBuf).length + (dataLength - inHeader.length))
        let out := goCopy out (strBytes httpBuf)
        let rest ← goSlice b inHeader.length b.length
        copyAt out (strBytes httpBuf).length out.length rest
      else pure (strBytes httpBuf)
    let c := { c with headerSent := true }
    return { n := (under dataToWrite).1, err := (under dataToWrite).2,
             sent := dataToWrite, conn := c, rnd := rnd }

/-- A sequence of `Write` calls on one connection: the buffers handed to the
underlying stream, in order, and the connection afterwards. -/
def writeAll {ε : Type} (under : List Nat → Int × Option ε) :
    ShadowSocksRHTTPSimpleObfs → List (List Nat) → Rand →
      Except Fault (List (List Nat) × ShadowSocksRHTTPSimpleObfs × Rand)
  | c, [], rnd => .ok ([], c, rnd)
  | c, b :: bs, rnd => do
    let r ← Write under c b rnd
    let rest ← writeAll under r.conn bs r.rnd
    pure (r.sent :: rest.1, rest.2)

end Obfs

/-! ## MD5 (Go `crypto/md5`) -/

/-- Value of a little-endian byte string. -/
def leVal (bs : List Nat) : Nat := bs.foldr (fun x acc => x + 256 * acc) 0

/-- The sine table of MD5. -/
def md5K : List Nat :=
  [0xd76aa478, 0xe8c7b756, 0x242070db, 0xc1bdceee, 0xf57c0faf, 0x4787c62a, 0xa8304613, 0xfd469501,
   0x698098d8, 0x8b44f7af, 0xffff5bb1, 0x895cd7be, 0x6b901122, 0xfd987193, 0xa679438e, 0x49b40821,
   0xf61e2562, 0xc040b340, 0x265e5a51, 0xe9b6c7aa, 0xd62f105d, 0x02441453, 0xd8a1e681, 0xe7d3fbc8,
   0x21e1cde6, 0xc33707d6, 0xf4d50d87, 0x455a14ed, 0xa9e3e905, 0xfcefa3f8, 0x676f02d9, 0x8d2a4c8a,
   0xfffa3942, 0x8771f681, 0x6d9d6122, 0xfde5380c, 0xa4beea44, 0x4bdecfa9, 0xf6bb4b60, 0xbebfbc70,
   0x289b7ec6, 0xeaa127fa, 0xd4ef3085, 0x04881d05, 0xd9d4d039, 0xe6db99e5, 0x1fa27cf8, 0xc4ac5665,
   0xf4292244, 0x432aff97, 0xab9423a7, 0xfc93a039, 0x655b59c3, 0x8f0ccc92, 0xffeff47d, 0x85845dd1,
   0x6fa87e4f, 0xfe2ce6e0, 0xa3014314, 0x4e0811a1, 0xf7537e82, 0xbd3af235, 0x2ad7d2bb, 0xeb86d391]

/-- The per-round shift amounts of MD5. -/
def md5S : List Nat :=
  [7, 12, 17, 22, 7, 12, 17, 22, 7, 12, 17, 22, 7, 12, 17, 22,
   5, 9, 14, 20, 5, 9, 14, 20, 5, 9, 14, 20, 5, 9, 14, 20,
   4, 11, 16, 23, 4, 11, 16, 23, 4, 11, 16, 23, 4, 11, 16, 23,
   6, 10, 15, 21, 6, 10, 15, 21, 6, 10, 15, 21, 6, 10, 15, 21]

/-- MD5 message padding. -/
def md5Pad (m : List Nat) : List Nat :=
  m ++ [0x80] ++ List.replicate ((119 - m.length % 64) % 64) 0
    ++ le32 (8 * m.length % 2 ^ 32) ++ le32 (8 * m.length / 2 ^ 32 % 2 ^ 32)

/-- The four chaining words of MD5. -/
structure Md5State where
  a : Nat
  b : Nat
  c : Nat
  d : Nat

/-- One of the sixty-four MD5 steps on the message words `w`. -/
def md5Step (w : List Nat) (s : Md5State) (i : Nat) : Md5State :=
  let nb := s.b ^^^ 0xFFFFFFFF
  let nd := s.d ^^^ 0xFFFFFFFF
  let fg : Nat × Nat :=
    if i < 16 then ((s.b &&& s.c) ||| (nb &&& s.d), i)
    else if i < 32 then ((s.d &&& s.b) ||| (nd &&& s.c), (5 * i + 1) % 16)
    else if i < 48 then (s.b ^^^ s.c ^^^ s.d, (3 * i + 5) % 16)
    else (s.c ^^^ (s.b ||| nd), (7 * i) % 16)
  let f := (fg.1 + s.a + md5K.getD i 0 + w.getD fg.2 0) % 2 ^ 32
  { a := s.d, d := s.c, c := s.b, b := (s.b + rotl32 f (md5S.getD i 0)) % 2 ^ 32 }

/-- MD5 compression of one 64-byte block. -/
def md5Block (h : Md5State) (blk : List Nat) : Md5State :=
  let w := (blocksOf 4 16 blk).map leVal
  let s := (List.range 64).foldl (md5Step w) h
  { a := (h.a + s.a) % 2 ^ 32
    b := (h.b + s.b) % 2 ^ 32
    c := (h.c + s.c) % 2 ^ 32
    d := (h.d + s.d) % 2 ^ 32 }

/-- Go `md5.Sum`: the 16-byte digest. -/
def md5 (m : List Nat) : List Nat :=
  let p := md5Pad m
  let h := (blocksOf 64 (p.length / 64 + 1) p).foldl md5Block
    { a := 0x67452301, b := 0xefcdab89, c := 0x98badcfe, d := 0x10325476 }
  le32 h.a ++ le32 h.b ++ le32 h.c ++ le32 h.d

/-! ## Salsa20 (Go `golang.org/x/crypto/salsa20/salsa`) -/

/-- The Salsa20 quarter round on the words at positions `a b c d`. -/
def salsaQuarter (x : List Nat) (a b c d : Nat) : List Nat :=
  let x := x.set b (x.getD b 0 ^^^ rotl32 ((x.getD a 0 + x.getD d 0) % 2 ^ 32) 7)
  let x := x.set c (x.getD c 0 ^^^ rotl32 ((x.getD b 0 + x.getD a 0) % 2 ^ 32) 9)
  let x := x.set d (x.getD d 0 ^^^ rotl32 ((x.getD c 0 + x.getD b 0) % 2 ^ 32) 13)
  x.set a (x.getD a 0 ^^^ rotl32 ((x.getD d 0 + x.getD c 0) % 2 ^ 32) 18)

/-- The Salsa20 double round: the column round, then the row round. -/
def salsaDoubleRound (x : List Nat) : List Nat :=
  let x := salsaQuarter x 0 4 8 12
  let x := salsaQuarter x 5 9 13 1
  let x := salsaQuarter x 10 14 2 6
  let x := salsaQuarter x 15 3 7 11
  let x := salsaQuarter x 0 1 2 3
  let x := salsaQuarter x 5 6 7 4
  let x := salsaQuarter x 10 11 8 9
  salsaQuarter x 15 12 13 14

/-- The constant `Sigma`, "expand 32-byte k". -/
def salsaSigma : List Nat := "expand 32-byte k".toList.map Char.toNat

/-- Go `salsa.core`: the 64-byte keystream block for the 16-byte input `inp`
(nonce and block counter) under the 32-byte key `k`. -/
def salsaCore (inp k : List Nat) : List Nat :=
  let c := salsaSigma
  let wordAt (bs : List Nat) (i : Nat) : Nat := leVal ((bs.drop i).take 4)
  let j : List Nat :=
    [wordAt c 0, wordAt k 0, wordAt k 4, wordAt k 8, wordAt k 12, wordAt c 4,
     wordAt inp 0, wordAt inp 4, wordAt inp 8, wordAt inp 12, wordAt c 8,
     wordAt k 16, wordAt k 20, wordAt k 24, wordAt k 28, wordAt c 12]
  let x := salsaDoubleRound^[10] j
  ((List.zipWith (fun a b => (a + b) % 2 ^ 32) x j).map le32).flatten

/-- Bytes of a little-endian `uint64`. -/
def le64 (v : Nat) : List Nat := le32 (v % 2 ^ 32) ++ le32 (v / 2 ^ 32 % 2 ^ 32)

/-- Go `salsa.XORKeyStream(out, in, counter, key)`: block `i` of the input is
XORed with the core of the counter whose last eight bytes, a little-endian
block number, have been advanced by `i` (modulo `2^64`). -/
def salsaXORKeyStream (inp counter key : List Nat) : List Nat :=
  (List.range inp.length).map (fun i =>
    inp.getD i 0 ^^^
      (salsaCore (counter.take 8 ++ le64 ((leVal (counter.drop 8) + i / 64) % 2 ^ 64)) key).getD
        (i % 64) 0)

/-! ## AES (Go `crypto/aes`) -/

/-- The S-box of AES. -/
def aesSbox : List Nat :=
  [ 0x63, 0x7c, 0x77, 0x7b, 0xf2, 0x6b, 0x6f, 0xc5, 0x30, 0x01, 0x67, 0x2b, 0xfe, 0xd7, 0xab, 0x76,
    0xca, 0x82, 0xc9, 0x7d, 0xfa, 0x59, 0x47, 0xf0, 0xad, 0xd4, 0xa2, 0xaf, 0x9c, 0xa4, 0x72, 0xc0,
    0xb7, 0xfd, 0x93, 0x26, 0x36, 0x3f, 0xf7, 0xcc, 0x34, 0xa5, 0xe5, 0xf1, 0x71, 0xd8, 0x31, 0x15,
    0x04, 0xc7, 0x23, 0xc3, 0x18, 0x96, 0x05, 0x9a, 0x07, 0x12, 0x80, 0xe2, 0xeb, 0x27, 0xb2, 0x75,
    0x09, 0x83, 0x2c, 0x1a, 0x1b, 0x6e, 0x5a, 0xa0, 0x52, 0x3b, 0xd6, 0xb3, 0x29, 0xe3, 0x2f, 0x84,
    0x53, 0xd1, 0x00, 0xed, 0x20, 0xfc, 0xb1, 0x5b, 0x6a, 0xcb, 0xbe, 0x39, 0x4a, 0x4c, 0x58, 0xcf,
    0xd0, 0xef, 0xaa, 0xfb, 0x43, 0x4d, 0x33, 0x85, 0x45, 0xf9, 0x02, 0x7f, 0x50, 0x3c, 0x9f, 0xa8,
    0x51, 0xa3, 0x40, 0x8f, 0x92, 0x9d, 0x38, 0xf5, 0xbc, 0xb6, 0xda, 0x21, 0x10, 0xff, 0xf3, 0xd2,
    0xcd, 0x0c, 0x13, 0xec, 0x5f, 0x97, 0x44, 0x17, 0xc4, 0xa7, 0x7e, 0x3d, 0x64, 0x5d, 0x19, 0x73,
    0x60, 0x81, 0x4f, 0xdc, 0x22, 0x2a, 0x90, 0x88, 0x46, 0xee, 0xb8, 0x14, 0xde, 0x5e, 0x0b, 0xdb,
    0xe0, 0x32, 0x3a, 0x0a, 0x49, 0x06, 0x24, 0x5c, 0xc2, 0xd3, 0xac, 0x62, 0x91, 0x95, 0xe4, 0x79,
    0xe7, 0xc8, 0x37, 0x6d, 0x8d, 0xd5, 0x4e, 0xa9, 0x6c, 0x56, 0xf4, 0xea, 0x65, 0x7a, 0xae, 0x08,
    0xba, 0x78, 0x25, 0x2e, 0x1c, 0xa6, 0xb4, 0xc6, 0xe8, 0xdd, 0x74, 0x1f, 0x4b, 0xbd, 0x8b, 0x8a,
    0x70, 0x3e, 0xb5, 0x66, 0x48, 0x03, 0xf6, 0x0e, 0x61, 0x35, 0x57, 0xb9, 0x86, 0xc1, 0x1d, 0x9e,
    0xe1, 0xf8, 0x98, 0x11, 0x69, 0xd9, 0x8e, 0x94, 0x9b, 0x1e, 0x87, 0xe9, 0xce, 0x55, 0x28, 0xdf,
    0x8c, 0xa1, 0x89, 0x0d, 0xbf, 0xe6, 0x42, 0x68, 0x41, 0x99, 0x2d, 0x0f, 0xb0, 0x54, 0xbb, 0x16 ]

/-- Multiplication by `x` in the field of AES. -/
def aesXtime (a : Nat) : Nat :=
  if a &&& 0x80 = 0 then (a <<< 1) % 256 else ((a <<< 1) % 256) ^^^ 0x1b

/-- The S-box applied to every byte. -/
def aesSubBytes (s : List Nat) : List Nat := s.map (fun x => aesSbox.getD x 0)

/-- One word more of the key schedule; `w` holds the bytes of the words so far
and `nk` is the number of words of the key. -/
def aesExpandStep (nk : Nat) (w : List Nat) : List Nat :=
  let i := w.length / 4
  let prev := (w.drop (4 * (i - 1))).take 4
  let temp :=
    if i % nk = 0 then
      List.zipWith (fun a b => a ^^^ b) (aesSubBytes (prev.drop 1 ++ prev.take 1))
        [aesXtime^[i / nk - 1] 1, 0, 0, 0]
    else if nk > 6 ∧ i % nk = 4 then aesSubBytes prev
    else prev
  w ++ List.zipWith (fun a b => a ^^^ b) ((w.drop (4 * (i - nk))).take 4) temp

/-- The key schedule: the bytes of the `4 * (nr + 1)` words, `nr = nk + 6`. -/
def aesExpandKey (key : List Nat) : List Nat :=
  (aesExpandStep (key.length / 4))^[4 * (key.length / 4 + 7) - key.length / 4] key

/-- The row shift of AES on a state held column by column. -/
def aesShiftRows (s : List Nat) : List Nat :=
  (List.range 16).map (fun i => s.getD (i % 4 + 4 * ((i / 4 + i % 4) % 4)) 0)

/-- The column mix of AES on one column. -/
def aesMixColumn (a : List Nat) : List Nat :=
  let a0 := a.getD 0 0
  let a1 := a.getD 1 0
  let a2 := a.getD 2 0
  let a3 := a.getD 3 0
  [ aesXtime a0 ^^^ (aesXtime a1 ^^^ a1) ^^^ a2 ^^^ a3,
    a0 ^^^ aesXtime a1 ^^^ (aesXtime a2 ^^^ a2) ^^^ a3,
    a0 ^^^ a1 ^^^ aesXtime a2 ^^^ (aesXtime a3 ^^^ a3),
    (aesXtime a0 ^^^ a0) ^^^ a1 ^^^ a2 ^^^ aesXtime a3 ]

/-- The column mix of AES. -/
def aesMixColumns (s : List Nat) : List Nat :=
  aesMixColumn (s.take 4) ++ aesMixColumn ((s.drop 4).take 4)
    ++ aesMixColumn ((s.drop 8).take 4) ++ aesMixColumn ((s.drop 12).take 4)

/-- The round key of round `r` added to the state. -/
def aesAddRoundKey (w : List Nat) (r : Nat) (s : List Nat) : List Nat :=
  List.zipWith (fun a b => a ^^^ b) s ((w.drop (16 * r)).take 16)

/-- One of the rounds `1 .. nr - 1`. -/
def aesRound (w : List Nat) (s : List Nat) (r : Nat) : List Nat :=
  aesAddRoundKey w r (aesMixColumns (aesShiftRows (aesSubBytes s)))

/-- Go `Block.Encrypt` of `aes.NewCipher(key)` on one block. -/
def aesEncryptBlock (key blk : List Nat) : List Nat :=
  let w := aesExpandKey key
  let nr := key.length / 4 + 6
  let s := ((List.range (nr - 1)).map (fun r => r + 1)).foldl (aesRound w)
    (aesAddRoundKey w 0 blk)
  aesAddRoundKey w nr (aesShiftRows (aesSubBytes s))

/-! ## Stream ciphers (Go `crypto/cipher`, `go-shadowsocks2/shadowstream` and
`encryption/stream/{mode,cipher}`)

The block ciphers (AES, Blowfish, CAST5, DES) and the RC4 and ChaCha20
keystreams of the Go libraries are parameters of the embedding, gathered in
`Primitives`; the modes of operation, MD5 and Salsa20 are written out. -/

/-- The block ciphers of the suite table. -/
inductive BlockKind where
  | aes
  | blowfish
  | cast5
  | des
deriving DecidableEq

/-- Go `Block.BlockSize()`. -/
def BlockKind.BlockSize : BlockKind → Nat
  | .aes => 16
  | .blowfish => 8
  | .cast5 => 8
  | .des => 8

/-- The key lengths the `NewCipher` of each block cipher accepts. -/
def BlockKind.keyOk : BlockKind → Nat → Bool
  | .aes, n => n = 16 || n = 24 || n = 32
  | .blowfish, n => 1 ≤ n && n ≤ 56
  | .cast5, n => n = 16
  | .des, n => n = 8

/-- Library primitives taken as parameters. -/
structure Primitives where
  /-- `Block.Encrypt` of the block cipher under a key, on one block. -/
  encryptBlock : BlockKind → List Nat → List Nat → List Nat
  /-- Byte `i` of the RC4 keystream under a key. -/
  rc4 : List Nat → Nat → Nat
  /-- Byte `i` of the ChaCha20 keystream under a key and a nonce. -/
  chacha20 : List Nat → List Nat → Nat → Nat

/-- The values of the interface `shadowstream.Cipher` that the constructors of
the suite table return. -/
inductive StreamCipher where
  | RC4MD56Key (k : List Nat)
  | rc4Md5Key (k : List Nat)
  | CFBStream (blk : BlockKind) (key : List Nat)
  | OFBStream (blk : BlockKind) (key : List Nat)
  | ctrStream (blk : BlockKind) (key : List Nat)
  | Salsa20Stream (key : List Nat)
  | chacha20Key (k : List Nat)
  | chacha20ietfkey (k : List Nat)
deriving DecidableEq

/-- Go `IVSize()` of each cipher. -/
def StreamCipher.IVSize : StreamCipher → Nat
  | .RC4MD56Key _ => 6
  | .rc4Md5Key _ => 16
  | .CFBStream blk _ => blk.BlockSize
  | .OFBStream blk _ => blk.BlockSize
  | .ctrStream blk _ => blk.BlockSize
  | .Salsa20Stream _ => 8
  | .chacha20Key _ => 8
  | .chacha20ietfkey _ => 12

/-- Go `Salsa20StreamCipher` (salsa20.go, lines 40-44); `counter` is a `uint64`. -/
structure Salsa20StreamCipher where
  nonce : List Nat
  key : List Nat
  counter : Nat

/-- The `subNonce` of `XORKeyStream` (salsa20.go, lines 53-55). -/
def Salsa20StreamCipher.subNonce (s : Salsa20StreamCipher) : List Nat :=
  (goCopy (makeBytes 16) s.nonce).take 8 ++ le64 (s.counter / 64)

/-- Go `Salsa20StreamCipher.XORKeyStream` (salsa20.go, lines 46-64) with a
destination as long as the source: the bytes written and the cipher after. -/
def Salsa20StreamCipher.XORKeyStream (s : Salsa20StreamCipher) (src : List Nat) :
    List Nat × Salsa20StreamCipher :=
  let padLen := s.counter % 64
  let buf := makeBytes (src.length + padLen)
  let buf := buf.take padLen ++ goCopy (buf.drop padLen) src
  let buf := salsaXORKeyStream buf s.subNonce s.key
  (buf.drop padLen, { s with counter := (s.counter + src.length) % 2 ^ 64 })

/-- Big-endian bytes of `v` on `n` bytes. -/
def beBytes : Nat → Nat → List Nat
  | 0, _ => []
  | n + 1, v => beBytes n (v / 256) ++ [v % 256]

/-- The running state of a Go `cipher.Stream`. -/
inductive Stream where
  /-- RC4, OFB, CTR, ChaCha20: a keystream and the position in it. -/
  | keystream (ks : Nat → Nat) (pos : Nat)
  /-- The `cfb` of `crypto/cipher`: block function, `next`, `out`, `outUsed`, `decrypt`. -/
  | cfb (enc : List Nat → List Nat) (next out : List Nat) (outUsed : Nat) (decrypt : Bool)
  /-- The Salsa20 stream of salsa20.go. -/
  | salsa20 (s : Salsa20StreamCipher)

/-- One byte through the `cfb` of `crypto/cipher`: the output byte and the new
`(next, out, outUsed)`. -/
def cfbByte (enc : List Nat → List Nat) (decrypt : Bool) (st : List Nat × List Nat × Nat)
    (x : Nat) : Nat × (List Nat × List Nat × Nat) :=
  let out := if st.2.2 = st.2.1.length then enc st.1 else st.2.1
  let used := if st.2.2 = st.2.1.length then 0 else st.2.2
  let y := x ^^^ out.getD used 0
  (y, (st.1.set used (if decrypt then x else y), out, used + 1))

/-- A buffer through the `cfb` of `crypto/cipher`. -/
def cfbRun (enc : List Nat → List Nat) (decrypt : Bool) :
    List Nat × List Nat × Nat → List Nat → List Nat × (List Nat × List Nat × Nat)
  | st, [] => ([], st)
  | st, x :: xs =>
    ((cfbByte enc decrypt st x).1 :: (cfbRun enc decrypt (cfbByte enc decrypt st x).2 xs).1,
      (cfbRun enc decrypt (cfbByte enc decrypt st x).2 xs).2)

/-- Go `Stream.XORKeyStream(dst, src)` with a destination as long as the
source: the bytes written and the stream after. -/
def Stream.XORKeyStream : Stream → List Nat → List Nat × Stream
  | .keystream ks pos, src =>
    ((List.range src.length).map (fun i => src.getD i 0 ^^^ ks (pos + i)),
      .keystream ks (pos + src.length))
  | .cfb enc next out used decrypt, src =>
    ((cfbRun enc decrypt (next, out, used) src).1,
      .cfb enc (cfbRun enc decrypt (next, out, used) src).2.1
        (cfbRun enc decrypt (next, out, used) src).2.2.1
        (cfbRun enc decrypt (next, out, used) src).2.2.2 decrypt)
  | .salsa20 s, src => ((s.XORKeyStream src).1, .salsa20 (s.XORKeyStream src).2)

/-- Byte `i` of the OFB keystream: block `j` is the block function applied
`j + 1` times to the IV. -/
def ofbKeystream (enc : List Nat → List Nat) (bs : Nat) (iv : List Nat) (i : Nat) : Nat :=
  (enc^[i / bs + 1] iv).getD (i % bs) 0

/-- Byte `i` of the CTR keystream: block `j` is the block function applied to
the IV read as a big-endian counter and advanced by `j`. -/
def ctrKeystream (enc : List Nat → List Nat) (bs : Nat) (iv : List Nat) (i : Nat) : Nat :=
  (enc (beBytes bs ((beVal iv + i / bs) % 256 ^ bs))).getD (i % bs) 0

/-- Go `Encrypter(iv)` of each cipher; a fault is a `panic` of the library or
of salsa20.go. -/
def Encrypter (P : Primitives) : StreamCipher → List Nat → Except Fault Stream
  | .RC4MD56Key k, iv => .ok (.keystream (P.rc4 (md5 (k ++ iv))) 0)
  | .rc4Md5Key k, iv => .ok (.keystream (P.rc4 (md5 (k ++ iv))) 0)
  | .CFBStream blk key, iv =>
    if iv.length ≠ blk.BlockSize then .error .panicCall
    else .ok (.cfb (P.encryptBlock blk key) iv (makeBytes blk.BlockSize) blk.BlockSize false)
  | .OFBStream blk key, iv =>
    if iv.length ≠ blk.BlockSize then .error .panicCall
    else .ok (.keystream (ofbKeystream (P.encryptBlock blk key) blk.BlockSize iv) 0)
  | .ctrStream blk key, iv =>
    if iv.length ≠ blk.BlockSize then .error .panicCall
    else .ok (.keystream (ctrKeystream (P.encryptBlock blk key) blk.BlockSize iv) 0)
  | .Salsa20Stream key, iv =>
    if iv.length ≠ 8 then .error .panicCall
    else .ok (.salsa20 { nonce := iv, key := key, counter := 0 })
  | .chacha20Key k, iv =>
    if k.length ≠ 32 ∨ ¬ (iv.length = 8 ∨ iv.length = 12 ∨ iv.length = 24) then .error .panicCall
    else .ok (.keystream (P.chacha20 k iv) 0)
  | .chacha20ietfkey k, iv =>
    if k.length ≠ 32 ∨ ¬ (iv.length = 12 ∨ iv.length = 24) then .error .panicCall
    else .ok (.keystream (P.chacha20 k iv) 0)

/-- Go `Decrypter(iv)` of each cipher: `cipher.NewCFBDecrypter` for the CFB
mode, `Encrypter(iv)` for every other cipher. -/
def Decrypter (P : Primitives) : StreamCipher → List Nat → Except Fault Stream
  | .CFBStream blk key, iv =>
    if iv.length ≠ blk.BlockSize then .error .panicCall
    else .ok (.cfb (P.encryptBlock blk key) iv (makeBytes blk.BlockSize) blk.BlockSize true)
  | .Salsa20Stream key, iv =>
    if iv.length ≠ 8 then .error .panicCall
    else .ok (.salsa20 { nonce := iv, key := key, counter := 0 })
  | c, iv => Encrypter P c iv

/-! ## `encryption/cipher.go` -/

namespace Encryption

/-- The constructors `New` of the suite table. -/
inductive CipherKind where
  | RC4MD56
  | RC4MD5
  | AESCFB
  | AESOFB
  | AESCTR
  | BFCFB
  | Cast5CFB
  | DESCFB
  | Salsa20
  | Chacha20
  | Chacha20IETF
deriving DecidableEq

/-- The errors `PickCipher` returns. -/
inductive CipherError where
  | ErrCipherNotSupported
  /-- Go `shadowstream.KeySizeError(n)`. -/
  | KeySizeError (n : Nat)
  /-- The key size error of a block cipher's `NewCipher`. -/
  | blockKeySizeError (blk : BlockKind) (n : Nat)
deriving DecidableEq

/-- A block-cipher constructor followed by the wrapping in a mode. -/
def newBlock (blk : BlockKind) (mode : BlockKind → List Nat → StreamCipher) (key : List Nat) :
    Except CipherError StreamCipher :=
  if blk.keyOk key.length then .ok (mode blk key) else .error (.blockKeySizeError blk key.length)

/-- The constructor functions of the table, applied to a key. -/
def CipherKind.New : CipherKind → List Nat → Except CipherError StreamCipher
  | .RC4MD56, key => .ok (.RC4MD56Key key)
  | .RC4MD5, key => .ok (.rc4Md5Key key)
  | .AESCFB, key => newBlock .aes .CFBStream key
  | .AESOFB, key => newBlock .aes .OFBStream key
  | .AESCTR, key => newBlock .aes .ctrStream key
  | .BFCFB, key => newBlock .blowfish .CFBStream key
  | .Cast5CFB, key => newBlock .cast5 .CFBStream key
  | .DESCFB, key => newBlock .des .CFBStream key
  | .Salsa20, key =>
    if key.length ≠ 32 then .error (.KeySizeError 32)
    else .ok (.Salsa20Stream (goCopy (makeBytes 32) key))
  | .Chacha20, key =>
    if key.length ≠ 32 then .error (.KeySizeError 32) else .ok (.chacha20Key key)
  | .Chacha20IETF, key =>
    if key.length ≠ 32 then .error (.KeySizeError 32) else .ok (.chacha20ietfkey key)

/-- Go `streamList` (lines 29-50): name, key size, constructor. -/
def streamList : List (List Char × Nat × CipherKind) :=
  [ ("RC4-MD5-6".toList, 16, .RC4MD56),
    ("RC4-MD5".toList, 16, .RC4MD5),
    ("AES-128-CFB".toList, 16, .AESCFB),
    ("AES-192-CFB".toList, 24, .AESCFB),
    ("AES-256-CFB".toList, 32, .AESCFB),
    ("AES-128-OFB".toList, 16, .AESOFB),
    ("AES-192-OFB".toList, 24, .AESOFB),
    ("AES-256-OFB".toList, 32, .AESOFB),
    ("AES-128-CTR".toList, 16, .AESCTR),
    ("AES-192-CTR".toList, 24, .AESCTR),
    ("AES-256-CTR".toList, 32, .AESCTR),
    ("BF-CFB".toList, 16, .BFCFB),
    ("CAST5-CFB".toList, 16, .Cast5CFB),
    ("DES-CFB".toList, 8, .DESCFB),
    ("SALSA20".toList, 32, .Salsa20),
    ("CHACHA20".toList, 32, .Chacha20),
    ("CHACHA20-IETF".toList, 32, .Chacha20IETF) ]

/-- The loop of `kdf` (lines 80-86) on `(b, prev)`. -/
def kdfLoop (password : List Nat) (keyLen : Int) :
    Nat → List Nat → List Nat → Except Fault (List Nat)
  | 0, b, _ => if (b.length : Int) < keyLen then .error .outOfFuel else .ok b
  | fuel + 1, b, prev =>
    if (b.length : Int) < keyLen then do
      let b := b ++ md5 (prev ++ password)
      let prev ← goSlice b (b.length - 16) b.length
      kdfLoop password keyLen fuel b prev
    else .ok b

/-- Go `kdf` (lines 77-88). -/
def kdf (password : List Char) (keyLen : Int) : Except Fault (List Nat) := do
  let b ← kdfLoop (strBytes password) keyLen keyLen.toNat [] []
  if keyLen < 0 then throw Fault.sliceBounds else goSlice b 0 keyLen.toNat

/-- The values of the interface `Cipher` that `PickCipher` returns: `&none{}`
or a `*ShadowSocksRStreamCipher` with its embedded cipher (nil when the
constructor failed) and key. -/
inductive Cipher where
  | none
  | ShadowSocksRStreamCipher (ciph : Option StreamCipher) (Key : List Nat)
deriving DecidableEq

/-- Go `strings.ToUpper` with the rune mapping `unicode.ToUpper` as `upper`. -/
def ToUpper (upper : Char → Char) (s : List Char) : List Char := s.map upper

/-- Go `PickCipher` (lines 52-71): the pair `(Cipher, error)`. -/
def PickCipher (upper : Char → Char) (name : List Char) (key : List Nat)
    (password : List Char) : Except Fault (Option Cipher × Option CipherError) :=
  let name := ToUpper upper name
  if name = "NONE".toList then .ok (some .none, none)
  else match streamList.lookup name with
    | some choice => do
      let key ← if key.length = 0 then kdf password choice.1 else pure key
      if key.length ≠ choice.1 then
        pure (none, some (.KeySizeError choice.1))
      else match choice.2.New key with
        | .ok ciph => pure (some (.ShadowSocksRStreamCipher (some ciph) key), none)
        | .error e => pure (some (.ShadowSocksRStreamCipher none key), some e)
    | none => .ok (none, some .ErrCipherNotSupported)

end Encryption

/-! ## `encryption/stream/stream.go` -/

namespace StreamConn

/-- The underlying `net.Conn` seen from the writing side: how it answers a
`Write(p)` given the buffers handed to it before, and those buffers. -/
structure Wire (ε : Type) where
  answer : List (List Nat) → List Nat → Int × Option ε
  log : List (List Nat)

/-- One `Write(p)` on the underlying connection. -/
def Wire.write {ε : Type} (u : Wire ε) (p : List Nat) : (Int × Option ε) × Wire ε :=
  (u.answer u.log p, { u with log := u.log ++ [p] })

/-- Go `ShadowSocksRStreamCipher` (lines 12-15). -/
structure ShadowSocksRStreamCipher where
  Cipher : StreamCipher
  Key : List Nat

/-- Go `ShadowSocksRStreamConn` (lines 25-35) without the embedded `net.Conn`;
`r` and `w` hold the cipher stream of the reader and of the writer. -/
structure ShadowSocksRStreamConn where
  Cipher : StreamCipher
  r : Option Stream
  w : Option Stream
  ReadIV : List Nat
  WriteIV : List Nat
  Key : List Nat

/-- Go `NewShadowSocksRStreamConn` (lines 37-50); `drawn` and `err` are what
`rand.Read` puts in the buffer and returns. -/
def NewShadowSocksRStreamConn {ε : Type} (ciph : ShadowSocksRStreamCipher) (drawn : List Nat)
    (err : Option ε) : Except ε ShadowSocksRStreamConn :=
  let WriteIV := goCopy (makeBytes ciph.Cipher.IVSize) drawn
  match err with
  | some e => .error e
  | none => .ok { Cipher := ciph.Cipher, r := none, w := none, ReadIV := [],
                  WriteIV := WriteIV, Key := ciph.Key }

/-- The constant `bufSize` of `shadowstream`, the length of the buffer of a
`shadowstream.Writer`. -/
def bufSize : Nat := 2048

/-- Go `shadowstream.Writer.Write`: the loop over chunks of `bufLen = len(buf)`
bytes, `n` bytes done so far. -/
def writerLoop {ε : Type} (bufLen : Nat) (p : List Nat) :
    Nat → Int → Stream → Wire ε → Except Fault ((Int × Option ε) × Stream × Wire ε)
  | 0, n, s, u => if n < p.length then .error .outOfFuel else .ok ((n, none), s, u)
  | fuel + 1, n, s, u =>
    if n < p.length then do
      let stop : Int := if n + bufLen > p.length then p.length else n + bufLen
      let chunk ← if n < 0 then throw Fault.sliceBounds else goSlice p n.toNat stop.toNat
      let crypted := s.XORKeyStream chunk
      let res := u.write crypted.1
      match res.1.2 with
      | some e => .ok ((n + res.1.1, some e), crypted.2, res.2)
      | none => writerLoop bufLen p fuel (n + res.1.1) crypted.2 res.2
    else .ok ((n, none), s, u)

/-- Go `initWriter` (lines 70-76). -/
def initWriter {ε : Type} (P : Primitives) (c : ShadowSocksRStreamConn) (u : Wire ε) :
    Except Fault (Option ε × ShadowSocksRStreamConn × Wire ε) :=
  match (u.write c.WriteIV).1.2 with
  | none => do
    let s ← Encrypter P c.Cipher c.WriteIV
    pure (none, { c with w := some s }, (u.write c.WriteIV).2)
  | some e => .ok (some e, c, (u.write c.WriteIV).2)

/-- Go `ShadowSocksRStreamConn.Write` (lines 78-85). -/
def Write {ε : Type} (P : Primitives) (c : ShadowSocksRStreamConn) (u : Wire ε) (b : List Nat) :
    Except Fault ((Int × Option ε) × ShadowSocksRStreamConn × Wire ε) := do
  let st ← match c.w with
    | none => do
      let r ← initWriter P c u
      pure r
    | some _ => pure (none, c, u)
  match st.1 with
  | some e => pure ((0, some e), st.2.1, st.2.2)
  | none =>
    match st.2.1.w with
    | none => throw Fault.nilDeref
    | some s => do
      let r ← writerLoop bufSize b (b.length + 1) 0 s st.2.2
      pure (r.1, { st.2.1 with w := some r.2.1 }, r.2.2)

/-- The error values of package `io` that `io.ReadFull` tells apart or makes,
and every other error value of the underlying connection. -/
inductive ReadError (ε : Type) where
  | EOF
  | ErrUnexpectedEOF
  | ErrShortBuffer
  | other (e : ε)
deriving DecidableEq

/-- Go `err == io.EOF`. -/
def isEOF {ε : Type} : Option (ReadError ε) → Bool
  | some .EOF => true
  | _ => false

/-- The underlying `net.Conn` seen from the reading side: how it answers its
`k`-th `Read(p)` given `len(p)` (the bytes it puts at the start of `p` and the
error), and the number of `Read` calls made so far. -/
structure Source (ε : Type) where
  answer : Nat → Nat → List Nat × Option (ReadError ε)
  calls : Nat

/-- One `Read(p)` on the underlying connection with `len(p) = cap`: at most
`cap` bytes are delivered. -/
def Source.read {ε : Type} (u : Source ε) (cap : Nat) :
    (List Nat × Option (ReadError ε)) × Source ε :=
  (((u.answer u.calls cap).1.take cap, (u.answer u.calls cap).2),
    { u with calls := u.calls + 1 })

/-- The loop `for n < min && err == nil` of Go `io.ReadAtLeast`; the result is
`(buf, n, err)` at loop exit and the connection. -/
def readAtLeastLoop {ε : Type} (min : Nat) :
    Nat → List Nat → Nat → Option (ReadError ε) → Source ε →
      Except Fault (List Nat × Nat × Option (ReadError ε) × Source ε)
  | 0, buf, n, err, u =>
    if n < min ∧ err.isNone then .error .outOfFuel else .ok (buf, n, err, u)
  | fuel + 1, buf, n, err, u =>
    if n < min ∧ err.isNone then do
      let rest ← goSlice buf n buf.length
      let res := u.read rest.length
      readAtLeastLoop min fuel (buf.take n ++ goCopy rest res.1.1) (n + res.1.1.length)
        res.1.2 res.2
    else .ok (buf, n, err, u)

/-- Go `io.ReadAtLeast(r, buf, min)`; `fuel` bounds the number of `Read` calls
on the underlying connection. -/
def ReadAtLeast {ε : Type} (fuel : Nat) (u : Source ε) (buf : List Nat) (min : Nat) :
    Except Fault ((Nat × Option (ReadError ε)) × List Nat × Source ε) :=
  if buf.length < min then .ok ((0, some .ErrShortBuffer), buf, u)
  else do
    let r ← readAtLeastLoop min fuel buf 0 none u
    let n := r.2.1
    let err : Option (ReadError ε) :=
      if n ≥ min then none
      else if n > 0 ∧ isEOF r.2.2.1 then some .ErrUnexpectedEOF
      else r.2.2.1
    pure ((n, err), r.1, r.2.2.2)

/-- Go `io.ReadFull(r, buf)`. -/
def ReadFull {ε : Type} (fuel : Nat) (u : Source ε) (buf : List Nat) :
    Except Fault ((Nat × Option (ReadError ε)) × List Nat × Source ε) :=
  ReadAtLeast fuel u buf buf.length

/-- Go `initReader` (lines 52-59). -/
def initReader {ε : Type} (P : Primitives) (fuel : Nat) (c : ShadowSocksRStreamConn)
    (u : Source ε) : Except Fault (Option (ReadError ε) × ShadowSocksRStreamConn × Source ε) := do
  let got ← ReadFull fuel u (makeBytes c.Cipher.IVSize)
  let c := { c with ReadIV := got.2.1 }
  match got.1.2 with
  | some e => pure (some e, c, got.2.2)
  | none => do
    let s ← Decrypter P c.Cipher c.ReadIV
    pure (none, { c with r := some s }, got.2.2)

/-- Go `shadowstream.Reader.Read`: one `Read` of the underlying connection,
decrypted in place; the result, the buffer, the stream and the connection. -/
def readerRead {ε : Type} (s : Stream) (u : Source ε) (b : List Nat) :
    (Int × Option (ReadError ε)) × List Nat × Stream × Source ε :=
  let res := u.read b.length
  match res.1.2 with
  | some e => ((0, some e), goCopy b res.1.1, s, res.2)
  | none =>
    (((res.1.1.length : Int), none), goCopy b (s.XORKeyStream res.1.1).1,
      (s.XORKeyStream res.1.1).2, res.2)

/-- Go `ShadowSocksRStreamConn.Read` (lines 61-68): the result, the buffer `b`
afterwards, the connection and the underlying connection. -/
def Read {ε : Type} (P : Primitives) (fuel : Nat) (c : ShadowSocksRStreamConn) (u : Source ε)
    (b : List Nat) :
    Except Fault ((Int × Option (ReadError ε)) × List Nat × ShadowSocksRStreamConn × Source ε) := do
  let st ← match c.r with
    | none => initReader P fuel c u
    | some _ => pure (none, c, u)
  match st.1 with
  | some e => pure ((0, some e), b, st.2.1, st.2.2)
  | none =>
    match st.2.1.r with
    | none => throw Fault.nilDeref
    | some s =>
      let got := readerRead s st.2.2 b
      pure (got.1, got.2.1, { st.2.1 with r := some got.2.2.1 }, got.2.2.2)

end StreamConn

/-! ## `protocol/authsha1v4.go`, the reading side -/

/-- Go `AuthSHA1v4.Read` (authsha1v4.go, lines 39-41): the result `(n, err)`,
the buffer, the connection and the underlying connection after the call. -/
def Read {ε : Type} (c : AuthSHA1v4) (u : StreamConn.Source ε) (b : List Nat) :
    (Int × Option (StreamConn.ReadError ε)) × List Nat × AuthSHA1v4 × StreamConn.Source ε :=
  ((0, none), b, c, u)

/-! ## `adapters/outbound/shadowsocksr.go` -/

/-- The `net.Conn` values `DialContext` works on: the dialed connection itself
or a stream-cipher connection wrapped around it. -/
inductive Conn where
  | dialed
  | stream (c : StreamConn.ShadowSocksRStreamConn)

/-- Go `none.StreamConn` (cipher.go, lines 22-24) and
`ShadowSocksRStreamCipher.StreamConn` (stream.go, lines 17-19); `drawn` and
`randErr` are what `rand.Read` gives. -/
def Encryption.Cipher.StreamConn {ε : Type} (ciph : Encryption.Cipher) (drawn : List Nat)
    (randErr : Option ε) : Except Fault (Except ε Conn) :=
  match ciph with
  | .none => .ok (.ok .dialed)
  | .ShadowSocksRStreamCipher Option.none _ => .error .nilDeref
  | .ShadowSocksRStreamCipher (Option.some s) key =>
    .ok ((StreamConn.NewShadowSocksRStreamConn { Cipher := s, Key := key } drawn randErr).map
      Conn.stream)

/-- Go `c.Write(p)` on a connection of `DialContext`. -/
def Conn.Write {ε : Type} (P : Primitives) (c : Conn) (u : StreamConn.Wire ε) (p : List Nat) :
    Except Fault ((Int × Option ε) × Conn × StreamConn.Wire ε) :=
  match c with
  | .dialed => .ok ((u.write p).1, .dialed, (u.write p).2)
  | .stream sc => (StreamConn.Write P sc u p).map (fun r => (r.1, .stream r.2.1, r.2.2))

/-- Go `net.JoinHostPort`. -/
def JoinHostPort (host port : List Char) : List Char :=
  if ':' ∈ host then "[".toList ++ host ++ "]:".toList ++ port
  else host ++ ":".toList ++ port

namespace Outbound

/-- Go `ShadowSocksR` (lines 15-29) without the embedded `*Base`; `cipher` is
`none` for a nil interface; `protocolData` and `obfsData` are never set. -/
structure ShadowSocksR where
  server : List Char
  cipher : Option Encryption.Cipher
  host : List Char
  port : Nat
  protocol : List Char
  protocolParam : List Char
  obfs : List Char
  obfsParam : List Char

/-- Go `ShadowSocksROption` (lines 31-44). -/
structure ShadowSocksROption where
  Name : List Char
  Server : List Char
  Port : Int
  Password : List Char
  Cipher : List Char
  Protocol : List Char
  ProtocolParam : List Char
  Obfs : List Char
  ObfsParam : List Char

/-- What `DialContext` leaves behind: the connection returned (`none` for
nil), the error with the server name it is wrapped with by
`fmt.Errorf("%s connect error: %w", ...)`, and the dialed connection with the
buffers handed to it (`none` when the dial failed). -/
structure DialResult (ε : Type) where
  conn : Option Conn
  err : Option (List Char × ε)
  wire : Option (StreamConn.Wire ε)

/-- The end of `DialContext` (lines 87-91), after the write of the address. -/
def dialed {ε : Type} (ssr : ShadowSocksR) (r : (Int × Option ε) × Conn × StreamConn.Wire ε) :
    DialResult ε :=
  match r.1.2 with
  | some e => { conn := none, err := some (ssr.server, e), wire := some r.2.2 }
  | none => { conn := some r.2.1, err := none, wire := some r.2.2 }

/-- Go `DialContext` (lines 46-92). `dial` is the result of
`dialer.DialContext`, `addr` the bytes of `serializesSocksAddr(metadata)`. -/
def DialContext {ε : Type} (P : Primitives) (ssr : ShadowSocksR)
    (dial : Except ε (StreamConn.Wire ε)) (drawn : List Nat) (randErr : Option ε)
    (addr : List Nat) : Except Fault (DialResult ε) :=
  match dial with
  | .error e => .ok { conn := none, err := some (ssr.server, e), wire := none }
  | .ok u =>
    match ssr.cipher with
    | none => .error .nilDeref
    | some ciph => do
      let wrapped ← ciph.StreamConn drawn randErr
      match wrapped with
      | .error e => pure { conn := none, err := some (ssr.server, e), wire := some u }
      | .ok c => do
        let r ← c.Write P u addr
        pure (dialed ssr r)

/-- Go `NewShadowSocksR` (lines 100-126): the pair `(*ShadowSocksR, error)`,
the error with the server name it is wrapped with. -/
def NewShadowSocksR (upper : Char → Char) (option : ShadowSocksROption) :
    Except Fault (Option ShadowSocksR × Option (List Char × Encryption.CipherError)) := do
  let server := JoinHostPort option.Server (toString option.Port).toList
  let picked ← Encryption.PickCipher upper option.Cipher [] option.Password
  match picked.2 with
  | some err => pure (none, some (server, err))
  | none =>
    pure (some { server := server
                 cipher := picked.1
                 host := option.Server
                 port := (option.Port % 65536).toNat
                 obfs := option.Obfs
                 obfsParam := option.ObfsParam
                 protocol := option.Protocol
                 protocolParam := option.ProtocolParam }, none)

end Outbound

/-! ## Closed forms used to state the claims on the ciphers -/

/-- The digests of the key derivation: `D1 = MD5(p)`, `D(i+1) = MD5(Di ++ p)`
(`kdfDigest p i` is `D(i+1)`). -/
def kdfDigest (p : List Nat) : Nat → List Nat
  | 0 => md5 p
  | i + 1 => md5 (kdfDigest p i ++ p)

/-- The concatenation `D1 ++ D2 ++ ... ++ Dk`. -/
def kdfStream (p : List Nat) (k : Nat) : List Nat :=
  ((List.range k).map (kdfDigest p)).flatten

/-- ASCII upper-casing, the rows of `unicode.ToUpper` for the Latin letters. -/
def asciiUpper (c : Char) : Char :=
  if 97 ≤ c.toNat ∧ c.toNat ≤ 122 then Char.ofNat (c.toNat - 32) else c

/-- Byte `j` of the Salsa20 keystream at byte position `pos` of the stream of
`s`: the core of the nonce and the block number `pos / 64`. -/
def salsaKeystream (s : Salsa20StreamCipher) (pos : Nat) : Nat :=
  (salsaCore ((goCopy (makeBytes 16) s.nonce).take 8 ++ le64 (pos / 64 % 2 ^ 64)) s.key).getD
    (pos % 64) 0

/-- The ciphertext chunks a running stream makes of a list of chunks, and the
stream afterwards. -/
def cryptChunks : Stream → List (List Nat) → List (List Nat) × Stream
  | s, [] => ([], s)
  | s, ch :: chs =>
    ((s.XORKeyStream ch).1 :: (cryptChunks (s.XORKeyStream ch).2 chs).1,
      (cryptChunks (s.XORKeyStream ch).2 chs).2)

/-- The number written by a string of decimal digits. -/
def decimalValue (p : List Char) : Nat :=
  p.foldl (fun acc ch => acc * 10 + (ch.toNat - 48)) 0

/-- The rand length read back from a frame: the byte at offset 4, or, when that
byte is `0xFF`, the big-endian `uint16` at offsets 5 and 6. -/
def decodeRandLength (f : List Nat) : Nat :=
  if f.getD 4 0 = 0xFF then beVal ((f.drop 5).take 2) else f.getD 4 0

/-- Go `strings.Join(xs, sep)` for a one-character separator. -/
def Join (sep : Char) : List (List Char) → List Char
  | [] => []
  | [x] => x
  | x :: y :: rest => x ++ sep :: Join sep (y :: rest)

/-- A decimal integer as `strconv.Atoi` reads one: an optional sign followed by
one or more decimal digits. -/
def isInteger (t : List Char) : Bool :=
  let ds := if t.head? = some '-' ∨ t.head? = some '+' then t.tail else t
  !ds.isEmpty && ds.all (fun c => 48 ≤ c.toNat && c.toNat ≤ 57)

/-! ## Concrete inputs used by the witnesses -/

/-- An underlying stream that accepts every buffer in full. -/
def acceptAll (p : List Nat) : Int × Option Unit := ((p.length : Int), none)

/-- A Salsa20 stream cipher one byte before its byte counter wraps. -/
def salsaAtWrap : Salsa20StreamCipher :=
  { nonce := List.replicate 8 0, key := List.replicate 32 0, counter := 2 ^ 64 - 1 }

/-- A Salsa20 stream cipher in the middle of its second block. -/
def salsaSample : Salsa20StreamCipher :=
  { nonce := [1, 2, 3, 4, 5, 6, 7, 8], key := List.range 32, counter := 100 }

/-- Stand-ins for the library primitives, used to run the ciphers on concrete
inputs. -/
def samplePrimitives : Primitives :=
  { encryptBlock := fun _ key blk => (List.zipWith (fun a b => a ^^^ b) blk key).reverse
    rc4 := fun key i => (key.getD (i % 16) 0 + i) % 256
    chacha20 := fun key nonce i => (key.getD (i % 32) 0 + nonce.getD (i % 8) 0 + i) % 256 }

/-- A wire that accepts every buffer in full and has seen no write yet. -/
def StreamConn.openWire : StreamConn.Wire Unit :=
  { answer := fun _ p => ((p.length : Int), none), log := [] }

/-- A wire that refuses every write. -/
def StreamConn.deadWire : StreamConn.Wire Unit :=
  { answer := fun _ _ => (0, some ()), log := [] }

/-- A fresh stream connection on DES-CFB. -/
def StreamConn.sampleConn : StreamConn.ShadowSocksRStreamConn :=
  { Cipher := .CFBStream .des [1, 2, 3, 4, 5, 6, 7, 8]
    r := none
    w := none
    ReadIV := []
    WriteIV := [9, 8, 7, 6, 5, 4, 3, 2]
    Key := [1, 2, 3, 4, 5, 6, 7, 8] }

/-- A connection as the constructor makes it, after `SetTCPHeaderLength` on an
IPv4 address record. -/
def Obfs.sampleConn : Obfs.ShadowSocksRHTTPSimpleObfs :=
  { headerSent := false
    tcpHeaderLength := 7
    ivLen := 0
    Method := "GET".toList
    RequestURI := ["/".toList, "".toList]
    Host := "bing.com".toList
    Port := 80
    UserAgent := "Mozilla/5.0 (compatible; WOW64; MSIE 10.0; Windows NT 6.2)".toList
    CustomHeader := [] }

/-- An underlying stream that refuses every write. -/
def refuseAll (_p : List Nat) : Int × Option Unit := (0, some ())

/-- A connection that delivers three bytes and then the end of the stream. -/
def StreamConn.shortSource : StreamConn.Source Unit :=
  { answer := fun k _ => if k = 0 then ([7, 7, 7], none) else ([], some .EOF), calls := 0 }

/-- A configuration with HTTP-simple obfuscation and the `auth_sha1_v4`
protocol on the cipher `none`. -/
def Outbound.sampleOption : Outbound.ShadowSocksROption :=
  { Name := "ssr".toList
    Server := "example.com".toList
    Port := 8388
    Password := "test".toList
    Cipher := "none".toList
    Protocol := "auth_sha1_v4".toList
    ProtocolParam := []
    Obfs := "http_simple".toList
    ObfsParam := [] }

/-- The library primitives with AES written out; the primitives that the AES
suites do not use are left as the identity and the zero keystream. -/
def aesPrimitives : Primitives :=
  { encryptBlock := fun kind key blk =>
      match kind with
      | .aes => aesEncryptBlock key blk
      | _ => blk
    rc4 := fun _ _ => 0
    chacha20 := fun _ _ _ => 0 }

/-! ## Lemmas on the run-time model -/

theorem randRead_length (k : Nat) (rnd : Rand) : (randRead k rnd).1.length = k := by
  simp [randRead]

theorem getRandomDataLength_pos (b : List Nat) (rnd : Rand) :
    1 ≤ (getRandomDataLength b rnd).1 := by
  unfold getRandomDataLength
  split_ifs <;> simp

theorem getRandomDataLength_le (b : List Nat) (rnd : Rand) :
    (getRandomDataLength b rnd).1 ≤ 1024 := by
  unfold getRandomDataLength randIntn
  split_ifs
  · have := Nat.mod_lt (rnd.headD 0) (show 1024 > 0 by norm_num); simp; omega
  · have := Nat.mod_lt (rnd.headD 0) (show 128 > 0 by norm_num); simp; omega
  · simp

theorem storeAt_append (A bs rest : List Nat) (lo hi : Nat) (hlo : lo = A.length)
    (hbs : lo + bs.length ≤ hi) (hhi : hi ≤ A.length + rest.length) :
    storeAt (A ++ rest) lo hi bs = .ok (A ++ bs ++ rest.drop bs.length) := by
  subst hlo
  unfold storeAt
  rw [if_pos (by simp; omega), if_pos (by omega)]
  simp [List.take_append_eq_append_take, List.drop_append_eq_append_drop]

theorem setIdx_append (A rest : List Nat) (i x : Nat) (hi : i = A.length)
    (hr : 1 ≤ rest.length) :
    setIdx (A ++ rest) i x = .ok (A ++ [x] ++ rest.drop 1) := by
  subst hi
  unfold setIdx
  rw [if_pos (by simp; omega)]
  simp [List.take_append_eq_append_take, List.drop_append_eq_append_drop]

theorem randReadAt_append (A rest : List Nat) (lo hi : Nat) (rnd : Rand) (hlo : lo = A.length)
    (hhi : lo ≤ hi) (hr : hi ≤ A.length + rest.length) :
    randReadAt (A ++ rest) lo hi rnd
      = .ok (A ++ (randRead (hi - lo) rnd).1 ++ rest.drop (hi - lo), (randRead (hi - lo) rnd).2) := by
  subst hlo
  unfold randReadAt
  rw [if_pos (by simp; omega)]
  simp [List.take_append_eq_append_take, List.drop_append_eq_append_drop]
  exact hhi

theorem copyAt_append (A rest src : List Nat) (lo hi : Nat) (hlo : lo = A.length)
    (hhi : hi = A.length + rest.length) (hs : src.length ≤ rest.length) :
    copyAt (A ++ rest) lo hi src = .ok (A ++ src ++ rest.drop src.length) := by
  subst hlo hhi
  unfold copyAt
  rw [if_pos (by simp)]
  have hm : min rest.length src.length = src.length := Nat.min_eq_right hs
  simp [List.take_append_eq_append_take, List.drop_append_eq_append_drop, hm,
    List.take_of_length_le hs]

theorem goSlice_append (A rest : List Nat) (hi : Nat) (h : hi = A.length) :
    goSlice (A ++ rest) 0 hi = .ok A := by
  subst h
  unfold goSlice
  rw [if_pos (by simp)]
  simp

theorem le32_length (v : Nat) : (le32 v).length = 4 := rfl

theorem putRandLength_append (A F rest : List Nat) (p r : Nat) (hp : p = A.length)
    (hF : F.length = r) (h1 : 1 ≤ r) :
    putRandLength (A ++ F ++ rest) p r
      = .ok (A ++ (if r < 128 then [r &&& 0xFF] ++ F.drop 1
                   else [0xFF] ++ be16 (r &&& 0xFFFF) ++ F.drop 3) ++ rest) := by
  unfold putRandLength
  by_cases hr : r < 128
  · rw [if_pos hr, if_pos hr, List.append_assoc A F rest,
      setIdx_append A (F ++ rest) p _ hp (by simp; omega)]
    simp [List.drop_append_eq_append_drop]
    have : 1 - F.length = 0 := by omega
    simp [this]
  · rw [if_neg hr, if_neg hr, List.append_assoc A F rest]
    simp only [bind, Except.bind]
    rw [setIdx_append A (F ++ rest) p _ hp (by simp; omega)]
    dsimp only
    refine (storeAt_append (A ++ [0xFF]) (be16 (r &&& 0xFFFF)) ((F ++ rest).drop 1) (p + 1)
      (A ++ [0xFF] ++ List.drop 1 (F ++ rest)).length
      (by simp [hp]) (by simp [be16]; omega) (by simp; omega)).trans ?_
    have h3 : 3 - F.length = 0 := by omega
    have h4 : 1 - F.length + (2 - (F.length - 1)) = 0 := by omega
    simp [List.drop_append_eq_append_drop, be16, h3, h4]

theorem pack_eq (b : List Nat) (rnd : Rand) :
    pack b rnd = .ok (plainFrame b rnd, packTape b rnd) := by
  have h1 := getRandomDataLength_pos b rnd
  have h2 := getRandomDataLength_le b rnd
  unfold pack plainFrame plainBody packTape
  generalize (getRandomDataLength b rnd).1 = r at *
  generalize (getRandomDataLength b rnd).2 = rnd1 at *
  simp only [bind, Except.bind, makeBytes, pure, Except.pure]
  generalize hH1 : be16 (r + b.length + 8 &&& 65535) = H1
  generalize hH2 : le16 (ChecksumIEEE b &&& 65535) = H2
  have l1 : H1.length = 2 := by simp [← hH1, be16]
  have l2 : H2.length = 2 := by simp [← hH2, le16]
  have e1 : storeAt (List.replicate (r + b.length + 8) 0) 0 2 H1
      = .ok (H1 ++ List.replicate (r + b.length + 6) 0) := by
    have := storeAt_append [] H1 (List.replicate (r + b.length + 8) 0) 0 2 rfl
      (by omega) (by simp)
    simpa [l1] using this
  have e2 : storeAt (H1 ++ List.replicate (r + b.length + 6) 0) 2 4 H2
      = .ok (H1 ++ H2 ++ List.replicate (r + b.length + 4) 0) := by
    have := storeAt_append H1 H2 (List.replicate (r + b.length + 6) 0) 2 4 l1.symm
      (by omega) (by simp; omega)
    simpa [l2] using this
  have e3 : randReadAt (H1 ++ H2 ++ List.replicate (r + b.length + 4) 0) 4 (4 + r) rnd1
      = .ok (H1 ++ H2 ++ (randRead r rnd1).1 ++ List.replicate (b.length + 4) 0,
          (randRead r rnd1).2) := by
    have := randReadAt_append (H1 ++ H2) (List.replicate (r + b.length + 4) 0) 4 (4 + r) rnd1
      (by simp [l1, l2]) (by omega) (by simp [l1, l2]; omega)
    have h : r + b.length + 4 - r = b.length + 4 := by omega
    simpa [h] using this
  have e4 := putRandLength_append (H1 ++ H2) (randRead r rnd1).1
    (List.replicate (b.length + 4) 0) 4 r (by simp [l1, l2]) (randRead_length r rnd1) h1
  have hf : (if r < 128 then [r &&& 0xFF] ++ (randRead r rnd1).1.drop 1
      else [0xFF] ++ be16 (r &&& 0xFFFF) ++ (randRead r rnd1).1.drop 3) = fillerBytes r rnd1 := rfl
  rw [hf] at e4
  have lf : (fillerBytes r rnd1).length = r := by
    unfold fillerBytes
    have := randRead_length r rnd1
    split_ifs <;> simp [be16] <;> omega
  generalize fillerBytes r rnd1 = F at *
  simp only [e1, e2, e3, e4]
  have e5 : (if b.length > 0 then
        copyAt (H1 ++ H2 ++ F ++ List.replicate (b.length + 4) 0) (r + 4)
          (H1 ++ H2 ++ F ++ List.replicate (b.length + 4) 0).length b
      else .ok (H1 ++ H2 ++ F ++ List.replicate (b.length + 4) 0))
      = .ok (H1 ++ H2 ++ F ++ b ++ List.replicate 4 0) := by
    split_ifs with hb
    · have := copyAt_append (H1 ++ H2 ++ F) (List.replicate (b.length + 4) 0) b (r + 4)
        (H1 ++ H2 ++ F ++ List.replicate (b.length + 4) 0).length
        (by simp [l1, l2, lf]; omega) (by simp; omega) (by simp)
      simpa using this
    · have hb0 : b = [] := List.length_eq_zero.mp (by omega)
      simp [hb0]
  have e6 : goSlice (H1 ++ H2 ++ F ++ b ++ List.replicate 4 0) 0 (r + b.length + 8 - 4)
      = .ok (H1 ++ H2 ++ F ++ b) :=
    goSlice_append _ _ _ (by simp [l1, l2, lf]; omega)
  have e7 : storeAt (H1 ++ H2 ++ F ++ b ++ List.replicate 4 0) (r + b.length + 8 - 4)
      (H1 ++ H2 ++ F ++ b ++ List.replicate 4 0).length (le32 (adler32 (H1 ++ H2 ++ F ++ b)))
      = .ok (H1 ++ H2 ++ F ++ b ++ le32 (adler32 (H1 ++ H2 ++ F ++ b))) := by
    have := storeAt_append (H1 ++ H2 ++ F ++ b) (le32 (adler32 (H1 ++ H2 ++ F ++ b)))
      (List.replicate 4 0) (r + b.length + 8 - 4)
      (H1 ++ H2 ++ F ++ b ++ List.replicate 4 0).length
      (by simp [l1, l2, lf]; omega) (by simp [l1, l2, lf, le32_length]; omega)
      (by simp; omega)
    simpa [le32_length] using this
  split_ifs at e5 ⊢ with hb
  · simp only [e5, e6, e7]
  · have hb0 : b = [] := List.length_eq_zero.mp (by omega)
    subst hb0
    simp only [List.append_nil, List.length_nil, Nat.add_zero, Nat.zero_add] at e6 e7 ⊢
    simp only [e6, e7]

theorem storeAt_ok (out : List Nat) (lo hi : Nat) (bs : List Nat)
    (h1 : lo + bs.length ≤ hi) (h2 : hi ≤ out.length) :
    ∃ o, storeAt out lo hi bs = .ok o ∧ o.length = out.length := by
  refine ⟨out.take lo ++ bs ++ out.drop (lo + bs.length), ?_, ?_⟩
  · unfold storeAt
    rw [if_pos ⟨by omega, h2⟩, if_pos (by omega)]
  · simp
    omega

theorem copyAt_ok (out : List Nat) (lo hi : Nat) (src : List Nat)
    (h1 : lo ≤ hi) (h2 : hi ≤ out.length) :
    ∃ o, copyAt out lo hi src = .ok o ∧ o.length = out.length := by
  refine ⟨out.take lo ++ src.take (hi - lo) ++ out.drop (lo + min (hi - lo) src.length), ?_, ?_⟩
  · unfold copyAt
    rw [if_pos ⟨h1, h2⟩]
  · simp
    omega

theorem randReadAt_ok (out : List Nat) (lo hi : Nat) (rnd : Rand)
    (h1 : lo ≤ hi) (h2 : hi ≤ out.length) :
    ∃ o, randReadAt out lo hi rnd = .ok o ∧ o.1.length = out.length := by
  refine ⟨(out.take lo ++ (randRead (hi - lo) rnd).1 ++ out.drop hi,
    (randRead (hi - lo) rnd).2), ?_, ?_⟩
  · unfold randReadAt
    rw [if_pos ⟨h1, h2⟩]
  · simp [randRead_length]
    omega

theorem setIdx_ok (out : List Nat) (i x : Nat) (h : i < out.length) :
    ∃ o, setIdx out i x = .ok o ∧ o.length = out.length := by
  refine ⟨out.take i ++ [x] ++ out.drop (i + 1), ?_, ?_⟩
  · unfold setIdx
    rw [if_pos h]
  · simp
    omega

theorem putRandLength_ok (out : List Nat) (p r : Nat) (h : p + 3 ≤ out.length) :
    ∃ o, putRandLength out p r = .ok o ∧ o.length = out.length := by
  unfold putRandLength
  split_ifs
  · exact setIdx_ok out p _ (by omega)
  · obtain ⟨o1, e1, l1⟩ := setIdx_ok out p 0xFF (by omega)
    simp only [bind, Except.bind, e1]
    obtain ⟨o2, e2, l2⟩ := storeAt_ok o1 (p + 1) o1.length (be16 (r &&& 0xFFFF))
      (by simp [be16]; omega) (le_refl _)
    exact ⟨o2, e2, by omega⟩

theorem goSlice_ok (b : List Nat) (lo hi : Nat) (h1 : lo ≤ hi) (h2 : hi ≤ b.length) :
    goSlice b lo hi = .ok ((b.take hi).drop lo) := by
  unfold goSlice
  rw [if_pos ⟨h1, h2⟩]

theorem packWithAuth_fault (c : AuthSHA1v4) (b : List Nat) (now : Int) (rnd : Rand) :
    packWithAuth c b now rnd
      = .error (match c.clientInfo with | none => .nilDeref | some _ => .sliceBounds) := by
  have h1 := getRandomDataLength_pos b rnd
  have h2 := getRandomDataLength_le b rnd
  unfold packWithAuth
  generalize (getRandomDataLength b rnd).1 = r at *
  generalize (getRandomDataLength b rnd).2 = rnd1 at *
  cases hci : c.clientInfo with
  | none => rfl
  | some ci =>
    simp only [bind, Except.bind, makeBytes, pure, Except.pure]
    generalize hL : r + 4 + 2 + b.length + 12 + 10 = L
    obtain ⟨o1, e1, l1⟩ := storeAt_ok (List.replicate L 0) 0 (List.replicate L 0).length
      (be16 (L &&& 65535)) (by simp [be16]; omega) (le_refl _)
    simp only [List.length_replicate] at l1
    rw [e1]
    dsimp only
    rw [goSlice_ok o1 0 2 (by omega) (by omega)]
    dsimp only
    obtain ⟨k1, f1, m1⟩ := copyAt_ok (List.replicate (salt.length + c.key.length + 2) 0) 0 2
      (List.drop 0 (List.take 2 o1)) (by omega) (by simp)
    rw [f1]
    dsimp only
    obtain ⟨k2, f2, m2⟩ := copyAt_ok k1 2 k1.length salt (by simp at m1; omega) (le_refl _)
    rw [f2]
    dsimp only
    obtain ⟨k3, f3, _⟩ := copyAt_ok k2 (2 + salt.length) k2.length c.key
      (by simp at m1; omega) (le_refl _)
    rw [f3]
    dsimp only
    obtain ⟨o2, e2, l2⟩ := storeAt_ok o1 2 o1.length (le32 (ChecksumIEEE k3))
      (by simp [le32_length]; omega) (le_refl _)
    rw [e2]
    dsimp only
    obtain ⟨o3, e3, l3⟩ := randReadAt_ok o2 6 (r + 4 + 2) (acquireIdentity ci rnd1).2
      (by omega) (by omega)
    rw [e3]
    dsimp only
    obtain ⟨o4, e4, l4⟩ := putRandLength_ok o3.1 6 r (by omega)
    rw [e4]
    dsimp only
    obtain ⟨o5, e5, l5⟩ := storeAt_ok o4 (r + 4 + 2) (r + 4 + 2 + 4) (le32 (now % 2 ^ 32).toNat)
      (by simp [le32_length]) (by omega)
    rw [e5]
    dsimp only
    rw [goSlice_ok o5 (r + 4 + 2 + 4) (r + 4 + 2 + 8) (by omega) (by omega)]
    dsimp only
    have hbad : goSlice (goCopy [] (acquireIdentity ci rnd1).1.ClientID) 0 4
        = .error .sliceBounds := by
      simp [goSlice, goCopy]
    rw [hbad]



theorem packEach_eq (ps : List (List Nat)) (rnd : Rand) :
    packEach ps rnd = .ok (framesOf ps rnd) := by
  induction ps generalizing rnd with
  | nil => rfl
  | cons p ps ih =>
    simp only [packEach, framesOf, bind, Except.bind, pack_eq, ih, pure, Except.pure]

theorem blocksOf_nil (n k : Nat) : blocksOf n k [] = [] := by
  cases k <;> simp [blocksOf]

theorem blocksOf_fuel (n : Nat) (hn : 0 < n) :
    ∀ (k j : Nat) (xs : List Nat), xs.length ≤ k → xs.length ≤ j →
      blocksOf n k xs = blocksOf n j xs := by
  intro k
  induction k with
  | zero =>
    intro j xs hk _
    have : xs = [] := List.length_eq_zero.mp (by omega)
    subst this
    simp [blocksOf_nil]
  | succ k ih =>
    intro j xs hk hj
    by_cases hx : xs = []
    · subst hx
      simp [blocksOf_nil]
    · have hpos : 0 < xs.length := List.length_pos.mpr hx
      cases j with
      | zero => omega
      | succ j =>
        simp only [blocksOf, if_neg hx]
        rw [ih j (xs.drop n) (by simp; omega) (by simp; omega)]

theorem blocksOf_join (n : Nat) (hn : 0 < n) :
    ∀ (k : Nat) (xs : List Nat), xs.length ≤ k → (blocksOf n k xs).flatten = xs := by
  intro k
  induction k with
  | zero =>
    intro xs hk
    have : xs = [] := List.length_eq_zero.mp (by omega)
    subst this
    rfl
  | succ k ih =>
    intro xs hk
    by_cases hx : xs = []
    · subst hx
      simp [blocksOf_nil]
    · have hpos : 0 < xs.length := List.length_pos.mpr hx
      simp only [blocksOf, if_neg hx, List.flatten_cons]
      rw [ih (xs.drop n) (by simp; omega)]
      exact List.take_append_drop n xs

theorem blocksOf_length (n : Nat) (hn : 0 < n) :
    ∀ (k : Nat) (xs : List Nat), xs.length ≤ k →
      (blocksOf n k xs).length = (xs.length + (n - 1)) / n := by
  intro k
  induction k with
  | zero =>
    intro xs hk
    have : xs = [] := List.length_eq_zero.mp (by omega)
    subst this
    simp [blocksOf]
    exact (Nat.div_eq_of_lt (by omega)).symm
  | succ k ih =>
    intro xs hk
    by_cases hx : xs = []
    · subst hx
      simp [blocksOf_nil]
      exact (Nat.div_eq_of_lt (by omega)).symm
    · have hpos : 0 < xs.length := List.length_pos.mpr hx
      simp only [blocksOf, if_neg hx, List.length_cons]
      rw [ih (xs.drop n) (by simp; omega)]
      simp only [List.length_drop]
      by_cases hle : xs.length ≤ n
      · have h0 : xs.length - n = 0 := by omega
        rw [h0, Nat.zero_add, Nat.div_eq_of_lt (by omega)]
        have : (xs.length + (n - 1)) / n = 1 := by
          apply Nat.div_eq_of_lt_le <;> omega
        omega
      · have : xs.length + (n - 1) = (xs.length - n + (n - 1)) + n := by omega
        rw [this, Nat.add_div_right _ hn]


theorem blocksOf_mem_length (n : Nat) (hn : 0 < n) :
    ∀ (k : Nat) (xs ch : List Nat), ch ∈ blocksOf n k xs → 1 ≤ ch.length ∧ ch.length ≤ n := by
  intro k
  induction k with
  | zero => intro xs ch h; simp [blocksOf] at h
  | succ k ih =>
    intro xs ch h
    by_cases hx : xs = []
    · subst hx
      simp [blocksOf_nil] at h
    · have hpos : 0 < xs.length := List.length_pos.mpr hx
      simp only [blocksOf, if_neg hx, List.mem_cons] at h
      rcases h with h | h
      · subst h
        simp only [List.length_take]
        omega
      · exact ih _ _ h

theorem blocksOf_dropLast (n : Nat) :
    ∀ (k : Nat) (xs ch : List Nat), ch ∈ (blocksOf n k xs).dropLast → ch.length = n := by
  intro k
  induction k with
  | zero => intro xs ch h; simp [blocksOf] at h
  | succ k ih =>
    intro xs ch h
    by_cases hx : xs = []
    · subst hx
      simp [blocksOf_nil] at h
    · simp only [blocksOf, if_neg hx] at h
      cases hr : blocksOf n k (xs.drop n) with
      | nil => simp [hr] at h
      | cons r rs =>
        rw [hr, List.dropLast_cons₂, List.mem_cons] at h
        rcases h with h | h
        · subst h
          have hd : xs.drop n ≠ [] := by
            intro hd
            rw [hd, blocksOf_nil] at hr
            exact List.noConfusion hr
          have : 0 < (xs.drop n).length := List.length_pos.mpr hd
          simp only [List.length_drop] at this
          simp only [List.length_take]
          omega
        · exact ih (xs.drop n) ch (by rw [hr]; exact h)

theorem loop_tail (b : List Nat) :
    ∀ (fuel dl off : Nat) (out : List Nat) (rnd : Rand), off + dl = b.length → dl ≤ fuel →
      (writeLoop b fuel dl off out rnd >>= fun looped =>
        if looped.2.1 > 0 then
          (goSlice b looped.2.2.1 b.length >>= fun rest =>
            pack rest looped.2.2.2 >>= fun packed =>
              pure (looped.1 ++ packed.1, packed.2))
        else pure (looped.1, looped.2.2.2))
      = .ok (out ++ (framesOf (blocksOf blockSize dl (b.drop off)) rnd).1.flatten,
          (framesOf (blocksOf blockSize dl (b.drop off)) rnd).2) := by
  intro fuel
  induction fuel with
  | zero =>
    intro dl off out rnd _ hf
    have : dl = 0 := by omega
    subst this
    simp [writeLoop, blockSize, blocksOf, framesOf, bind, Except.bind, pure, Except.pure]
  | succ fuel ih =>
    intro dl off out rnd hlen hf
    by_cases hbig : dl > blockSize
    · have hb : blockSize = 4096 := rfl
      have hne : b.drop off ≠ [] := by
        apply List.ne_nil_of_length_pos
        simp only [List.length_drop]
        omega
      obtain ⟨d, rfl⟩ : ∃ d, dl = d + 1 := ⟨dl - 1, by omega⟩
      have hchunk : goSlice b off (off + blockSize) = .ok ((b.drop off).take blockSize) := by
        rw [goSlice_ok b off (off + blockSize) (by omega) (by omega)]
        congr 1
        rw [List.drop_take]
        congr 1
        omega
      have hrec := ih (d + 1 - blockSize) (off + blockSize)
        (out ++ plainFrame ((b.drop off).take blockSize) rnd)
        (packTape ((b.drop off).take blockSize) rnd) (by omega) (by omega)
      have hfuel : blocksOf blockSize (d + 1 - blockSize) (b.drop (off + blockSize))
          = blocksOf blockSize d ((b.drop off).drop blockSize) := by
        rw [List.drop_drop]
        exact blocksOf_fuel blockSize (by decide) _ _ _ (by simp; omega) (by simp; omega)
      rw [hfuel] at hrec
      simp only [writeLoop, if_pos hbig, bind, Except.bind, hchunk, pack_eq] at hrec ⊢
      rw [hrec]
      simp [blocksOf, hne, framesOf, List.append_assoc]
    · have hb : blockSize = 4096 := rfl
      have hw : writeLoop b (fuel + 1) dl off out rnd = .ok (out, dl, off, rnd) := by
        simp only [writeLoop, if_neg hbig]
      simp only [hw, bind, Except.bind, pure, Except.pure]
      by_cases hpos : dl > 0
      · have hne : b.drop off ≠ [] := by
          apply List.ne_nil_of_length_pos
          simp only [List.length_drop]
          omega
        obtain ⟨d, rfl⟩ : ∃ d, dl = d + 1 := ⟨dl - 1, by omega⟩
        have hrest : goSlice b off b.length = .ok (b.drop off) := by
          rw [goSlice_ok b off b.length (by omega) (le_refl _), List.take_length]
        have htake : (b.drop off).take blockSize = b.drop off :=
          List.take_of_length_le (by simp only [List.length_drop]; omega)
        have hdrop : (b.drop off).drop blockSize = [] :=
          List.drop_of_length_le (by simp only [List.length_drop]; omega)
        simp only [if_pos hpos, hrest, pack_eq, blocksOf, if_neg hne, htake, hdrop, blocksOf_nil,
          framesOf]
        simp
      · have h0 : dl = 0 := by omega
        subst h0
        simp [blocksOf, framesOf]


theorem Write_authenticated {ε : Type} (under : List Nat → Int × Option ε) (c : AuthSHA1v4)
    (b : List Nat) (now : Int) (rnd : Rand) (h : c.authenticated = true) :
    Write under c b now rnd = .ok
      { n := (under (framesOf (blocksOf blockSize b.length b) rnd).1.flatten).1
        err := (under (framesOf (blocksOf blockSize b.length b) rnd).1.flatten).2
        sent := (framesOf (blocksOf blockSize b.length b) rnd).1.flatten
        conn := c
        rnd := (framesOf (blocksOf blockSize b.length b) rnd).2 } := by
  have lt := loop_tail b b.length b.length 0 [] rnd (by simp) (le_refl _)
  unfold Write
  simp only [h, Bool.not_true, Bool.false_and, Bool.false_eq_true, if_false, bind, Except.bind,
    pure, Except.pure, Int.toNat_ofNat] at lt ⊢
  cases hw : writeLoop b b.length b.length 0 [] rnd with
  | error e => rw [hw] at lt; simp at lt
  | ok v =>
    rw [hw] at lt
    simp only [List.drop_zero, List.nil_append] at lt
    dsimp only
    generalize (framesOf (blocksOf blockSize b.length b) rnd).1.flatten = S at lt ⊢
    generalize (framesOf (blocksOf blockSize b.length b) rnd).2 = R at lt ⊢
    split_ifs at lt ⊢
    · cases hs : goSlice b v.2.2.1 b.length with
      | error e => rw [hs] at lt; simp at lt
      | ok sl =>
        rw [hs] at lt
        simp only [pack_eq] at lt ⊢
        simp only [Except.ok.injEq, Prod.mk.injEq] at lt
        rw [lt.1, lt.2]
    · simp only [Except.ok.injEq, Prod.mk.injEq] at lt
      rw [lt.1, lt.2]


theorem GetPacketTCPHeaderSize_nonneg (b : List Nat) (d : Int) (hd : 0 ≤ d) :
    0 ≤ GetPacketTCPHeaderSize b d := by
  unfold GetPacketTCPHeaderSize
  split
  · split_ifs <;> omega
  · exact hd

theorem Write_unauthenticated_fault {ε : Type} (under : List Nat → Int × Option ε)
    (c : AuthSHA1v4) (b : List Nat) (now : Int) (rnd : Rand)
    (h : c.authenticated = false) (hb : b ≠ []) :
    Write under c b now rnd
      = .error (match c.clientInfo with | none => .nilDeref | some _ => .sliceBounds) := by
  have hpos : 0 < b.length := List.length_pos.mpr hb
  have hh := GetPacketTCPHeaderSize_nonneg b 30 (by decide)
  unfold Write
  have hcond : (!c.authenticated && decide ((b.length : Int) > 0)) = true := by
    simp [h, hpos]
  simp only [hcond, if_true, bind, Except.bind]
  generalize GetPacketTCPHeaderSize b 30 = hs at hh
  have ha : ¬ (if hs ≤ (b.length : Int) then hs else (b.length : Int)) < 0 := by
    split_ifs <;> omega
  rw [if_neg ha]
  rw [goSlice_ok b 0 _ (Nat.zero_le _) (by split_ifs <;> omega)]
  simp only [packWithAuth_fault]


theorem and_65535 (x : Nat) : x &&& 65535 = x % 65536 :=
  Nat.and_pow_two_sub_one_eq_mod x 16

theorem framesOf_length (ps : List (List Nat)) (rnd : Rand) :
    (framesOf ps rnd).1.length = ps.length := by
  induction ps generalizing rnd with
  | nil => rfl
  | cons p ps ih => simp [framesOf, ih]

theorem adlerFold_lt (p : List Nat) (s : Nat × Nat) (h1 : s.1 < 65521) (h2 : s.2 < 65521) :
    (p.foldl adlerByte s).1 < 65521 ∧ (p.foldl adlerByte s).2 < 65521 := by
  induction p generalizing s with
  | nil => exact ⟨h1, h2⟩
  | cons x xs ih =>
    simp only [List.foldl_cons]
    apply ih
    · exact Nat.mod_lt _ (by norm_num)
    · exact Nat.mod_lt _ (by norm_num)

theorem adler32_lt (p : List Nat) : adler32 p < 2 ^ 32 := by
  have h := adlerFold_lt p (1, 0) (by norm_num) (by norm_num)
  unfold adler32
  dsimp only
  omega

theorem plainBody_length (b : List Nat) (rnd : Rand) :
    (plainBody b rnd).length = (getRandomDataLength b rnd).1 + b.length + 4 := by
  have h1 := getRandomDataLength_pos b rnd
  unfold plainBody fillerBytes
  have := randRead_length (getRandomDataLength b rnd).1 (getRandomDataLength b rnd).2
  split_ifs <;> simp [be16, le16] <;> omega

theorem plainFrame_length (b : List Nat) (rnd : Rand) :
    (plainFrame b rnd).length = (getRandomDataLength b rnd).1 + b.length + 8 := by
  simp [plainFrame, plainBody_length, le32_length]


/-! ## The claims -/

/-- C1: on a connection as returned by `NewAuthSHA1v4Protocol`, `Write` of any
non-empty buffer does not reach the underlying write: `packWithAuth`
dereferences the nil `clientInfo` and the call aborts, whatever the underlying
stream, the clock and the random source are. -/
theorem C1_write_on_new_connection_aborts {ε : Type} (under : List Nat → Int × Option ε)
    (param : String) (x : Nat) (xs : List Nat) (now : Int) (rnd : Rand) :
    Write under (NewAuthSHA1v4Protocol param) (x :: xs) now rnd = .error .nilDeref :=
  Write_unauthenticated_fault under (NewAuthSHA1v4Protocol param) (x :: xs) now rnd rfl
    (List.cons_ne_nil x xs)

/-- C2: the first write of a non-empty buffer on a connection that does have a
client identity produces no authenticated frame and does not set
`authenticated`: the call aborts at the slice `clientID[0:4]` of the empty
snapshot. -/
theorem C2_first_write_aborts {ε : Type} (under : List Nat → Int × Option ε)
    (ci : ClientInfo) (iv key : List Nat) (x : Nat) (xs : List Nat) (now : Int) (rnd : Rand) :
    Write under { authenticated := false, clientInfo := some ci, iv := iv, key := key }
      (x :: xs) now rnd = .error .sliceBounds :=
  Write_unauthenticated_fault under _ (x :: xs) now rnd rfl (List.cons_ne_nil x xs)

/-- C3: on an authenticated connection `Write` hands to the underlying stream,
in one write, the frames `pack` makes of the consecutive chunks of `b`, in
order; there are `ceil(len b / 4096)` of them, the chunks concatenate to `b`,
every chunk but the last has exactly 4096 bytes and every chunk (so the last
one) has between 1 and 4096 bytes. -/
theorem C3_authenticated_write_plain_frames {ε : Type} (under : List Nat → Int × Option ε)
    (ci : Option ClientInfo) (iv key b : List Nat) (now : Int) (rnd : Rand) :
    ∃ (frames : List (List Nat)) (rnd' : Rand),
      packEach (blocksOf blockSize b.length b) rnd = .ok (frames, rnd') ∧
      Write under { authenticated := true, clientInfo := ci, iv := iv, key := key } b now rnd
        = .ok { n := (under frames.flatten).1
                err := (under frames.flatten).2
                sent := frames.flatten
                conn := { authenticated := true, clientInfo := ci, iv := iv, key := key }
                rnd := rnd' } ∧
      frames.length = (b.length + 4095) / 4096 ∧
      (blocksOf blockSize b.length b).length = (b.length + 4095) / 4096 ∧
      (blocksOf blockSize b.length b).flatten = b ∧
      (∀ ch ∈ (blocksOf blockSize b.length b).dropLast, ch.length = 4096) ∧
      (∀ ch ∈ blocksOf blockSize b.length b, 1 ≤ ch.length ∧ ch.length ≤ 4096) := by
  have hlen := blocksOf_length blockSize (by decide) b.length b (le_refl _)
  refine ⟨(framesOf (blocksOf blockSize b.length b) rnd).1,
    (framesOf (blocksOf blockSize b.length b) rnd).2, packEach_eq _ _,
    Write_authenticated under _ b now rnd rfl, ?_, hlen,
    blocksOf_join blockSize (by decide) b.length b (le_refl _),
    blocksOf_dropLast blockSize b.length b,
    blocksOf_mem_length blockSize (by decide) b.length b⟩
  rw [framesOf_length]
  exact hlen

/-- C4: the frame `pack` returns has `rand_len + data_len + 8` bytes and its
first two bytes are the big-endian `uint16` of that length modulo 65536; but
`packWithAuth` returns no frame: called with an identity, a three-byte payload
and any clock it aborts at `clientID[0:4]`. -/
theorem C4_length_field :
    (∀ (b : List Nat) (rnd : Rand), ∃ (f : List Nat) (rnd' : Rand),
      pack b rnd = .ok (f, rnd') ∧
      f.length = (getRandomDataLength b rnd).1 + b.length + 8 ∧
      f.take 2 = be16 (f.length % 65536)) ∧
    packWithAuth { authenticated := false
                   clientInfo := some { ClientID := [1, 2, 3, 4, 5, 6, 7, 8], ConnID := 1 }
                   iv := [], key := [] } [1, 2, 3] 0 []
      = .error .sliceBounds := by
  refine ⟨fun b rnd => ⟨plainFrame b rnd, packTape b rnd, pack_eq b rnd,
    plainFrame_length b rnd, ?_⟩, packWithAuth_fault _ _ _ _⟩
  rw [plainFrame_length, ← and_65535]
  simp [plainFrame, plainBody, be16]

/-- C5: in `packWithAuth` the snapshot `clientID` of the client id is always
empty (`copy` into the nil slice copies nothing), so for every connection with
an identity, every payload, clock and random source the call aborts at
`clientID[0:4]` and no frame carries the client id. -/
theorem C5_client_id_snapshot_empty (auth : Bool) (ci : ClientInfo) (iv key b : List Nat)
    (now : Int) (rnd : Rand) :
    goCopy [] (acquireIdentity ci (getRandomDataLength b rnd).2).1.ClientID = [] ∧
    goSlice (goCopy [] (acquireIdentity ci (getRandomDataLength b rnd).2).1.ClientID) 0 4
      = .error .sliceBounds ∧
    packWithAuth { authenticated := auth, clientInfo := some ci, iv := iv, key := key } b now rnd
      = .error .sliceBounds :=
  ⟨by simp [goCopy], by simp [goCopy, goSlice], packWithAuth_fault _ _ _ _⟩

/-- C6: `packWithAuth` never returns a frame, so no frame carries an HMAC tag:
for every connection, payload, clock and random source the call aborts. -/
theorem C6_packWithAuth_returns_no_frame (c : AuthSHA1v4) (b : List Nat) (now : Int)
    (rnd : Rand) : ∃ e, packWithAuth c b now rnd = .error e :=
  ⟨_, packWithAuth_fault c b now rnd⟩

/-- C7: the frame `pack` returns ends in the four little-endian bytes of the
Adler-32 checksum of everything before them, and what is before them is the
length field, the CRC field, the filler region with its rand-length indicator
and the payload, as laid out in the frame. -/
theorem C7_plain_frame_adler (b : List Nat) (rnd : Rand) :
    ∃ (f : List Nat) (rnd' : Rand),
      pack b rnd = .ok (f, rnd') ∧
      4 ≤ f.length ∧
      f.drop (f.length - 4) = le32 (adler32 (f.take (f.length - 4))) ∧
      adler32 (f.take (f.length - 4)) < 2 ^ 32 ∧
      f.take (f.length - 4) = plainBody b rnd := by
  have hl := plainFrame_length b rnd
  have hb := plainBody_length b rnd
  have ht : (plainFrame b rnd).take ((plainFrame b rnd).length - 4) = plainBody b rnd := by
    rw [hl]
    unfold plainFrame
    rw [List.take_append_of_le_length (by omega), List.take_of_length_le (by omega)]
  refine ⟨plainFrame b rnd, packTape b rnd, pack_eq b rnd, by omega, ?_, adler32_lt _, ht⟩
  rw [ht, hl]
  unfold plainFrame
  rw [List.drop_append_of_le_length (by omega), List.drop_of_length_le (by omega)]
  rfl

/-- C8: bytes 2..4 of the frame `pack` returns are the little-endian `uint16`
of the low 16 bits of the CRC-32 (IEEE) of the payload `b` alone. -/
theorem C8_plain_frame_crc (b : List Nat) (rnd : Rand) :
    ∃ (f : List Nat) (rnd' : Rand),
      pack b rnd = .ok (f, rnd') ∧
      (f.drop 2).take 2 = le16 (ChecksumIEEE b % 65536) := by
  refine ⟨plainFrame b rnd, packTape b rnd, pack_eq b rnd, ?_⟩
  rw [← and_65535]
  simp [plainFrame, plainBody, be16, le16]

/-- C9: whatever the random source yields, `getRandomDataLength b` is at least
1, at most 1024 when `len b <= 400`, at most 128 when `400 < len b <= 1300`,
and equal to 1 when `len b > 1300`. -/
theorem C9_getRandomDataLength_tiers (b : List Nat) (rnd : Rand) :
    1 ≤ (getRandomDataLength b rnd).1 ∧
    (if b.length ≤ 400 then (getRandomDataLength b rnd).1 ≤ 1024
     else if b.length ≤ 1300 then (getRandomDataLength b rnd).1 ≤ 128
     else (getRandomDataLength b rnd).1 = 1) := by
  refine ⟨getRandomDataLength_pos b rnd, ?_⟩
  unfold getRandomDataLength randIntn
  split_ifs
  · have := Nat.mod_lt (rnd.headD 0) (show 1024 > 0 by norm_num)
    show rnd.headD 0 % 1024 + 1 ≤ 1024
    omega
  · have := Nat.mod_lt (rnd.headD 0) (show 128 > 0 by norm_num)
    show rnd.headD 0 % 128 + 1 ≤ 128
    omega
  · rfl

/-- C10, as stated, fails: with address-type byte 9 (none of 1, 4, 3) and
default 30 the result is 7, not the default. -/
theorem C10_counterexample :
    GetPacketTCPHeaderSize [9, 0] 30 = 7 ∧ GetPacketTCPHeaderSize [9, 0] 30 ≠ 30 := by
  decide

/-- C10, amended: for a buffer of at least two bytes the result is decided by
the low three bits of the address-type byte, `b[0] & 0x07`: 7 when they are 1,
19 when 4, `4 + b[1]` when 3, and the default otherwise. -/
theorem C10_header_size_by_low_bits (b0 b1 : Nat) (rest : List Nat) (d : Int) :
    GetPacketTCPHeaderSize (b0 :: b1 :: rest) d
      = if b0 % 8 = 1 then 7
        else if b0 % 8 = 4 then 19
        else if b0 % 8 = 3 then 4 + (b1 : Int)
        else d := by
  have h : b0 &&& 7 = b0 % 8 := Nat.and_pow_two_sub_one_eq_mod b0 3
  simp only [GetPacketTCPHeaderSize, h]

/-! ## Lemmas on the obfuscation layer -/

theorem goIndex_cons_zero {α : Type} (x : α) (xs : List α) : goIndex (x :: xs) 0 = .ok x := rfl

theorem goIndex_cons_one {α : Type} (x y : α) (xs : List α) :
    goIndex (x :: y :: xs) 1 = .ok y := rfl

theorem goIndex_lt {α : Type} (xs : List α) (i : Nat) (h : i < xs.length) :
    goIndex xs i = .ok (xs.get ⟨i, h⟩) := by
  unfold goIndex
  rw [List.get?_eq_get h]

theorem Split_ne_nil (sep : Char) (s : List Char) : Split sep s ≠ [] := by
  induction s with
  | nil => simp [Split]
  | cons c cs ih =>
    unfold Split
    split_ifs
    · simp
    · cases h : Split sep cs with
      | nil => simp
      | cons p ps => simp

theorem Split_no_sep (sep : Char) (s : List Char) (h : sep ∉ s) : Split sep s = [s] := by
  induction s with
  | nil => rfl
  | cons c cs ih =>
    have hc : c ≠ sep := fun e => h (by simp [e])
    have hcs : sep ∉ cs := fun e => h (List.mem_cons_of_mem _ e)
    simp [Split, hc, ih hcs]

theorem Split_append (sep : Char) (s t : List Char) (h : sep ∉ s) :
    Split sep (s ++ sep :: t) = s :: Split sep t := by
  induction s with
  | nil => simp [Split]
  | cons c cs ih =>
    have hc : c ≠ sep := fun e => h (by simp [e])
    have hcs : sep ∉ cs := fun e => h (List.mem_cons_of_mem _ e)
    simp [Split, hc, ih hcs]

theorem hex_roundtrip : ∀ n < 16, unhex (hexDigit n) = some n := by decide

set_option maxRecDepth 100000 in
theorem unreserved_char : ∀ c < 256, shouldEscape c = false →
    Char.ofNat c ≠ '%' ∧ Char.ofNat c ≠ '+' ∧ (Char.ofNat c).toNat = c := by decide

theorem QueryUnescape_plain (c : Char) (cs : List Char) (h : c ≠ '%') :
    QueryUnescape (c :: cs)
      = if c = '+' then (QueryUnescape cs).map (fun out => 32 :: out)
        else (QueryUnescape cs).map (fun out => c.toNat :: out) := by
  rcases cs with _ | ⟨d, _ | ⟨e, rest⟩⟩ <;> simp [QueryUnescape, h]

theorem QueryUnescape_percent (h l : Char) (rest : List Char) :
    QueryUnescape ('%' :: h :: l :: rest)
      = match unhex h, unhex l, QueryUnescape rest with
        | some hv, some lv, some out => some ((hv * 16 + lv) :: out)
        | _, _, _ => none := by
  simp [QueryUnescape]

theorem QueryUnescape_QueryEscape (p : List Nat) (hp : ∀ x ∈ p, x < 256) :
    QueryUnescape (QueryEscape p) = some p := by
  induction p with
  | nil => rfl
  | cons c cs ih =>
    have hc : c < 256 := hp c (by simp)
    have ih := ih (fun x hx => hp x (List.mem_cons_of_mem _ hx))
    unfold QueryEscape
    by_cases h32 : c = 32
    · subst h32
      rw [if_pos rfl, QueryUnescape_plain _ _ (by decide), if_pos rfl, ih]
      rfl
    · rw [if_neg h32]
      by_cases hs : shouldEscape c = true
      · rw [if_pos hs, QueryUnescape_percent]
        have h1 := hex_roundtrip (c / 16) (by omega)
        have h2 := hex_roundtrip (c % 16) (by omega)
        simp only [h1, h2, ih]
        congr 2
        omega
      · rw [if_neg hs]
        obtain ⟨e1, e2, e3⟩ := unreserved_char c hc (by simpa using hs)
        rw [QueryUnescape_plain _ _ e1, if_neg e2, ih, e3]
        rfl


theorem randIntn_lt (n : Nat) (hn : 0 < n) (rnd : Rand) : (randIntn n rnd).1 < n :=
  Nat.mod_lt _ hn

theorem goCopy_fresh (n : Nat) (src : List Nat) (h : src.length = n) :
    goCopy (makeBytes n) src = src := by
  subst h
  simp [goCopy, makeBytes]

theorem dataInHeader_eq (c : Obfs.ShadowSocksRHTTPSimpleObfs) (b : List Nat) (rnd : Rand)
    (h0 : 0 ≤ c.ivLen + c.tcpHeaderLength) :
    Obfs.dataInHeader c b rnd
      = if (b.length : Int) - (c.ivLen + c.tcpHeaderLength) > 64 then
          .ok (b.take (c.ivLen + c.tcpHeaderLength + ((randIntn 64 rnd).1 : Int)).toNat,
            (randIntn 64 rnd).2)
        else .ok (b, rnd) := by
  have hr := randIntn_lt 64 (by norm_num) rnd
  unfold Obfs.dataInHeader
  generalize c.ivLen + c.tcpHeaderLength = hs at *
  generalize (randIntn 64 rnd).1 = r at *
  by_cases hbig : (b.length : Int) - hs > 64
  · have hneg : ¬ hs + (r : Int) < 0 := by omega
    have hle : (hs + (r : Int)).toNat ≤ b.length := by omega
    simp only [if_pos hbig, if_neg hneg, bind, Except.bind, pure, Except.pure, makeBytes,
      List.length_replicate]
    rw [goSlice_ok b 0 _ (Nat.zero_le _) hle]
    simp only [List.drop_zero]
    have := goCopy_fresh (hs + (r : Int)).toNat (b.take (hs + (r : Int)).toNat)
      (by simp; omega)
    simp only [makeBytes] at this
    rw [this]
  · simp only [if_neg hbig, bind, Except.bind, pure, Except.pure, makeBytes,
      List.length_replicate, Int.toNat_ofNat]
    rw [goSlice_ok b 0 _ (Nat.zero_le _) (le_refl _)]
    simp only [List.drop_zero, List.take_length]
    have := goCopy_fresh b.length b rfl
    simp only [makeBytes] at this
    rw [this]

theorem randomBoundaryLoop_ok (k : Nat) (rnd : Rand) :
    ∃ r, Obfs.randomBoundaryLoop k rnd = .ok r := by
  induction k generalizing rnd with
  | zero => exact ⟨_, rfl⟩
  | succ k ih =>
    have hlt := randIntn_lt Obfs.boundarySet.length (by decide) rnd
    obtain ⟨r, hr⟩ := ih (randIntn Obfs.boundarySet.length rnd).2
    refine ⟨(Obfs.boundarySet.get ⟨_, hlt⟩ :: r.1, r.2), ?_⟩
    simp only [Obfs.randomBoundaryLoop, bind, Except.bind, goIndex_lt _ _ hlt, hr, pure,
      Except.pure]

theorem keepAlive_blank :
    "Connection: keep-alive\r\n".toList ++ "\r\n".toList
      = "Connection: keep-alive".toList ++ "\r\n\r\n".toList := by
  decide

theorem headerLines_ok (c : Obfs.ShadowSocksRHTTPSimpleObfs) (rnd : Rand) :
    ∃ (lines : List Char) (rnd' : Rand),
      Obfs.headerLines c rnd = .ok (lines ++ "\r\n\r\n".toList, rnd') := by
  unfold Obfs.headerLines
  split_ifs with hc hm
  · exact ⟨_, _, rfl⟩
  · obtain ⟨r, hr⟩ := randomBoundaryLoop_ok 32 rnd
    simp only [Obfs.randomBoundary, hr, bind, Except.bind, pure, Except.pure]
    refine ⟨"User-Agent: ".toList ++ c.UserAgent ++ "\r\n".toList ++
      "Accept: text/html,application/xhtml+xml,application/xml;q=0.9,*/*;q=0.8\r\n".toList ++
      "Accept-Language: en-US,en;q=0.8\r\n".toList ++
      "Accept-Encoding: gzip, deflate\r\n".toList ++
      ("Content-Type: multipart/form-data; boundary=".toList ++ r.1 ++ "\r\n".toList) ++
      "DNT: 1\r\n".toList ++
      "Connection: keep-alive".toList, r.2, ?_⟩
    rw [List.append_assoc _ "Connection: keep-alive".toList, ← keepAlive_blank]
    simp only [List.append_assoc]
  · simp only [bind, Except.bind, pure, Except.pure]
    refine ⟨"User-Agent: ".toList ++ c.UserAgent ++ "\r\n".toList ++
      "Accept: text/html,application/xhtml+xml,application/xml;q=0.9,*/*;q=0.8\r\n".toList ++
      "Accept-Language: en-US,en;q=0.8\r\n".toList ++
      "Accept-Encoding: gzip, deflate\r\n".toList ++
      "DNT: 1\r\n".toList ++
      "Connection: keep-alive".toList, rnd, ?_⟩
    rw [List.append_assoc _ "Connection: keep-alive".toList, ← keepAlive_blank]
    simp only [List.append_assoc, List.nil_append]

theorem strBytes_append (s t : List Char) : strBytes (s ++ t) = strBytes s ++ strBytes t := by
  simp [strBytes]

theorem Obfs_Write_passthrough {ε : Type} (under : List Nat → Int × Option ε)
    (c : Obfs.ShadowSocksRHTTPSimpleObfs) (b : List Nat) (rnd : Rand)
    (h : c.headerSent = true) :
    Obfs.Write under c b rnd
      = .ok { n := (under b).1, err := (under b).2, sent := b, conn := c, rnd := rnd } := by
  simp [Obfs.Write, h]

theorem Obfs_writeAll_passthrough {ε : Type} (under : List Nat → Int × Option ε)
    (c : Obfs.ShadowSocksRHTTPSimpleObfs) (bs : List (List Nat)) (rnd : Rand)
    (h : c.headerSent = true) :
    Obfs.writeAll under c bs rnd = .ok (bs, c, rnd) := by
  induction bs with
  | nil => rfl
  | cons b bs ih =>
    simp only [Obfs.writeAll, Obfs_Write_passthrough under c b rnd h, bind, Except.bind, ih,
      pure, Except.pure]

theorem Obfs_Write_first {ε : Type} (under : List Nat → Int × Option ε)
    (c : Obfs.ShadowSocksRHTTPSimpleObfs) (b : List Nat) (rnd : Rand)
    (u0 u1 : List Char) (us : List (List Char))
    (hs : c.headerSent = false) (hu : c.RequestURI = u0 :: u1 :: us)
    (h0 : 0 ≤ c.ivLen + c.tcpHeaderLength) :
    ∃ (e : Nat) (rnd1 : Rand) (lines : List Char) (rnd' : Rand),
      e ≤ b.length ∧
      Obfs.dataInHeader c b rnd = .ok (b.take e, rnd1) ∧
      Obfs.headerLines c rnd1 = .ok (lines ++ "\r\n\r\n".toList, rnd') ∧
      Obfs.Write under c b rnd = .ok
        { n := (under (strBytes (Obfs.httpHead c u0 (QueryEscape (b.take e)) u1
                  ++ (lines ++ "\r\n\r\n".toList)) ++ b.drop e)).1
          err := (under (strBytes (Obfs.httpHead c u0 (QueryEscape (b.take e)) u1
                  ++ (lines ++ "\r\n\r\n".toList)) ++ b.drop e)).2
          sent := strBytes (Obfs.httpHead c u0 (QueryEscape (b.take e)) u1
                  ++ (lines ++ "\r\n\r\n".toList)) ++ b.drop e
          conn := { c with headerSent := true }
          rnd := rnd' } := by
  have hd := dataInHeader_eq c b rnd h0
  have hr := randIntn_lt 64 (by norm_num) rnd
  obtain ⟨e, rnd1, he, hd'⟩ : ∃ e rnd1, e ≤ b.length ∧
      Obfs.dataInHeader c b rnd = .ok (b.take e, rnd1) := by
    by_cases hbig : (b.length : Int) - (c.ivLen + c.tcpHeaderLength) > 64
    · rw [if_pos hbig] at hd
      exact ⟨_, _, by omega, hd⟩
    · rw [if_neg hbig] at hd
      exact ⟨b.length, rnd, le_refl _, by rw [List.take_length]; exact hd⟩
  obtain ⟨lines, rnd', hl⟩ := headerLines_ok c rnd1
  refine ⟨e, rnd1, lines, rnd', he, hd', hl, ?_⟩
  unfold Obfs.Write
  simp only [hs, Bool.false_eq_true, if_false, bind, Except.bind, hd', hu, goIndex_cons_zero,
    goIndex_cons_one, hl, pure, Except.pure, List.length_take, Nat.min_eq_left he]
  generalize strBytes (Obfs.httpHead c u0 (QueryEscape (List.take e b)) u1 ++
    (lines ++ "\r\n\r\n".toList)) = H
  by_cases hlt : e < b.length
  · rw [if_pos hlt, goSlice_ok b e b.length (by omega) (le_refl _), List.take_length]
    have hg : goCopy (makeBytes (H.length + (b.length - e))) H
        = H ++ List.replicate (b.length - e) 0 := by
      simp [goCopy, makeBytes]
    rw [hg]
    dsimp only
    rw [copyAt_append H (List.replicate (b.length - e) 0) (b.drop e) H.length _ rfl
      (by simp) (by simp)]
    simp
  · have : b.drop e = [] := List.drop_of_length_le (by omega)
    rw [if_neg hlt, this, List.append_nil]

theorem goSlice_err (b : List Nat) (lo hi : Nat) (h : b.length < hi) :
    goSlice b lo hi = .error .sliceBounds := by
  unfold goSlice
  rw [if_neg (by omega)]

theorem embed_ok (n : Nat) (b x : List Nat) (hn : n ≤ b.length)
    (h : goCopy (List.replicate n 0) (b.take n) = x) :
    x = b.take x.length ∧ x.length ≤ b.length := by
  have := goCopy_fresh n (b.take n) (by simp; omega)
  simp only [makeBytes] at this
  rw [this] at h
  have hx : x.length = n := by rw [← h]; simp; omega
  rw [hx]
  exact ⟨h.symm, hn⟩

theorem dataInHeader_prefix (c : Obfs.ShadowSocksRHTTPSimpleObfs) (b : List Nat) (rnd : Rand)
    (x : List Nat) (rnd1 : Rand) (h : Obfs.dataInHeader c b rnd = .ok (x, rnd1)) :
    x = b.take x.length ∧ x.length ≤ b.length := by
  unfold Obfs.dataInHeader at h
  simp only [bind, Except.bind, pure, Except.pure, makeBytes, List.length_replicate] at h
  by_cases hbig : (b.length : Int) - (c.ivLen + c.tcpHeaderLength) > 64
  · rw [if_pos hbig] at h
    by_cases hneg : c.ivLen + c.tcpHeaderLength + ((randIntn 64 rnd).1 : Int) < 0
    · rw [if_pos hneg] at h
      exact Except.noConfusion h
    · rw [if_neg hneg] at h
      dsimp only at h
      simp only [List.length_replicate] at h
      generalize (c.ivLen + c.tcpHeaderLength + ((randIntn 64 rnd).1 : Int)).toNat = n at h
      by_cases hn : n ≤ b.length
      · rw [goSlice_ok b 0 n (Nat.zero_le _) hn] at h
        simp only [Except.ok.injEq, Prod.mk.injEq, List.drop_zero] at h
        exact embed_ok n b x hn h.1
      · rw [goSlice_err b 0 n (by omega)] at h
        exact Except.noConfusion h
  · rw [if_neg hbig] at h
    generalize ((b.length : Int)).toNat = n at h
    by_cases hn : n ≤ b.length
    · rw [goSlice_ok b 0 n (Nat.zero_le _) hn] at h
      simp only [Except.ok.injEq, Prod.mk.injEq, List.drop_zero] at h
      exact embed_ok n b x hn h.1
    · rw [goSlice_err b 0 n (by omega)] at h
      exact Except.noConfusion h

theorem Obfs_Write_embedded {ε : Type} (under : List Nat → Int × Option ε)
    (c : Obfs.ShadowSocksRHTTPSimpleObfs) (b : List Nat) (rnd : Rand)
    (u0 u1 : List Char) (us : List (List Char)) (x : List Nat) (rnd1 : Rand)
    (hs : c.headerSent = false) (hu : c.RequestURI = u0 :: u1 :: us)
    (hd : Obfs.dataInHeader c b rnd = .ok (x, rnd1)) :
    ∃ (lines : List Char) (rnd' : Rand),
      Obfs.headerLines c rnd1 = .ok (lines ++ "\r\n\r\n".toList, rnd') ∧
      Obfs.Write under c b rnd = .ok
        { n := (under (strBytes (Obfs.httpHead c u0 (QueryEscape x) u1
                  ++ (lines ++ "\r\n\r\n".toList)) ++ b.drop x.length)).1
          err := (under (strBytes (Obfs.httpHead c u0 (QueryEscape x) u1
                  ++ (lines ++ "\r\n\r\n".toList)) ++ b.drop x.length)).2
          sent := strBytes (Obfs.httpHead c u0 (QueryEscape x) u1
                  ++ (lines ++ "\r\n\r\n".toList)) ++ b.drop x.length
          conn := { c with headerSent := true }
          rnd := rnd' } := by
  obtain ⟨hx, he⟩ := dataInHeader_prefix c b rnd x rnd1 hd
  obtain ⟨lines, rnd', hl⟩ := headerLines_ok c rnd1
  refine ⟨lines, rnd', hl, ?_⟩
  unfold Obfs.Write
  simp only [hs, Bool.false_eq_true, if_false, bind, Except.bind, hd, hu, goIndex_cons_zero,
    goIndex_cons_one, hl, pure, Except.pure]
  generalize strBytes (Obfs.httpHead c u0 (QueryEscape x) u1 ++
    (lines ++ "\r\n\r\n".toList)) = H
  generalize x.length = e at *
  by_cases hlt : e < b.length
  · rw [if_pos hlt, goSlice_ok b e b.length (by omega) (le_refl _), List.take_length]
    have hg : goCopy (makeBytes (H.length + (b.length - e))) H
        = H ++ List.replicate (b.length - e) 0 := by
      simp [goCopy, makeBytes]
    rw [hg]
    dsimp only
    rw [copyAt_append H (List.replicate (b.length - e) 0) (b.drop e) H.length _ rfl
      (by simp) (by simp)]
    simp
  · have : b.drop e = [] := List.drop_of_length_le (by omega)
    rw [if_neg hlt, this, List.append_nil]

theorem randIntn_one (rnd : Rand) : (randIntn 1 rnd).1 = 0 := by
  simp [randIntn, Nat.mod_one]

theorem requestURI_ok (rnd : Rand) :
    ∃ u0 u1, goIndex Obfs.RequestURIs (randIntn Obfs.RequestURIs.length rnd).1 = .ok [u0, u1] := by
  have h := randIntn_lt Obfs.RequestURIs.length (by decide) rnd
  generalize (randIntn Obfs.RequestURIs.length rnd).1 = i at h
  have h5 : Obfs.RequestURIs.length = 5 := rfl
  rw [h5] at h
  interval_cases i <;> exact ⟨_, _, rfl⟩

theorem userAgent_ok (rnd : Rand) :
    ∃ ua, goIndex Obfs.UserAgents (randIntn Obfs.UserAgents.length rnd).1 = .ok ua := by
  have h := randIntn_lt Obfs.UserAgents.length (by decide) rnd
  exact ⟨_, goIndex_lt _ _ h⟩

theorem digitsVal_digits (p : List Char) (acc : Nat)
    (hp : ∀ ch ∈ p, 48 ≤ ch.toNat ∧ ch.toNat ≤ 57) :
    digitsVal p acc = some (p.foldl (fun a ch => a * 10 + (ch.toNat - 48)) acc) := by
  induction p generalizing acc with
  | nil => rfl
  | cons c cs ih =>
    have hc := hp c (by simp)
    simp only [digitsVal, if_pos hc, List.foldl_cons]
    exact ih _ (fun ch h => hp ch (List.mem_cons_of_mem _ h))

theorem Atoi_digits (p : List Char) (hne : p ≠ [])
    (hp : ∀ ch ∈ p, 48 ≤ ch.toNat ∧ ch.toNat ≤ 57) (hv : decimalValue p < 2 ^ 63) :
    Atoi p = (decimalValue p : Int) := by
  obtain ⟨c, cs, rfl⟩ := List.exists_cons_of_ne_nil hne
  have hc := hp c (by simp)
  have h1 : c ≠ '-' := by
    intro e; subst e; revert hc; decide
  have h2 : c ≠ '+' := by
    intro e; subst e; revert hc; decide
  unfold Atoi
  simp only [List.head?_cons, Option.some.injEq, h1, h2, or_self, if_false,
    digitsVal_digits (c :: cs) 0 hp]
  unfold decimalValue at hv ⊢
  rw [if_neg (not_le.mpr hv), if_neg (List.cons_ne_nil _ _)]

theorem New_total (param : List Char) (rnd : Rand) :
    ∃ c rnd', Obfs.NewShadowSocksRHTTPSimpleObfs param rnd = .ok (c, rnd') := by
  unfold Obfs.NewShadowSocksRHTTPSimpleObfs
  by_cases hp : param.length > 0
  · simp only [if_pos hp, bind, Except.bind, pure, Except.pure]
    obtain ⟨p0, ps, hps⟩ := List.exists_cons_of_ne_nil (Split_ne_nil '#' param)
    rw [hps, goIndex_cons_zero]
    dsimp only
    have hd : 0 < (Split ',' p0).length := List.length_pos.mpr (Split_ne_nil ',' p0)
    rw [goIndex_lt _ _ (randIntn_lt _ hd rnd)]
    dsimp only
    generalize (Split ',' p0).get _ = domain
    generalize (randIntn (Split ',' p0).length rnd).2 = rnd1
    obtain ⟨q0, qs, hqs⟩ := List.exists_cons_of_ne_nil (Split_ne_nil ':' domain)
    rw [hqs, goIndex_cons_zero]
    dsimp only
    obtain ⟨u0, u1, hu⟩ := requestURI_ok rnd1
    obtain ⟨ua, hua⟩ := userAgent_ok (randIntn Obfs.RequestURIs.length rnd1).2
    rcases qs with _ | ⟨q1, qs⟩ <;> rcases ps with _ | ⟨p1, ps⟩ <;>
      simp [goIndex_cons_one, hu, hua]
  · simp only [if_neg hp, bind, Except.bind, pure, Except.pure]
    obtain ⟨u0, u1, hu⟩ := requestURI_ok rnd
    obtain ⟨ua, hua⟩ := userAgent_ok (randIntn Obfs.RequestURIs.length rnd).2
    simp [hu, hua]

theorem New_empty (rnd : Rand) :
    ∃ c rnd', Obfs.NewShadowSocksRHTTPSimpleObfs [] rnd = .ok (c, rnd') ∧
      c.Host = "bing.com".toList ∧ c.Port = 80 ∧ c.CustomHeader = [] := by
  unfold Obfs.NewShadowSocksRHTTPSimpleObfs
  simp only [List.length_nil, gt_iff_lt, Nat.lt_irrefl, if_false, bind, Except.bind, pure,
    Except.pure]
  obtain ⟨u0, u1, hu⟩ := requestURI_ok rnd
  obtain ⟨ua, hua⟩ := userAgent_ok (randIntn Obfs.RequestURIs.length rnd).2
  simp [hu, hua]

theorem New_domain_header (d h : List Char) (rnd : Rand)
    (hd1 : '#' ∉ d) (hd2 : ',' ∉ d) (hd3 : ':' ∉ d) (hh : '#' ∉ h) :
    ∃ c rnd', Obfs.NewShadowSocksRHTTPSimpleObfs (d ++ '#' :: h) rnd = .ok (c, rnd') ∧
      c.Host = TrimSpace d ∧ c.Port = 80 ∧ c.CustomHeader = replaceEscapedNewlines h := by
  unfold Obfs.NewShadowSocksRHTTPSimpleObfs
  have hp : (d ++ '#' :: h).length > 0 := by simp
  simp only [if_pos hp, bind, Except.bind, pure, Except.pure, Split_append '#' d h hd1,
    Split_no_sep '#' h hh, goIndex_cons_zero, goIndex_cons_one, Split_no_sep ',' d hd2,
    List.length_singleton, randIntn_one, Split_no_sep ':' d hd3]
  obtain ⟨u0, u1, hu⟩ := requestURI_ok (randIntn 1 rnd).2
  obtain ⟨ua, hua⟩ := userAgent_ok (randIntn Obfs.RequestURIs.length (randIntn 1 rnd).2).2
  simp [hu, hua]

theorem New_domain_port (d p : List Char) (rnd : Rand)
    (hd1 : '#' ∉ d) (hd2 : ',' ∉ d) (hd3 : ':' ∉ d)
    (hne : p ≠ []) (hp : ∀ ch ∈ p, 48 ≤ ch.toNat ∧ ch.toNat ≤ 57)
    (hv : decimalValue p < 2 ^ 63) :
    ∃ c rnd', Obfs.NewShadowSocksRHTTPSimpleObfs (d ++ ':' :: p) rnd = .ok (c, rnd') ∧
      c.Host = TrimSpace d ∧ c.Port = (decimalValue p : Int) ∧ c.CustomHeader = [] := by
  have hs : ∀ ch : Char, ¬ (48 ≤ ch.toNat ∧ ch.toNat ≤ 57) → ch ∉ p :=
    fun ch hn hm => hn (hp ch hm)
  have hp1 : '#' ∉ p := hs '#' (by decide)
  have hp2 : ',' ∉ p := hs ',' (by decide)
  have hp3 : ':' ∉ p := hs ':' (by decide)
  have hall1 : '#' ∉ d ++ ':' :: p := by simp [hd1, hp1]
  have hall2 : ',' ∉ d ++ ':' :: p := by simp [hd2, hp2]
  unfold Obfs.NewShadowSocksRHTTPSimpleObfs
  have hlen : (d ++ ':' :: p).length > 0 := by simp
  simp only [if_pos hlen, bind, Except.bind, pure, Except.pure, Split_no_sep '#' _ hall1,
    goIndex_cons_zero, goIndex_cons_one, Split_no_sep ',' _ hall2,
    List.length_singleton, randIntn_one, Split_append ':' d p hd3, Split_no_sep ':' p hp3,
    Atoi_digits p hne hp hv]
  obtain ⟨u0, u1, hu⟩ := requestURI_ok (randIntn 1 rnd).2
  obtain ⟨ua, hua⟩ := userAgent_ok (randIntn Obfs.RequestURIs.length (randIntn 1 rnd).2).2
  simp [hu, hua]

/-! ## The claims on the obfuscation layer -/

/-- C11: on a connection that has not sent its header (with a two-part request
URI and a non-negative head size, as every connection of the constructor has),
the first `Write` hands the underlying stream one buffer that begins with the
request line `Method SP uri-prefix` and contains `" HTTP/1.1\r\n"`, and leaves
`headerSent = true`; in a sequence of writes every later underlying write is
exactly the caller's buffer, and a `Write` on a connection with
`headerSent = true` leaves the connection as it is, so `headerSent` never
returns to false. -/
theorem C11_only_first_write_disguised {ε : Type} (under : List Nat → Int × Option ε)
    (c : Obfs.ShadowSocksRHTTPSimpleObfs) (b1 : List Nat) (bs : List (List Nat)) (rnd : Rand)
    (u0 u1 : List Char) (us : List (List Char))
    (hs : c.headerSent = false) (hu : c.RequestURI = u0 :: u1 :: us)
    (h0 : 0 ≤ c.ivLen + c.tcpHeaderLength) :
    ∃ (r1 : Obfs.WriteResult ε) (mid rest : List Nat),
      Obfs.Write under c b1 rnd = .ok r1 ∧
      r1.sent = strBytes (c.Method ++ " ".toList ++ u0) ++ mid
        ++ strBytes " HTTP/1.1\r\n".toList ++ rest ∧
      r1.conn.headerSent = true ∧
      Obfs.writeAll under c (b1 :: bs) rnd = .ok (r1.sent :: bs, r1.conn, r1.rnd) ∧
      (∀ (c2 : Obfs.ShadowSocksRHTTPSimpleObfs) (b : List Nat) (r : Rand),
        c2.headerSent = true →
        Obfs.Write under c2 b r
          = .ok { n := (under b).1, err := (under b).2, sent := b, conn := c2, rnd := r }) := by
  obtain ⟨e, rnd1, lines, rnd', _, _, _, hw⟩ := Obfs_Write_first under c b1 rnd u0 u1 us hs hu h0
  refine ⟨_, strBytes (QueryEscape (b1.take e) ++ u1),
    strBytes ("Host: ".toList ++ c.Host ++ ":".toList ++ (toString c.Port).toList
      ++ "\r\n".toList ++ (lines ++ "\r\n\r\n".toList)) ++ b1.drop e, hw, ?_, rfl, ?_,
    fun c2 b r h2 => Obfs_Write_passthrough under c2 b r h2⟩
  · simp only [Obfs.httpHead, strBytes_append, List.append_assoc]
  · simp only [Obfs.writeAll, hw, bind, Except.bind, pure, Except.pure]
    rw [Obfs_writeAll_passthrough under _ bs rnd' rfl]

/-- C11 at a concrete connection, two buffers and an empty tape. -/
theorem C11_witness :
    (Obfs.sampleConn.headerSent = false ∧
      Obfs.sampleConn.RequestURI = "/".toList :: "".toList :: [] ∧
      0 ≤ Obfs.sampleConn.ivLen + Obfs.sampleConn.tcpHeaderLength) ∧
    ∃ (r1 : Obfs.WriteResult Unit) (mid rest : List Nat),
      Obfs.Write acceptAll Obfs.sampleConn [1, 2, 3] [] = .ok r1 ∧
      r1.sent = strBytes (Obfs.sampleConn.Method ++ " ".toList ++ "/".toList) ++ mid
        ++ strBytes " HTTP/1.1\r\n".toList ++ rest ∧
      r1.conn.headerSent = true ∧
      Obfs.writeAll acceptAll Obfs.sampleConn ([1, 2, 3] :: [[4, 5], [6]]) []
        = .ok (r1.sent :: [[4, 5], [6]], r1.conn, r1.rnd) ∧
      (∀ (c2 : Obfs.ShadowSocksRHTTPSimpleObfs) (b : List Nat) (r : Rand),
        c2.headerSent = true →
        Obfs.Write acceptAll c2 b r
          = .ok { n := (acceptAll b).1, err := (acceptAll b).2, sent := b, conn := c2,
                  rnd := r }) :=
  ⟨⟨rfl, rfl, by decide⟩,
    C11_only_first_write_disguised acceptAll Obfs.sampleConn [1, 2, 3] [[4, 5], [6]] []
      "/".toList "".toList [] rfl rfl (by decide)⟩

/-- C12: on the first write, with a non-negative head size
`ivLen + tcpHeaderLength`, the bytes chosen for the request URI are the first
`e` bytes of `b` (the slice of `b` is in bounds): when `len b - head_size > 64`,
`e = head_size + r` with `r = rand.Intn(64)`, `r < 64`, and `e < len b`;
otherwise `e = len b`, the whole buffer. -/
theorem C12_embedded_prefix (c : Obfs.ShadowSocksRHTTPSimpleObfs) (b : List Nat) (rnd : Rand)
    (h0 : 0 ≤ c.ivLen + c.tcpHeaderLength) :
    ∃ (e : Nat) (rnd' : Rand),
      Obfs.dataInHeader c b rnd = .ok (b.take e, rnd') ∧
      e ≤ b.length ∧
      (if (b.length : Int) - (c.ivLen + c.tcpHeaderLength) > 64 then
        (e : Int) = c.ivLen + c.tcpHeaderLength + ((randIntn 64 rnd).1 : Int) ∧
          (randIntn 64 rnd).1 < 64 ∧ e < b.length
       else e = b.length) := by
  have hd := dataInHeader_eq c b rnd h0
  have hr := randIntn_lt 64 (by norm_num) rnd
  by_cases hbig : (b.length : Int) - (c.ivLen + c.tcpHeaderLength) > 64
  · rw [if_pos hbig] at hd
    refine ⟨_, _, hd, by omega, ?_⟩
    rw [if_pos hbig]
    refine ⟨?_, hr, by omega⟩
    omega
  · rw [if_neg hbig] at hd
    refine ⟨b.length, rnd, by rw [List.take_length]; exact hd, le_refl _, ?_⟩
    rw [if_neg hbig]

/-- C12 at a concrete connection (head size 7), a buffer of 100 bytes and the
draw 5: twelve bytes are embedded. -/
theorem C12_witness :
    0 ≤ Obfs.sampleConn.ivLen + Obfs.sampleConn.tcpHeaderLength ∧
    ∃ (e : Nat) (rnd' : Rand),
      Obfs.dataInHeader Obfs.sampleConn (List.replicate 100 1) [5]
        = .ok ((List.replicate 100 1).take e, rnd') ∧
      e ≤ (List.replicate 100 1).length ∧
      (if ((List.replicate 100 1).length : Int)
            - (Obfs.sampleConn.ivLen + Obfs.sampleConn.tcpHeaderLength) > 64 then
        (e : Int) = Obfs.sampleConn.ivLen + Obfs.sampleConn.tcpHeaderLength
            + ((randIntn 64 [5]).1 : Int) ∧
          (randIntn 64 [5]).1 < 64 ∧ e < (List.replicate 100 1).length
       else e = (List.replicate 100 1).length) :=
  ⟨by decide, C12_embedded_prefix Obfs.sampleConn (List.replicate 100 1) [5] (by decide)⟩

/-- C13: on the first write, when `x` (the first `len x` bytes of `b`) is what
is embedded, the one buffer handed to the underlying stream is the bytes of
`Method SP uri-prefix escape(x) uri-suffix " HTTP/1.1\r\n" "Host: " host ":" port "\r\n"`,
header lines and a blank line, followed by `b[len x:]` unchanged; and
unescaping the escaped part gives `x` back. -/
theorem C13_first_write_layout {ε : Type} (under : List Nat → Int × Option ε)
    (c : Obfs.ShadowSocksRHTTPSimpleObfs) (b : List Nat) (rnd : Rand)
    (u0 u1 : List Char) (us : List (List Char)) (x : List Nat) (rnd1 : Rand)
    (hs : c.headerSent = false) (hu : c.RequestURI = u0 :: u1 :: us)
    (hd : Obfs.dataInHeader c b rnd = .ok (x, rnd1)) (hb : ∀ v ∈ b, v < 256) :
    ∃ (r1 : Obfs.WriteResult ε) (lines : List Char),
      Obfs.Write under c b rnd = .ok r1 ∧
      x = b.take x.length ∧
      r1.sent = strBytes (c.Method ++ " ".toList ++ u0 ++ QueryEscape x ++ u1
          ++ " HTTP/1.1\r\n".toList ++ "Host: ".toList ++ c.Host ++ ":".toList
          ++ (toString c.Port).toList ++ "\r\n".toList ++ (lines ++ "\r\n\r\n".toList))
        ++ b.drop x.length ∧
      r1.n = (under r1.sent).1 ∧ r1.err = (under r1.sent).2 ∧
      QueryUnescape (QueryEscape x) = some x := by
  obtain ⟨lines, rnd', _, hw⟩ := Obfs_Write_embedded under c b rnd u0 u1 us x rnd1 hs hu hd
  obtain ⟨hx, _⟩ := dataInHeader_prefix c b rnd x rnd1 hd
  refine ⟨_, lines, hw, hx, rfl, rfl, rfl, QueryUnescape_QueryEscape x ?_⟩
  intro v hv
  rw [hx] at hv
  exact hb v (List.mem_of_mem_take hv)

/-- C13 at a concrete connection and a five-byte buffer, embedded whole. -/
theorem C13_witness :
    (Obfs.sampleConn.headerSent = false ∧
      Obfs.sampleConn.RequestURI = "/".toList :: "".toList :: [] ∧
      Obfs.dataInHeader Obfs.sampleConn [1, 32, 65, 255, 37] [] = .ok ([1, 32, 65, 255, 37], []) ∧
      ∀ v ∈ [1, 32, 65, 255, 37], v < 256) ∧
    ∃ (r1 : Obfs.WriteResult Unit) (lines : List Char),
      Obfs.Write acceptAll Obfs.sampleConn [1, 32, 65, 255, 37] [] = .ok r1 ∧
      [1, 32, 65, 255, 37] = [1, 32, 65, 255, 37].take [1, 32, 65, 255, 37].length ∧
      r1.sent = strBytes (Obfs.sampleConn.Method ++ " ".toList ++ "/".toList
          ++ QueryEscape [1, 32, 65, 255, 37] ++ "".toList
          ++ " HTTP/1.1\r\n".toList ++ "Host: ".toList ++ Obfs.sampleConn.Host ++ ":".toList
          ++ (toString Obfs.sampleConn.Port).toList ++ "\r\n".toList
          ++ (lines ++ "\r\n\r\n".toList))
        ++ [1, 32, 65, 255, 37].drop [1, 32, 65, 255, 37].length ∧
      r1.n = (acceptAll r1.sent).1 ∧ r1.err = (acceptAll r1.sent).2 ∧
      QueryUnescape (QueryEscape [1, 32, 65, 255, 37]) = some [1, 32, 65, 255, 37] :=
  ⟨⟨rfl, rfl, rfl, by decide⟩,
    C13_first_write_layout acceptAll Obfs.sampleConn [1, 32, 65, 255, 37] []
      "/".toList "".toList [] [1, 32, 65, 255, 37] [] rfl rfl rfl (by decide)⟩

/-- C14, as stated, fails: for the parameter `a#b#c` (domain `a`, header text
`b#c`) the custom header is `b`, the text after the second `#` is dropped; and
for `a:99999999999999999999` the port is `2^63 - 1`, not the number written. -/
theorem C14_counterexample :
    (∃ c rnd', Obfs.NewShadowSocksRHTTPSimpleObfs "a#b#c".toList [] = .ok (c, rnd') ∧
      c.CustomHeader = "b".toList ∧
      c.CustomHeader ≠ replaceEscapedNewlines "b#c".toList) ∧
    (∃ c rnd', Obfs.NewShadowSocksRHTTPSimpleObfs "a:99999999999999999999".toList []
        = .ok (c, rnd') ∧
      c.Port = 2 ^ 63 - 1 ∧ c.Port ≠ 99999999999999999999) :=
  ⟨⟨_, _, rfl, by decide, by decide⟩, ⟨_, _, rfl, by decide, by decide⟩⟩

/-- C14, amended: the empty parameter gives host `bing.com`, port 80 and no
custom header; a parameter `d#h` where `d` has no `#`, `,` or `:` and `h` has
no `#` gives `Host = TrimSpace d`, port 80 and `CustomHeader = h` with every
backslash-`n` replaced by CR LF; a parameter `d:p` where `d` has no `#`, `,` or
`:` and `p` is a non-empty string of decimal digits whose value is below
`2^63` gives `Port = p`. -/
theorem C14_parameter_parsing :
    (∀ rnd : Rand, ∃ c rnd', Obfs.NewShadowSocksRHTTPSimpleObfs [] rnd = .ok (c, rnd') ∧
      c.Host = "bing.com".toList ∧ c.Port = 80 ∧ c.CustomHeader = []) ∧
    (∀ (d h : List Char) (rnd : Rand), '#' ∉ d → ',' ∉ d → ':' ∉ d → '#' ∉ h →
      ∃ c rnd', Obfs.NewShadowSocksRHTTPSimpleObfs (d ++ '#' :: h) rnd = .ok (c, rnd') ∧
        c.Host = TrimSpace d ∧ c.Port = 80 ∧ c.CustomHeader = replaceEscapedNewlines h) ∧
    (∀ (d p : List Char) (rnd : Rand), '#' ∉ d → ',' ∉ d → ':' ∉ d → p ≠ [] →
      (∀ ch ∈ p, 48 ≤ ch.toNat ∧ ch.toNat ≤ 57) → decimalValue p < 2 ^ 63 →
      ∃ c rnd', Obfs.NewShadowSocksRHTTPSimpleObfs (d ++ ':' :: p) rnd = .ok (c, rnd') ∧
        c.Port = (decimalValue p : Int)) :=
  ⟨New_empty, New_domain_header, fun d p rnd h1 h2 h3 h4 h5 h6 => by
    obtain ⟨c, rnd', hc, _, hport, _⟩ := New_domain_port d p rnd h1 h2 h3 h4 h5 h6
    exact ⟨c, rnd', hc, hport⟩⟩

/-- C14, amended, at the parameters ` a.com #X: y\nZ: w` and `a.com:8080`. -/
theorem C14_witness :
    (∃ c rnd', Obfs.NewShadowSocksRHTTPSimpleObfs
        (" a.com ".toList ++ '#' :: "X: y\\nZ: w".toList) [3, 4] = .ok (c, rnd') ∧
      c.Host = TrimSpace " a.com ".toList ∧ c.Port = 80 ∧
      c.CustomHeader = replaceEscapedNewlines "X: y\\nZ: w".toList) ∧
    (∃ c rnd', Obfs.NewShadowSocksRHTTPSimpleObfs
        ("a.com".toList ++ ':' :: "8080".toList) [3, 4] = .ok (c, rnd') ∧
      c.Port = (decimalValue "8080".toList : Int)) ∧
    TrimSpace " a.com ".toList = "a.com".toList ∧
    replaceEscapedNewlines "X: y\\nZ: w".toList = "X: y\r\nZ: w".toList ∧
    decimalValue "8080".toList = 8080 :=
  ⟨C14_parameter_parsing.2.1 " a.com ".toList "X: y\\nZ: w".toList [3, 4]
      (by decide) (by decide) (by decide) (by decide),
    C14_parameter_parsing.2.2 "a.com".toList "8080".toList [3, 4]
      (by decide) (by decide) (by decide) (by decide) (by decide) (by decide),
    by decide, by decide, by decide⟩

/-! ## Lemmas on the ciphers -/

open Encryption

theorem md5_length (m : List Nat) : (md5 m).length = 16 := by
  simp [md5, le32]

theorem kdfStream_succ (p : List Nat) (k : Nat) :
    kdfStream p (k + 1) = kdfStream p k ++ kdfDigest p k := by
  simp [kdfStream, List.range_succ]

theorem kdfDigest_length (p : List Nat) (k : Nat) : (kdfDigest p k).length = 16 := by
  cases k <;> simp [kdfDigest, md5_length]

theorem kdfStream_length (p : List Nat) (k : Nat) : (kdfStream p k).length = 16 * k := by
  induction k with
  | zero => rfl
  | succ k ih => rw [kdfStream_succ, List.length_append, ih, kdfDigest_length]; omega

theorem kdfStream_prefix (p : List Nat) (m k : Nat) :
    kdfStream p m <+: kdfStream p (m + k) := by
  induction k with
  | zero => exact List.prefix_refl _
  | succ k ih =>
    rw [← Nat.add_assoc, kdfStream_succ]
    exact ih.trans (List.prefix_append _ _)

theorem kdfStream_take (p : List Nat) (n m k : Nat) (hm : n ≤ 16 * m) (hk : m ≤ k) :
    (kdfStream p k).take n = (kdfStream p m).take n := by
  obtain ⟨d, rfl⟩ : ∃ d, k = m + d := ⟨k - m, by omega⟩
  obtain ⟨t, ht⟩ := kdfStream_prefix p m d
  rw [← ht, List.take_append_of_le_length (by rw [kdfStream_length]; exact hm)]

theorem kdfLoop_spec (p : List Nat) (n : Int) :
    ∀ (fuel k : Nat) (prev : List Nat),
      (prev = if k = 0 then [] else kdfDigest p (k - 1)) →
      n ≤ 16 * ((k : Int) + fuel) →
      ∃ k', k ≤ k' ∧ n ≤ 16 * (k' : Int) ∧
        kdfLoop p n fuel (kdfStream p k) prev = .ok (kdfStream p k') := by
  intro fuel
  induction fuel with
  | zero =>
    intro k prev _ hn
    refine ⟨k, le_refl _, by simpa using hn, ?_⟩
    have : ¬ (((kdfStream p k).length : Int) < n) := by
      rw [kdfStream_length]; push_cast; simp at hn; omega
    simp only [kdfLoop, if_neg this]
  | succ fuel ih =>
    intro k prev hprev hn
    by_cases hlt : ((kdfStream p k).length : Int) < n
    · have hd : md5 (prev ++ p) = kdfDigest p k := by
        cases k with
        | zero => simp [hprev, kdfDigest]
        | succ k => simp [hprev, kdfDigest]
      obtain ⟨k', hk', hn', hloop⟩ := ih (k + 1) (kdfDigest p k) (by simp) (by push_cast; omega)
      refine ⟨k', by omega, hn', ?_⟩
      simp only [kdfLoop, if_pos hlt, bind, Except.bind, hd, ← kdfStream_succ]
      rw [goSlice_ok _ _ _ (by omega) (le_refl _), List.take_length]
      have hlast : List.drop ((kdfStream p (k + 1)).length - 16) (kdfStream p (k + 1))
          = kdfDigest p k := by
        rw [kdfStream_succ, List.length_append, kdfDigest_length, Nat.add_sub_cancel,
          List.drop_left]
      rw [hlast]
      exact hloop
    · refine ⟨k, le_refl _, ?_, ?_⟩
      · rw [kdfStream_length] at hlt; push_cast at hlt; omega
      · simp only [kdfLoop, if_neg hlt]

theorem kdf_eq (password : List Char) (n : Nat) :
    kdf password n = .ok ((kdfStream (strBytes password) n).take n) := by
  obtain ⟨k', _, hn', hloop⟩ := kdfLoop_spec (strBytes password) n n 0 [] rfl (by push_cast; omega)
  have h0 : kdfStream (strBytes password) 0 = [] := rfl
  rw [h0] at hloop
  unfold kdf
  simp only [Int.toNat_ofNat, hloop, bind, Except.bind]
  rw [if_neg (by omega), goSlice_ok _ 0 n (Nat.zero_le _)
    (by rw [kdfStream_length]; omega), List.drop_zero]
  congr 1
  by_cases hle : n ≤ k'
  · exact (kdfStream_take _ n n k' (by omega) hle)
  · exact (kdfStream_take _ n k' n (by omega) (by omega)).symm

theorem lookup_mem {α β : Type} [BEq α] (a : α) (b : β) (l : List (α × β))
    (h : l.lookup a = some b) : ∃ a', (a', b) ∈ l := by
  induction l with
  | nil => simp at h
  | cons x xs ih =>
    obtain ⟨k, v⟩ := x
    rw [List.lookup_cons] at h
    split at h
    · simp only [Option.some.injEq] at h
      exact ⟨k, by simp [h]⟩
    · obtain ⟨a', ha'⟩ := ih h
      exact ⟨a', List.mem_cons_of_mem _ ha'⟩

theorem New_ok_of_row (ks : Nat) (kind : CipherKind) (nm : List Char)
    (h : (nm, ks, kind) ∈ streamList) (key : List Nat) (hk : key.length = ks) :
    ∃ ciph, kind.New key = .ok ciph := by
  simp only [streamList, List.mem_cons, Prod.mk.injEq, List.mem_singleton, List.not_mem_nil,
    or_false] at h
  rcases h with h | h | h | h | h | h | h | h | h | h | h | h | h | h | h | h | h <;>
    (obtain ⟨_, rfl, rfl⟩ := h
     simp [CipherKind.New, newBlock, BlockKind.keyOk, hk])

theorem none_not_listed : streamList.lookup "NONE".toList = none := by decide

theorem ToUpper_idem (upper : Char → Char) (hup : ∀ ch, upper (upper ch) = upper ch)
    (s : List Char) : ToUpper upper (ToUpper upper s) = ToUpper upper s := by
  simp [ToUpper, hup]

theorem PickCipher_unsupported (upper : Char → Char) (name : List Char) (key : List Nat)
    (password : List Char) (h1 : ToUpper upper name ≠ "NONE".toList)
    (h2 : streamList.lookup (ToUpper upper name) = none) :
    PickCipher upper name key password = .ok (none, some .ErrCipherNotSupported) := by
  simp only [PickCipher, if_neg h1, h2]

theorem PickCipher_supplied (upper : Char → Char) (name : List Char) (key : List Nat)
    (password : List Char) (ks : Nat) (kind : CipherKind)
    (hl : streamList.lookup (ToUpper upper name) = some (ks, kind)) (hk : key ≠ []) :
    PickCipher upper name key password
      = if key.length ≠ ks then .ok (none, some (.KeySizeError ks))
        else match kind.New key with
          | .ok ciph => .ok (some (.ShadowSocksRStreamCipher (some ciph) key), none)
          | .error e => .ok (some (.ShadowSocksRStreamCipher none key), some e) := by
  have h1 : ToUpper upper name ≠ "NONE".toList := by
    intro e
    rw [e, none_not_listed] at hl
    exact Option.noConfusion hl
  have h0 : key.length ≠ 0 := fun e => hk (List.length_eq_zero.mp e)
  unfold PickCipher
  simp only [if_neg h1, hl, if_neg h0, bind, Except.bind, pure, Except.pure]

theorem asciiUpper_idem (ch : Char) : asciiUpper (asciiUpper ch) = asciiUpper ch := by
  unfold asciiUpper
  by_cases h : 97 ≤ ch.toNat ∧ ch.toNat ≤ 122
  · rw [if_pos h]
    have key : ∀ n, 97 ≤ n ∧ n ≤ 122 →
        ¬ (97 ≤ (Char.ofNat (n - 32)).toNat ∧ (Char.ofNat (n - 32)).toNat ≤ 122) := by
      intro n hn
      obtain ⟨h1, h2⟩ := hn
      interval_cases n <;> decide
    rw [if_neg (key _ h)]
  · rw [if_neg h, if_neg h]

/-- C15: `PickCipher` looks the name up by its upper-case form, so (the rune
mapping `unicode.ToUpper` being idempotent) it returns for `name` exactly what
it returns for `ToUpper(name)`; and when the upper-case form is neither `NONE`
nor a key of `streamList` it returns no cipher and `ErrCipherNotSupported`. -/
theorem C15_name_case_insensitive (upper : Char → Char)
    (hup : ∀ ch, upper (upper ch) = upper ch)
    (name : List Char) (key : List Nat) (password : List Char) :
    PickCipher upper name key password
      = PickCipher upper (ToUpper upper name) key password ∧
    (ToUpper upper name ≠ "NONE".toList → streamList.lookup (ToUpper upper name) = none →
      PickCipher upper name key password = .ok (none, some .ErrCipherNotSupported)) := by
  refine ⟨?_, PickCipher_unsupported upper name key password⟩
  simp only [PickCipher, ToUpper_idem upper hup]

/-- C15 with the ASCII upper-casing, at the names `aes-128-cfb` and `rot13`. -/
theorem C15_witness :
    (∀ ch, asciiUpper (asciiUpper ch) = asciiUpper ch) ∧
    PickCipher asciiUpper "aes-128-cfb".toList [] "test".toList
      = PickCipher asciiUpper (ToUpper asciiUpper "aes-128-cfb".toList) [] "test".toList ∧
    ToUpper asciiUpper "aes-128-cfb".toList = "AES-128-CFB".toList ∧
    PickCipher asciiUpper "rot13".toList [] "test".toList
      = .ok (none, some .ErrCipherNotSupported) :=
  ⟨asciiUpper_idem,
    (C15_name_case_insensitive asciiUpper asciiUpper_idem "aes-128-cfb".toList []
      "test".toList).1,
    by decide,
    (C15_name_case_insensitive asciiUpper asciiUpper_idem "rot13".toList []
      "test".toList).2 (by decide) (by decide)⟩

/-- C16: for a name whose upper-case form is a key of `streamList` with key
size `ks` and a supplied (non-empty) key, `PickCipher` returns
`KeySizeError(ks)` exactly when the key's length differs from `ks`; when the
length is `ks` the constructor succeeds and the result is the stream cipher
built from the supplied key and holding that key, whatever the password. -/
theorem C16_key_size (upper : Char → Char) (name : List Char) (key : List Nat)
    (password : List Char) (ks : Nat) (kind : CipherKind)
    (hl : streamList.lookup (ToUpper upper name) = some (ks, kind)) (hk : key ≠ []) :
    ((∃ c, PickCipher upper name key password = .ok (c, some (.KeySizeError ks)))
      ↔ key.length ≠ ks) ∧
    (key.length ≠ ks →
      PickCipher upper name key password = .ok (none, some (.KeySizeError ks))) ∧
    (key.length = ks → ∃ ciph, kind.New key = .ok ciph ∧
      ∀ pw, PickCipher upper name key pw
        = .ok (some (.ShadowSocksRStreamCipher (some ciph) key), none)) := by
  have hne : key.length ≠ ks →
      PickCipher upper name key password = .ok (none, some (.KeySizeError ks)) := by
    intro h
    rw [PickCipher_supplied upper name key password ks kind hl hk, if_pos h]
  have heq : key.length = ks → ∃ ciph, kind.New key = .ok ciph ∧
      ∀ pw, PickCipher upper name key pw
        = .ok (some (.ShadowSocksRStreamCipher (some ciph) key), none) := by
    intro h
    obtain ⟨nm, hm⟩ := lookup_mem _ _ _ hl
    obtain ⟨ciph, hc⟩ := New_ok_of_row ks kind nm hm key h
    refine ⟨ciph, hc, fun pw => ?_⟩
    rw [PickCipher_supplied upper name key pw ks kind hl hk, if_neg (by simpa using h), hc]
  refine ⟨⟨?_, fun h => ⟨_, hne h⟩⟩, hne, heq⟩
  rintro ⟨c, hc⟩ h
  obtain ⟨ciph, _, hp⟩ := heq h
  rw [hp password] at hc
  simp at hc

/-- C16 at the name `des-cfb` with keys of 8 and of 3 bytes. -/
theorem C16_witness :
    (streamList.lookup (ToUpper asciiUpper "des-cfb".toList) = some (8, .DESCFB)) ∧
    (∃ ciph, CipherKind.New .DESCFB [1, 2, 3, 4, 5, 6, 7, 8] = .ok ciph ∧
      ∀ pw, PickCipher asciiUpper "des-cfb".toList [1, 2, 3, 4, 5, 6, 7, 8] pw
        = .ok (some (.ShadowSocksRStreamCipher (some ciph) [1, 2, 3, 4, 5, 6, 7, 8]), none)) ∧
    PickCipher asciiUpper "des-cfb".toList [1, 2, 3] "test".toList
      = .ok (none, some (.KeySizeError 8)) :=
  ⟨by decide,
    (C16_key_size asciiUpper "des-cfb".toList [1, 2, 3, 4, 5, 6, 7, 8] "test".toList 8 .DESCFB
      (by decide) (by decide)).2.2 (by decide),
    (C16_key_size asciiUpper "des-cfb".toList [1, 2, 3] "test".toList 8 .DESCFB
      (by decide) (by decide)).2.1 (by decide)⟩

/-- C17: for every password and key length `n`, `kdf` returns (it does not
fault or run out of fuel) exactly `n` bytes, the first `n` bytes of
`D1 ++ D2 ++ ...` with `D1 = MD5(p)` and `D(i+1) = MD5(Di ++ p)`, `p` the
bytes of the password; the result is a function of the password and `n`. -/
theorem C17_kdf_digest_chain (password : List Char) (n : Nat) :
    ∃ key, kdf password n = .ok key ∧
      key.length = n ∧
      (∀ k, n ≤ k → key = (kdfStream (strBytes password) k).take n) ∧
      kdfDigest (strBytes password) 0 = md5 (strBytes password) ∧
      (∀ i, kdfDigest (strBytes password) (i + 1)
        = md5 (kdfDigest (strBytes password) i ++ strBytes password)) := by
  refine ⟨_, kdf_eq password n, ?_, fun k hk => ?_, rfl, fun i => rfl⟩
  · rw [List.length_take, kdfStream_length]
    omega
  · exact (kdfStream_take _ n n k (by omega) hk).symm

theorem leVal_le64 (v : Nat) : leVal (le64 v) = v % 2 ^ 64 := by
  simp only [le64, le32, leVal, List.cons_append, List.nil_append, List.foldr_cons,
    List.foldr_nil]
  omega

theorem le64_length (v : Nat) : (le64 v).length = 8 := rfl

theorem nonce8_length (nonce : List Nat) : ((goCopy (makeBytes 16) nonce).take 8).length = 8 := by
  simp [goCopy, makeBytes]
  omega

theorem range_map_drop (n p : Nat) (f : Nat → Nat) :
    ((List.range (n + p)).map f).drop p = (List.range n).map (fun j => f (p + j)) := by
  rw [Nat.add_comm n p, List.range_add, List.map_append, List.drop_left' (by simp)]
  simp [List.map_map, Function.comp]

theorem salsa_buf (src : List Nat) (p : Nat) :
    (makeBytes (src.length + p)).take p ++ goCopy ((makeBytes (src.length + p)).drop p) src
      = List.replicate p 0 ++ src := by
  have h1 : (makeBytes (src.length + p)).take p = List.replicate p 0 := by
    simp [makeBytes]
  have h2 : (makeBytes (src.length + p)).drop p = makeBytes src.length := by
    simp [makeBytes]
  rw [h1, h2, goCopy_fresh _ _ rfl]

theorem salsa_closed (s : Salsa20StreamCipher) (src : List Nat) (hc : s.counter < 2 ^ 64) :
    (s.XORKeyStream src).1
      = (List.range src.length).map
          (fun j => src.getD j 0 ^^^ salsaKeystream s (s.counter + j)) := by
  have hn := nonce8_length s.nonce
  unfold Salsa20StreamCipher.XORKeyStream
  simp only [salsa_buf, salsaXORKeyStream, Salsa20StreamCipher.subNonce, List.length_append,
    List.length_replicate]
  rw [List.take_left' hn, List.drop_left' hn, leVal_le64, Nat.add_comm (s.counter % 64),
    range_map_drop]
  apply List.map_congr_left
  intro j _
  have e1 : (List.replicate (s.counter % 64) 0 ++ src).getD (s.counter % 64 + j) 0
      = src.getD j 0 := by
    simp [List.getD_eq_getElem?_getD, List.getElem?_append_right]
  have e2 : (s.counter / 64 % 2 ^ 64 + (s.counter % 64 + j) / 64) % 2 ^ 64
      = (s.counter + j) / 64 % 2 ^ 64 := by omega
  have e3 : (s.counter % 64 + j) % 64 = (s.counter + j) % 64 := by omega
  rw [e1, e2, e3]
  rfl

theorem salsaKeystream_counter (s : Salsa20StreamCipher) (c pos : Nat) :
    salsaKeystream { s with counter := c } pos = salsaKeystream s pos := rfl

theorem salsa_after (s : Salsa20StreamCipher) (src : List Nat) :
    (s.XORKeyStream src).2 = { s with counter := (s.counter + src.length) % 2 ^ 64 } := rfl

theorem salsa_split (s : Salsa20StreamCipher) (m : List Nat) (k : Nat)
    (hk : k ≤ m.length) (hc : s.counter + m.length < 2 ^ 64) :
    (s.XORKeyStream (m.take k)).1
        ++ ((s.XORKeyStream (m.take k)).2.XORKeyStream (m.drop k)).1
      = (s.XORKeyStream m).1 := by
  have hlen1 : (m.take k).length = k := by simp; omega
  have hlen2 : (m.drop k).length = m.length - k := by simp
  have hmod : (s.counter + k) % 2 ^ 64 = s.counter + k := Nat.mod_eq_of_lt (by omega)
  rw [salsa_closed s m (by omega), salsa_closed s (m.take k) (by omega), salsa_after,
    salsa_closed _ (m.drop k) (by simp only [hlen1, hmod]; omega)]
  simp only [hlen1, hlen2, hmod, salsaKeystream_counter]
  obtain ⟨d, hd⟩ : ∃ d, m.length = k + d := ⟨m.length - k, by omega⟩
  rw [hd, Nat.add_sub_cancel_left, List.range_add, List.map_append, List.map_map]
  congr 1
  · apply List.map_congr_left
    intro j hj
    have hj' : j < k := List.mem_range.mp hj
    simp [List.getD_eq_getElem?_getD, List.getElem?_take, hj']
  · apply List.map_congr_left
    intro j _
    simp [List.getD_eq_getElem?_getD, Nat.add_assoc]

theorem range_map_getD (p : List Nat) : (List.range p.length).map (fun i => p.getD i 0) = p := by
  apply List.ext_getElem
  · simp
  · intro i h1 h2
    simp [List.getD_eq_getElem?_getD, List.getElem?_eq_getElem h2]

theorem xor_cancel (a b : Nat) : (a ^^^ b) ^^^ b = a := by
  rw [Nat.xor_assoc, Nat.xor_self, Nat.xor_zero]

theorem xor_map_roundtrip (K : Nat → Nat) (p : List Nat) :
    (List.range ((List.range p.length).map (fun j => p.getD j 0 ^^^ K j)).length).map
        (fun j => ((List.range p.length).map (fun j => p.getD j 0 ^^^ K j)).getD j 0 ^^^ K j)
      = p := by
  rw [List.length_map, List.length_range]
  conv_rhs => rw [← range_map_getD p]
  apply List.map_congr_left
  intro j hj
  have hj' : j < p.length := List.mem_range.mp hj
  have : ((List.range p.length).map (fun j => p.getD j 0 ^^^ K j)).getD j 0
      = p.getD j 0 ^^^ K j := by
    simp [List.getD_eq_getElem?_getD, List.getElem?_map, List.getElem?_range hj']
  rw [this, xor_cancel]

theorem keystream_roundtrip (ks : Nat → Nat) (pos : Nat) (p : List Nat) :
    ((Stream.keystream ks pos).XORKeyStream
        ((Stream.keystream ks pos).XORKeyStream p).1).1 = p := by
  simp only [Stream.XORKeyStream]
  exact xor_map_roundtrip (fun i => ks (pos + i)) p

theorem salsa_roundtrip (s : Salsa20StreamCipher) (hc : s.counter < 2 ^ 64) (p : List Nat) :
    ((Stream.salsa20 s).XORKeyStream ((Stream.salsa20 s).XORKeyStream p).1).1 = p := by
  simp only [Stream.XORKeyStream]
  rw [salsa_closed s _ hc, salsa_closed s p hc]
  exact xor_map_roundtrip (fun j => salsaKeystream s (s.counter + j)) p

theorem cfb_roundtrip (enc : List Nat → List Nat) (p : List Nat) :
    ∀ st : List Nat × List Nat × Nat,
      (cfbRun enc true st (cfbRun enc false st p).1).1 = p ∧
      (cfbRun enc true st (cfbRun enc false st p).1).2 = (cfbRun enc false st p).2 := by
  induction p with
  | nil => intro st; exact ⟨rfl, rfl⟩
  | cons x xs ih =>
    intro st
    have hstep : (cfbByte enc true st (cfbByte enc false st x).1).2 = (cfbByte enc false st x).2 := by
      simp [cfbByte]
    have hbyte : (cfbByte enc true st (cfbByte enc false st x).1).1 = x := by
      simp [cfbByte, xor_cancel]
    simp only [cfbRun, hstep, hbyte]
    exact ⟨by rw [(ih _).1], (ih _).2⟩

theorem cfbStream_roundtrip (enc : List Nat → List Nat) (next out : List Nat) (used : Nat)
    (p : List Nat) :
    ((Stream.cfb enc next out used true).XORKeyStream
        ((Stream.cfb enc next out used false).XORKeyStream p).1).1 = p := by
  simp only [Stream.XORKeyStream]
  exact (cfb_roundtrip enc p (next, out, used)).1

theorem cipher_roundtrip (P : Primitives) (ciph : StreamCipher) (iv p : List Nat)
    (hiv : iv.length = ciph.IVSize)
    (hkey : ∀ k, ciph = .chacha20Key k ∨ ciph = .chacha20ietfkey k → k.length = 32) :
    ∃ e d, Encrypter P ciph iv = .ok e ∧ Decrypter P ciph iv = .ok d ∧
      (d.XORKeyStream (e.XORKeyStream p).1).1 = p := by
  cases ciph with
  | RC4MD56Key k => exact ⟨_, _, rfl, rfl, keystream_roundtrip _ _ p⟩
  | rc4Md5Key k => exact ⟨_, _, rfl, rfl, keystream_roundtrip _ _ p⟩
  | CFBStream blk key =>
    have h : ¬ iv.length ≠ blk.BlockSize := by simpa [StreamCipher.IVSize] using hiv
    exact ⟨.cfb (P.encryptBlock blk key) iv (makeBytes blk.BlockSize) blk.BlockSize false,
      .cfb (P.encryptBlock blk key) iv (makeBytes blk.BlockSize) blk.BlockSize true,
      by simp only [Encrypter, if_neg h], by simp only [Decrypter, if_neg h],
      cfbStream_roundtrip _ _ _ _ p⟩
  | OFBStream blk key =>
    have h : ¬ iv.length ≠ blk.BlockSize := by simpa [StreamCipher.IVSize] using hiv
    exact ⟨.keystream (ofbKeystream (P.encryptBlock blk key) blk.BlockSize iv) 0,
      .keystream (ofbKeystream (P.encryptBlock blk key) blk.BlockSize iv) 0,
      by simp only [Encrypter, if_neg h], by simp only [Decrypter, Encrypter, if_neg h],
      keystream_roundtrip _ _ p⟩
  | ctrStream blk key =>
    have h : ¬ iv.length ≠ blk.BlockSize := by simpa [StreamCipher.IVSize] using hiv
    exact ⟨.keystream (ctrKeystream (P.encryptBlock blk key) blk.BlockSize iv) 0,
      .keystream (ctrKeystream (P.encryptBlock blk key) blk.BlockSize iv) 0,
      by simp only [Encrypter, if_neg h], by simp only [Decrypter, Encrypter, if_neg h],
      keystream_roundtrip _ _ p⟩
  | Salsa20Stream key =>
    have h : ¬ iv.length ≠ 8 := by simpa [StreamCipher.IVSize] using hiv
    exact ⟨.salsa20 { nonce := iv, key := key, counter := 0 },
      .salsa20 { nonce := iv, key := key, counter := 0 },
      by simp only [Encrypter, if_neg h], by simp only [Decrypter, if_neg h],
      salsa_roundtrip _ (by norm_num) p⟩
  | chacha20Key k =>
    have h8 : iv.length = 8 := by simpa [StreamCipher.IVSize] using hiv
    have hk := hkey k (Or.inl rfl)
    have h : ¬ (k.length ≠ 32 ∨ ¬ (iv.length = 8 ∨ iv.length = 12 ∨ iv.length = 24)) := by
      simp [hk, h8]
    exact ⟨.keystream (P.chacha20 k iv) 0, .keystream (P.chacha20 k iv) 0,
      by simp only [Encrypter, if_neg h], by simp only [Decrypter, Encrypter, if_neg h],
      keystream_roundtrip _ _ p⟩
  | chacha20ietfkey k =>
    have h12 : iv.length = 12 := by simpa [StreamCipher.IVSize] using hiv
    have hk := hkey k (Or.inr rfl)
    have h : ¬ (k.length ≠ 32 ∨ ¬ (iv.length = 12 ∨ iv.length = 24)) := by
      simp [hk, h12]
    exact ⟨.keystream (P.chacha20 k iv) 0, .keystream (P.chacha20 k iv) 0,
      by simp only [Encrypter, if_neg h], by simp only [Decrypter, Encrypter, if_neg h],
      keystream_roundtrip _ _ p⟩

theorem New_row (ks : Nat) (kind : CipherKind) (nm : List Char)
    (h : (nm, ks, kind) ∈ streamList) (key : List Nat) (hk : key.length = ks) :
    ∃ ciph, kind.New key = .ok ciph ∧
      ∀ k, ciph = .chacha20Key k ∨ ciph = .chacha20ietfkey k → k.length = 32 := by
  simp only [streamList, List.mem_cons, Prod.mk.injEq, List.mem_singleton, List.not_mem_nil,
    or_false] at h
  rcases h with h | h | h | h | h | h | h | h | h | h | h | h | h | h | h | h | h <;>
    (obtain ⟨_, rfl, rfl⟩ := h
     simp [CipherKind.New, newBlock, BlockKind.keyOk, hk])

theorem cfbRun_length (enc : List Nat → List Nat) (decrypt : Bool) (src : List Nat) :
    ∀ st, (cfbRun enc decrypt st src).1.length = src.length := by
  induction src with
  | nil => intro st; rfl
  | cons x xs ih => intro st; simp [cfbRun, ih]

theorem salsa_out_length (s : Salsa20StreamCipher) (src : List Nat) :
    (s.XORKeyStream src).1.length = src.length := by
  unfold Salsa20StreamCipher.XORKeyStream
  simp only [salsa_buf, salsaXORKeyStream, List.length_drop, List.length_map, List.length_range,
    List.length_append, List.length_replicate]
  omega

theorem XORKeyStream_length (s : Stream) (src : List Nat) :
    (s.XORKeyStream src).1.length = src.length := by
  cases s with
  | keystream ks pos => simp [Stream.XORKeyStream]
  | cfb enc next out used decrypt => simp [Stream.XORKeyStream, cfbRun_length]
  | salsa20 s => simp [Stream.XORKeyStream, salsa_out_length]

open StreamConn in
theorem writerLoop_accept {ε : Type} (bufSize : Nat) (hb : 0 < bufSize) (p : List Nat) :
    ∀ (fuel n : Nat) (s : Stream) (u : Wire ε),
      (∀ log q, u.answer log q = ((q.length : Int), none)) →
      n ≤ p.length → p.length - n ≤ fuel →
      writerLoop bufSize p fuel (n : Int) s u
        = .ok (((p.length : Int), none),
            (cryptChunks s (blocksOf bufSize (p.length - n) (p.drop n))).2,
            { u with log := u.log
                ++ (cryptChunks s (blocksOf bufSize (p.length - n) (p.drop n))).1 }) := by
  intro fuel
  induction fuel with
  | zero =>
    intro n s u _ hn hf
    have : n = p.length := by omega
    subst this
    simp [writerLoop, blocksOf, cryptChunks]
  | succ fuel ih =>
    intro n s u hacc hn hf
    by_cases hlt : n < p.length
    · have hlt' : (n : Int) < (p.length : Int) := by exact_mod_cast hlt
      obtain ⟨d, hd⟩ : ∃ d, p.length - n = d + 1 := ⟨p.length - n - 1, by omega⟩
      have hne : p.drop n ≠ [] := by
        apply List.ne_nil_of_length_pos
        simp only [List.length_drop]; omega
      have hnn : ¬ ((n : Int) < 0) := by omega
      have hchunkN : ((p.drop n).take bufSize).length = min bufSize (p.length - n) := by
        simp
      have hstopN : (if (n : Int) + bufSize > p.length then (p.length : Int)
          else (n : Int) + bufSize).toNat = n + ((p.drop n).take bufSize).length := by
        rw [hchunkN]; split_ifs <;> omega
      have hchunk : goSlice p n (n + ((p.drop n).take bufSize).length)
          = .ok ((p.drop n).take bufSize) := by
        have hsl : (p.take (n + ((p.drop n).take bufSize).length)).drop n
            = (p.drop n).take bufSize := by
          rw [List.drop_take, Nat.add_sub_cancel_left, hchunkN]
          by_cases hm : bufSize ≤ p.length - n
          · rw [Nat.min_eq_left hm]
          · rw [Nat.min_eq_right (by omega), List.take_of_length_le (by simp),
              List.take_of_length_le (by simp; omega)]
        rw [goSlice_ok p n _ (by omega) (by rw [hchunkN]; omega), hsl]
      have hclen := XORKeyStream_length s ((p.drop n).take bufSize)
      have hrec := ih (n + ((p.drop n).take bufSize).length)
        (s.XORKeyStream ((p.drop n).take bufSize)).2
        { u with log := u.log ++ [(s.XORKeyStream ((p.drop n).take bufSize)).1] }
        hacc (by rw [hchunkN]; omega) (by rw [hchunkN]; omega)
      have hfuel : blocksOf bufSize (p.length - (n + ((p.drop n).take bufSize).length))
            (p.drop (n + ((p.drop n).take bufSize).length))
          = blocksOf bufSize d ((p.drop n).drop bufSize) := by
        have e : p.drop (n + ((p.drop n).take bufSize).length) = (p.drop n).drop bufSize := by
          rw [List.drop_drop, hchunkN]
          by_cases hm : bufSize ≤ p.length - n
          · rw [Nat.min_eq_left hm]
          · rw [Nat.min_eq_right (by omega), List.drop_of_length_le (by omega),
              List.drop_of_length_le (by omega)]
        rw [e]
        exact blocksOf_fuel bufSize hb _ _ _ (by simp; omega)
          (by simp; omega)
      rw [hfuel] at hrec
      simp only [writerLoop, if_pos hlt', if_neg hnn, Int.toNat_ofNat, hstopN, hchunk, bind,
        Except.bind, Wire.write, hacc, hclen]
      rw [show ((n : Int) + ((((p.drop n).take bufSize).length : Nat) : Int))
        = (((n + ((p.drop n).take bufSize).length : Nat)) : Int) by push_cast; rfl]
      rw [hrec, hd]
      simp [blocksOf, hne, cryptChunks, List.append_assoc]
    · have : n = p.length := by omega
      subst this
      simp [writerLoop, blocksOf, cryptChunks]

open StreamConn in
theorem StreamConn_Write_first {ε : Type} (P : Primitives) (c : ShadowSocksRStreamConn)
    (u : Wire ε) (b : List Nat) (s0 : Stream)
    (hacc : ∀ log q, u.answer log q = ((q.length : Int), none))
    (hw : c.w = none) (henc : Encrypter P c.Cipher c.WriteIV = .ok s0) :
    StreamConn.Write P c u b = .ok (((b.length : Int), none),
      { c with w := some (cryptChunks s0 (blocksOf bufSize b.length b)).2 },
      { u with log := u.log ++ [c.WriteIV]
          ++ (cryptChunks s0 (blocksOf bufSize b.length b)).1 }) := by
  have hloop := writerLoop_accept bufSize (by norm_num [bufSize]) b (b.length + 1) 0 s0
    { u with log := u.log ++ [c.WriteIV] } hacc (Nat.zero_le _) (by omega)
  simp only [Nat.sub_zero, List.drop_zero, Nat.cast_zero] at hloop
  unfold StreamConn.Write StreamConn.initWriter
  simp only [hw, Wire.write, hacc, henc, bind, Except.bind, pure, Except.pure, hloop]

open StreamConn in
theorem StreamConn_Write_later {ε : Type} (P : Primitives) (c : ShadowSocksRStreamConn)
    (u : Wire ε) (b : List Nat) (s1 : Stream)
    (hacc : ∀ log q, u.answer log q = ((q.length : Int), none))
    (hw : c.w = some s1) :
    StreamConn.Write P c u b = .ok (((b.length : Int), none),
      { c with w := some (cryptChunks s1 (blocksOf bufSize b.length b)).2 },
      { u with log := u.log ++ (cryptChunks s1 (blocksOf bufSize b.length b)).1 }) := by
  have hloop := writerLoop_accept bufSize (by norm_num [bufSize]) b (b.length + 1) 0 s1
    u hacc (Nat.zero_le _) (by omega)
  simp only [Nat.sub_zero, List.drop_zero, Nat.cast_zero] at hloop
  unfold StreamConn.Write
  simp only [hw, bind, Except.bind, pure, Except.pure, hloop]

open StreamConn in
theorem StreamConn_Write_iv_fails {ε : Type} (P : Primitives) (c : ShadowSocksRStreamConn)
    (u : Wire ε) (b : List Nat) (e : ε)
    (hw : c.w = none) (hfail : (u.answer u.log c.WriteIV).2 = some e) :
    StreamConn.Write P c u b = .ok ((0, some e), c, { u with log := u.log ++ [c.WriteIV] }) := by
  unfold StreamConn.Write StreamConn.initWriter
  simp only [hw, Wire.write, hfail, bind, Except.bind, pure, Except.pure]

theorem blocksOf_single (n : Nat) (b : List Nat) (h1 : b ≠ []) (h2 : b.length ≤ n) :
    blocksOf n b.length b = [b] := by
  obtain ⟨d, hd⟩ : ∃ d, b.length = d + 1 :=
    ⟨b.length - 1, by have := List.length_pos.mpr h1; omega⟩
  rw [hd]
  simp only [blocksOf, if_neg h1, List.take_of_length_le h2, List.drop_of_length_le h2,
    blocksOf_nil]

/-! ## The claims on the ciphers -/

set_option maxRecDepth 1000000 in
/-- C18, as stated, fails for a counter value at the end of the `uint64`
range: with counter `2^64 - 1` (zero key and nonce), one call on two zero
bytes writes `77 b0`, but a call on the first byte followed by a call on the
second writes `77 9a`: after the first call the counter has wrapped to 0, so
the second call restarts at block 0 where the single call goes on to block
`2^58`. -/
theorem C18_counterexample :
    (salsaAtWrap.XORKeyStream [0, 0]).1 = [0x77, 0xb0] ∧
    (salsaAtWrap.XORKeyStream ([0, 0].take 1)).1
        ++ ((salsaAtWrap.XORKeyStream ([0, 0].take 1)).2.XORKeyStream ([0, 0].drop 1)).1
      = [0x77, 0x9a] ∧
    (salsaAtWrap.XORKeyStream ([0, 0].take 1)).2.counter = 0 := by
  decide

/-- C18, amended: for a counter `c` with `c + len m < 2^64` and every split
offset `k <= len m`, `XORKeyStream` on `m[:k]` followed by `XORKeyStream` on
`m[k:]` writes the same bytes as one call on `m` and leaves the same cipher
state, with the counter at `c + len m`; byte `j` of the output is
`m[j]` XOR the keystream byte at stream position `c + j`, and with an 8-byte
nonce the sub-nonce of a call is `nonce ++ little-endian64(counter / 64)`. -/
theorem C18_salsa20_split (s : Salsa20StreamCipher) (m : List Nat) (k : Nat)
    (hk : k ≤ m.length) (hc : s.counter + m.length < 2 ^ 64) :
    (s.XORKeyStream (m.take k)).1
        ++ ((s.XORKeyStream (m.take k)).2.XORKeyStream (m.drop k)).1
      = (s.XORKeyStream m).1 ∧
    ((s.XORKeyStream (m.take k)).2.XORKeyStream (m.drop k)).2 = (s.XORKeyStream m).2 ∧
    (s.XORKeyStream m).2.counter = s.counter + m.length ∧
    (s.XORKeyStream m).1
      = (List.range m.length).map (fun j => m.getD j 0 ^^^ salsaKeystream s (s.counter + j)) ∧
    (s.nonce.length = 8 → s.subNonce = s.nonce ++ le64 (s.counter / 64)) := by
  refine ⟨salsa_split s m k hk hc, ?_, ?_, salsa_closed s m (by omega), ?_⟩
  · simp only [salsa_after, List.length_take, List.length_drop, Nat.min_eq_left hk]
    congr 1
    omega
  · simp only [salsa_after]
    exact Nat.mod_eq_of_lt hc
  · intro hn
    unfold Salsa20StreamCipher.subNonce
    congr 1
    simp [goCopy, makeBytes, hn]

set_option maxRecDepth 1000000 in
/-- C18, amended, at a cipher with counter 100, a five-byte message and the
split offset 2. -/
theorem C18_witness :
    (2 ≤ [10, 20, 30, 40, 50].length ∧
      salsaSample.counter + [10, 20, 30, 40, 50].length < 2 ^ 64) ∧
    ((salsaSample.XORKeyStream ([10, 20, 30, 40, 50].take 2)).1
        ++ ((salsaSample.XORKeyStream ([10, 20, 30, 40, 50].take 2)).2.XORKeyStream
            ([10, 20, 30, 40, 50].drop 2)).1
      = (salsaSample.XORKeyStream [10, 20, 30, 40, 50]).1 ∧
    ((salsaSample.XORKeyStream ([10, 20, 30, 40, 50].take 2)).2.XORKeyStream
        ([10, 20, 30, 40, 50].drop 2)).2 = (salsaSample.XORKeyStream [10, 20, 30, 40, 50]).2 ∧
    (salsaSample.XORKeyStream [10, 20, 30, 40, 50]).2.counter
      = salsaSample.counter + [10, 20, 30, 40, 50].length ∧
    (salsaSample.XORKeyStream [10, 20, 30, 40, 50]).1
      = (List.range [10, 20, 30, 40, 50].length).map
          (fun j => [10, 20, 30, 40, 50].getD j 0
            ^^^ salsaKeystream salsaSample (salsaSample.counter + j)) ∧
    (salsaSample.nonce.length = 8 →
      salsaSample.subNonce = salsaSample.nonce ++ le64 (salsaSample.counter / 64))) :=
  ⟨⟨by decide, by decide⟩,
    C18_salsa20_split salsaSample [10, 20, 30, 40, 50] 2 (by decide) (by decide)⟩

/-- C19: for every row of `streamList` and every key of the row's key size the
constructor succeeds, and for every IV of the cipher's `IVSize` and every
plaintext `p` (the empty one included) `Encrypter(iv)` and `Decrypter(iv)` are
made without a panic and the decrypter applied to the encrypter's output of
`p` gives `p` back; this holds whatever the block ciphers and the RC4 and
ChaCha20 keystreams of the libraries compute. -/
theorem C19_round_trip (P : Primitives) (nm : List Char) (ks : Nat) (kind : CipherKind)
    (key iv p : List Nat) (hrow : (nm, ks, kind) ∈ streamList) (hk : key.length = ks) :
    ∃ ciph, kind.New key = .ok ciph ∧
      (iv.length = ciph.IVSize →
        ∃ e d, Encrypter P ciph iv = .ok e ∧ Decrypter P ciph iv = .ok d ∧
          (d.XORKeyStream (e.XORKeyStream p).1).1 = p) := by
  obtain ⟨ciph, hc, hkey⟩ := New_row ks kind nm hrow key hk
  exact ⟨ciph, hc, fun hiv => cipher_roundtrip P ciph iv p hiv hkey⟩

/-- C19 at the row `DES-CFB` with stand-in primitives. -/
theorem C19_witness :
    (("DES-CFB".toList, 8, CipherKind.DESCFB) ∈ streamList ∧
      [1, 2, 3, 4, 5, 6, 7, 8].length = 8) ∧
    ∃ ciph, CipherKind.New .DESCFB [1, 2, 3, 4, 5, 6, 7, 8] = .ok ciph ∧
      ([9, 8, 7, 6, 5, 4, 3, 2].length = ciph.IVSize →
        ∃ e d, Encrypter samplePrimitives ciph [9, 8, 7, 6, 5, 4, 3, 2] = .ok e ∧
          Decrypter samplePrimitives ciph [9, 8, 7, 6, 5, 4, 3, 2] = .ok d ∧
          (d.XORKeyStream (e.XORKeyStream [104, 101, 108, 108, 111, 45, 119, 111, 114, 108,
            100]).1).1 = [104, 101, 108, 108, 111, 45, 119, 111, 114, 108, 100]) :=
  ⟨⟨by decide, by decide⟩,
    C19_round_trip samplePrimitives "DES-CFB".toList 8 .DESCFB [1, 2, 3, 4, 5, 6, 7, 8]
      [9, 8, 7, 6, 5, 4, 3, 2] [104, 101, 108, 108, 111, 45, 119, 111, 114, 108, 100]
      (by decide) (by decide)⟩

theorem cryptChunks_lengths : ∀ (chs : List (List Nat)) (s : Stream),
    (cryptChunks s chs).1.map List.length = chs.map List.length := by
  intro chs
  induction chs with
  | nil => intro s; rfl
  | cons ch chs ih =>
    intro s
    simp only [cryptChunks, List.map_cons, XORKeyStream_length, ih]

theorem blocksOf_two (n : Nat) (b : List Nat) (h1 : n < b.length) (h2 : b.length ≤ 2 * n) :
    blocksOf n b.length b = [b.take n, b.drop n] := by
  obtain ⟨d, hd⟩ : ∃ d, b.length = d + 2 := ⟨b.length - 2, by omega⟩
  have hb : b ≠ [] := by
    intro h; rw [h] at h1; simp at h1
  have hdrop : b.drop n ≠ [] := by
    intro h
    have := congrArg List.length h
    simp only [List.length_drop, List.length_nil] at this
    omega
  have hlen : (b.drop n).length ≤ n := by
    rw [List.length_drop]; omega
  rw [hd]
  simp only [blocksOf, if_neg hb, if_neg hdrop, List.take_of_length_le hlen,
    List.drop_of_length_le hlen, blocksOf_nil]

theorem blocksOf_3000 : blocksOf StreamConn.bufSize (List.replicate 3000 7).length (List.replicate 3000 7)
    = [List.replicate 2048 7, List.replicate 952 7] := by
  have hl : (List.replicate 3000 7).length = 3000 := List.length_replicate 3000 7
  have hm : min 2048 3000 = 2048 := by decide
  have hs : 3000 - 2048 = 952 := by decide
  rw [blocksOf_two _ _ (by rw [hl]; decide) (by rw [hl]; decide)]
  simp only [StreamConn.bufSize, List.take_replicate, List.drop_replicate, hm, hs]

/-- C20: on a connection whose writer is not yet made, over a wire that accepts
every buffer, `Write(b)` succeeds with `len b` and hands the wire first the
`WriteIV` in the clear and then the ciphertext that the stream
`Encrypter(WriteIV)` makes of `b`, chunk by chunk: the chunks are `b` cut into
pieces of at most `bufSize = 2048` bytes, each ciphertext buffer as long as
its chunk, one buffer `XORKeyStream(b)` when `b` fits the writer's buffer.
The writer keeps the stream as left by that encryption, and a later
`Write(b2)` hands the wire only the ciphertext that this running stream makes
of `b2`, without the IV. When the wire refuses the IV, `Write` returns 0 and
that error, only the IV has been handed over and the connection is unchanged,
so the next `Write` starts with the IV again. -/
theorem C20_iv_then_ciphertext {ε : Type} (P : Primitives)
    (c : StreamConn.ShadowSocksRStreamConn) (u : StreamConn.Wire ε) (b b2 : List Nat)
    (s0 : Stream)
    (hacc : ∀ log q, u.answer log q = ((q.length : Int), none))
    (hw : c.w = none) (henc : Encrypter P c.Cipher c.WriteIV = .ok s0) :
    ∃ (c1 : StreamConn.ShadowSocksRStreamConn) (u1 : StreamConn.Wire ε) (s1 : Stream),
      StreamConn.Write P c u b = .ok (((b.length : Int), none), c1, u1) ∧
      u1.log = u.log ++ [c.WriteIV]
        ++ (cryptChunks s0 (blocksOf StreamConn.bufSize b.length b)).1 ∧
      (blocksOf StreamConn.bufSize b.length b).flatten = b ∧
      (∀ ch ∈ blocksOf StreamConn.bufSize b.length b, 1 ≤ ch.length ∧ ch.length ≤ 2048) ∧
      (cryptChunks s0 (blocksOf StreamConn.bufSize b.length b)).1.map List.length
        = (blocksOf StreamConn.bufSize b.length b).map List.length ∧
      (b ≠ [] → b.length ≤ StreamConn.bufSize →
        u1.log = u.log ++ [c.WriteIV, (s0.XORKeyStream b).1]) ∧
      c1.w = some s1 ∧
      s1 = (cryptChunks s0 (blocksOf StreamConn.bufSize b.length b)).2 ∧
      c1.WriteIV = c.WriteIV ∧
      (∃ (c2 : StreamConn.ShadowSocksRStreamConn) (u2 : StreamConn.Wire ε),
        StreamConn.Write P c1 u1 b2 = .ok (((b2.length : Int), none), c2, u2) ∧
        u2.log = u1.log ++ (cryptChunks s1 (blocksOf StreamConn.bufSize b2.length b2)).1 ∧
        c2.w = some (cryptChunks s1 (blocksOf StreamConn.bufSize b2.length b2)).2) ∧
      (∀ (v : StreamConn.Wire ε) (e : ε), (v.answer v.log c.WriteIV).2 = some e →
        StreamConn.Write P c v b
          = .ok ((0, some e), c, { v with log := v.log ++ [c.WriteIV] })) := by
  have hpos : 0 < StreamConn.bufSize := by norm_num [StreamConn.bufSize]
  refine ⟨_, _, _, StreamConn_Write_first P c u b s0 hacc hw henc, rfl,
    blocksOf_join _ hpos _ _ (le_refl _),
    fun ch hch => blocksOf_mem_length _ hpos _ _ ch hch,
    cryptChunks_lengths _ _, ?_, rfl, rfl, rfl,
    ⟨_, _, StreamConn_Write_later P _ _ b2 _ hacc rfl, rfl, rfl⟩,
    fun v e hv => StreamConn_Write_iv_fails P c v b e hw hv⟩
  intro h1 h2
  rw [blocksOf_single _ b h1 h2]
  simp [cryptChunks]

/-- C20 at a fresh DES-CFB connection, an accepting wire, a first buffer of
3000 bytes, which is written as chunks of 2048 and 952 bytes, and a second
buffer `[4, 5]`. -/
theorem C20_witness :
    ((∀ log q, StreamConn.openWire.answer log q = ((q.length : Int), none)) ∧
      StreamConn.sampleConn.w = none ∧
      Encrypter samplePrimitives StreamConn.sampleConn.Cipher StreamConn.sampleConn.WriteIV
        = .ok (.cfb (samplePrimitives.encryptBlock .des [1, 2, 3, 4, 5, 6, 7, 8])
            [9, 8, 7, 6, 5, 4, 3, 2] (makeBytes 8) 8 false)) ∧
    blocksOf StreamConn.bufSize (List.replicate 3000 7).length (List.replicate 3000 7)
      = [List.replicate 2048 7, List.replicate 952 7] ∧
    ∃ (c1 : StreamConn.ShadowSocksRStreamConn) (u1 : StreamConn.Wire Unit) (s1 : Stream),
      StreamConn.Write samplePrimitives StreamConn.sampleConn StreamConn.openWire
          (List.replicate 3000 7)
        = .ok (((((List.replicate 3000 7).length : Nat) : Int), none), c1, u1) ∧
      u1.log = StreamConn.openWire.log ++ [StreamConn.sampleConn.WriteIV]
        ++ (cryptChunks (.cfb (samplePrimitives.encryptBlock .des [1, 2, 3, 4, 5, 6, 7, 8])
              [9, 8, 7, 6, 5, 4, 3, 2] (makeBytes 8) 8 false)
            (blocksOf StreamConn.bufSize (List.replicate 3000 7).length
              (List.replicate 3000 7))).1 ∧
      (blocksOf StreamConn.bufSize (List.replicate 3000 7).length
          (List.replicate 3000 7)).flatten = List.replicate 3000 7 ∧
      (∀ ch ∈ blocksOf StreamConn.bufSize (List.replicate 3000 7).length
          (List.replicate 3000 7), 1 ≤ ch.length ∧ ch.length ≤ 2048) ∧
      (cryptChunks (.cfb (samplePrimitives.encryptBlock .des [1, 2, 3, 4, 5, 6, 7, 8])
              [9, 8, 7, 6, 5, 4, 3, 2] (makeBytes 8) 8 false)
            (blocksOf StreamConn.bufSize (List.replicate 3000 7).length
              (List.replicate 3000 7))).1.map List.length
        = (blocksOf StreamConn.bufSize (List.replicate 3000 7).length
            (List.replicate 3000 7)).map List.length ∧
      (List.replicate 3000 7 ≠ [] → (List.replicate 3000 7).length ≤ StreamConn.bufSize →
        u1.log = StreamConn.openWire.log ++ [StreamConn.sampleConn.WriteIV,
          ((Stream.cfb (samplePrimitives.encryptBlock .des [1, 2, 3, 4, 5, 6, 7, 8])
              [9, 8, 7, 6, 5, 4, 3, 2] (makeBytes 8) 8 false).XORKeyStream
            (List.replicate 3000 7)).1]) ∧
      c1.w = some s1 ∧
      s1 = (cryptChunks (.cfb (samplePrimitives.encryptBlock .des [1, 2, 3, 4, 5, 6, 7, 8])
              [9, 8, 7, 6, 5, 4, 3, 2] (makeBytes 8) 8 false)
            (blocksOf StreamConn.bufSize (List.replicate 3000 7).length
              (List.replicate 3000 7))).2 ∧
      c1.WriteIV = StreamConn.sampleConn.WriteIV ∧
      (∃ (c2 : StreamConn.ShadowSocksRStreamConn) (u2 : StreamConn.Wire Unit),
        StreamConn.Write samplePrimitives c1 u1 [4, 5]
          = .ok (((([4, 5].length : Nat) : Int), none), c2, u2) ∧
        u2.log = u1.log ++ (cryptChunks s1 (blocksOf StreamConn.bufSize [4, 5].length [4, 5])).1 ∧
        c2.w = some (cryptChunks s1 (blocksOf StreamConn.bufSize [4, 5].length [4, 5])).2) ∧
      (∀ (v : StreamConn.Wire Unit) (e : Unit),
        (v.answer v.log StreamConn.sampleConn.WriteIV).2 = some e →
        StreamConn.Write samplePrimitives StreamConn.sampleConn v (List.replicate 3000 7)
          = .ok ((0, some e), StreamConn.sampleConn,
              { v with log := v.log ++ [StreamConn.sampleConn.WriteIV] })) :=
  ⟨⟨fun _ _ => rfl, rfl, rfl⟩, blocksOf_3000,
    C20_iv_then_ciphertext samplePrimitives StreamConn.sampleConn StreamConn.openWire
      (List.replicate 3000 7) [4, 5] _ (fun _ _ => rfl) rfl rfl⟩

/-! ## Lemmas on reading, framing, the modes and the parameter -/

theorem goCopy_length (dst src : List Nat) : (goCopy dst src).length = dst.length := by
  simp only [goCopy, List.length_append, List.length_take, List.length_drop]
  omega

open StreamConn in
theorem readAtLeastLoop_stopped {ε : Type} (min : Nat) (e : ReadError ε) (fuel : Nat)
    (buf : List Nat) (n : Nat) (u : Source ε) :
    readAtLeastLoop min fuel buf n (some e) u = .ok (buf, n, some e, u) := by
  cases fuel <;> simp [readAtLeastLoop]

open StreamConn in
theorem readAtLeastLoop_fail {ε : Type} (min : Nat) (e : ReadError ε) (last : List Nat) :
    ∀ (chunks : List (List Nat)) (fuel : Nat) (buf : List Nat) (n : Nat) (u : Source ε),
      chunks.length < fuel → min ≤ buf.length →
      n + (chunks.flatten ++ last).length < min →
      (∀ (j : Nat) (hj : j < chunks.length) (cap : Nat),
        u.answer (u.calls + j) cap = (chunks.get ⟨j, hj⟩, none)) →
      (∀ cap : Nat, u.answer (u.calls + chunks.length) cap = (last, some e)) →
      ∃ buf', buf'.length = buf.length ∧
        readAtLeastLoop min fuel buf n none u
          = .ok (buf', n + (chunks.flatten ++ last).length, some e,
              { u with calls := u.calls + chunks.length + 1 }) := by
  intro chunks
  induction chunks with
  | nil =>
    intro fuel buf n u hf hb hn _ herr
    obtain ⟨f, rfl⟩ : ∃ f, fuel = f + 1 := ⟨fuel - 1, by simp at hf; omega⟩
    simp only [List.flatten_nil, List.nil_append] at hn ⊢
    have hc : n < min ∧ (none : Option (ReadError ε)).isNone = true := ⟨by omega, rfl⟩
    have ha := herr (buf.length - n)
    simp only [List.length_nil, Nat.add_zero] at ha
    have hs : goSlice buf n buf.length = .ok (buf.drop n) := by
      rw [goSlice_ok _ _ _ (by omega) (le_refl _), List.take_length]
    refine ⟨buf.take n ++ goCopy (buf.drop n) last, ?_, ?_⟩
    · rw [List.length_append, goCopy_length, List.length_take, List.length_drop]; omega
    · simp only [readAtLeastLoop, if_pos hc, hs, bind, Except.bind, Source.read,
        List.length_drop, ha, List.take_of_length_le (show last.length ≤ buf.length - n by omega),
        readAtLeastLoop_stopped, List.length_nil, Nat.add_zero]
  | cons ch rest ih =>
    intro fuel buf n u hf hb hn hok herr
    obtain ⟨f, rfl⟩ : ∃ f, fuel = f + 1 := ⟨fuel - 1, by simp at hf; omega⟩
    simp only [List.flatten_cons, List.length_append, List.length_cons] at hn hf
    have hc : n < min ∧ (none : Option (ReadError ε)).isNone = true := ⟨by omega, rfl⟩
    have ha := hok 0 (by simp) (buf.length - n)
    simp only [Nat.add_zero, List.get_eq_getElem, List.getElem_cons_zero] at ha
    have hs : goSlice buf n buf.length = .ok (buf.drop n) := by
      rw [goSlice_ok _ _ _ (by omega) (le_refl _), List.take_length]
    have hlen : (buf.take n ++ goCopy (buf.drop n) ch).length = buf.length := by
      rw [List.length_append, goCopy_length, List.length_take, List.length_drop]; omega
    obtain ⟨buf', hb', hrun⟩ := ih f (buf.take n ++ goCopy (buf.drop n) ch) (n + ch.length)
      { u with calls := u.calls + 1 } (by omega) (by omega)
      (by simp only [List.length_append]; omega)
      (fun j hj cap => by
        have := hok (j + 1) (by simp; omega) cap
        simp only [List.get_eq_getElem, List.getElem_cons_succ] at this
        simp only [List.get_eq_getElem]
        rw [← this]
        congr 1
        omega)
      (fun cap => by
        have := herr cap
        rw [← this]
        simp only [List.length_cons]
        congr 1
        omega)
    refine ⟨buf', by omega, ?_⟩
    simp only [readAtLeastLoop, if_pos hc, hs, bind, Except.bind, Source.read,
      List.length_drop, ha, List.take_of_length_le (show ch.length ≤ buf.length - n by omega)]
    rw [hrun]
    simp only [List.flatten_cons, List.length_append, List.length_cons, Nat.add_assoc]
    rw [show u.calls + (1 + (rest.length + 1)) = u.calls + (rest.length + (1 + 1)) by omega]

theorem fillerBytes_length (r : Nat) (rnd : Rand) (h1 : 1 ≤ r) :
    (fillerBytes r rnd).length = r := by
  have := randRead_length r rnd
  unfold fillerBytes
  split_ifs <;> simp [be16] <;> omega

theorem fillerBytes_decode (r : Nat) (rnd : Rand) (rest : List Nat) (h1 : 1 ≤ r)
    (h2 : r ≤ 1024) (hd : List Nat) (hh : hd.length = 4) :
    decodeRandLength (hd ++ fillerBytes r rnd ++ rest) = r := by
  obtain ⟨a, b, c, d, rfl⟩ : ∃ a b c d, hd = [a, b, c, d] := by
    match hd, hh with
    | [a, b, c, d], _ => exact ⟨a, b, c, d, rfl⟩
  unfold decodeRandLength fillerBytes
  by_cases h : r < 128
  · have hm : r &&& 0xFF = r := by
      have := Nat.and_pow_two_sub_one_eq_mod r 8
      norm_num at this
      rw [this]; omega
    simp only [if_pos h, hm, List.cons_append, List.nil_append, List.getD_cons_succ,
      List.getD_cons_zero]
    rw [if_neg (by omega)]
  · have hm : r &&& 0xFFFF = r := by
      rw [and_65535]; omega
    simp only [if_neg h, hm, be16, List.cons_append, List.nil_append, List.getD_cons_succ,
      List.getD_cons_zero, if_true, List.drop_succ_cons, List.drop_zero, List.take_succ_cons,
      List.take_zero, beVal, List.foldl_cons, List.foldl_nil]
    omega

theorem plainFrame_split (b : List Nat) (rnd : Rand) :
    plainFrame b rnd
      = (be16 (((getRandomDataLength b rnd).1 + b.length + 8) &&& 0xFFFF)
          ++ le16 (ChecksumIEEE b &&& 0xFFFF))
        ++ fillerBytes (getRandomDataLength b rnd).1 (getRandomDataLength b rnd).2
        ++ (b ++ le32 (adler32 (plainBody b rnd))) := by
  simp only [plainFrame, plainBody, List.append_assoc]

theorem framesOf_flatten_length (ps : List (List Nat)) (rnd : Rand) :
    ps.flatten.length + 9 * ps.length ≤ (framesOf ps rnd).1.flatten.length := by
  induction ps generalizing rnd with
  | nil => simp [framesOf]
  | cons p ps ih =>
    have h1 := getRandomDataLength_pos p rnd
    have h2 := ih (packTape p rnd)
    simp only [framesOf, List.flatten_cons, List.length_append, plainFrame_length,
      List.length_cons]
    omega

theorem cfbRun_within (enc : List Nat → List Nat) (out : List Nat) :
    ∀ (p : List Nat) (used : Nat) (n1 n2 : List Nat) (d1 d2 : Bool),
      used + p.length ≤ out.length →
      (cfbRun enc d1 (n1, out, used) p).1 = (cfbRun enc d2 (n2, out, used) p).1 := by
  intro p
  induction p with
  | nil => intros; rfl
  | cons x xs ih =>
    intro used n1 n2 d1 d2 h
    simp only [List.length_cons] at h
    have hne : ¬ used = out.length := by omega
    simp only [cfbRun, cfbByte, if_neg hne]
    rw [ih (used + 1) _ (n2.set used (if d2 = true then x else x ^^^ out.getD used 0)) d1 d2
      (by omega)]

theorem cfb_first_block (enc : List Nat → List Nat) (iv out0 p : List Nat)
    (hL : (enc iv).length = out0.length) (hp : p.length ≤ out0.length) :
    (cfbRun enc true (iv, out0, out0.length) p).1
      = (cfbRun enc false (iv, out0, out0.length) p).1 := by
  cases p with
  | nil => rfl
  | cons x xs =>
    simp only [List.length_cons] at hp
    simp only [cfbRun, cfbByte, if_true]
    rw [cfbRun_within enc (enc iv) xs (0 + 1) _ (iv.set 0 (if false = true then x else
      x ^^^ (enc iv).getD 0 0)) true false (by omega)]

theorem cipher_same_transform (P : Primitives) (ciph : StreamCipher) (iv p : List Nat)
    (hiv : iv.length = ciph.IVSize)
    (hkey : ∀ k, ciph = .chacha20Key k ∨ ciph = .chacha20ietfkey k → k.length = 32) :
    ∃ e d, Encrypter P ciph iv = .ok e ∧ Decrypter P ciph iv = .ok d ∧
      ((∀ blk k, ciph ≠ .CFBStream blk k) → d = e) ∧
      ((∀ blk k, ciph = .CFBStream blk k → (P.encryptBlock blk k iv).length = blk.BlockSize) →
        p.length ≤ ciph.IVSize → (d.XORKeyStream p).1 = (e.XORKeyStream p).1) := by
  cases ciph with
  | RC4MD56Key k => exact ⟨_, _, rfl, rfl, fun _ => rfl, fun _ _ => rfl⟩
  | rc4Md5Key k => exact ⟨_, _, rfl, rfl, fun _ => rfl, fun _ _ => rfl⟩
  | CFBStream blk key =>
    have h : ¬ iv.length ≠ blk.BlockSize := by simpa [StreamCipher.IVSize] using hiv
    refine ⟨.cfb (P.encryptBlock blk key) iv (makeBytes blk.BlockSize) blk.BlockSize false,
      .cfb (P.encryptBlock blk key) iv (makeBytes blk.BlockSize) blk.BlockSize true,
      by simp only [Encrypter, if_neg h], by simp only [Decrypter, if_neg h],
      fun hn => absurd rfl (hn blk key), fun hP hp => ?_⟩
    have hm : (makeBytes blk.BlockSize).length = blk.BlockSize := by simp [makeBytes]
    have := cfb_first_block (P.encryptBlock blk key) iv (makeBytes blk.BlockSize) p
      (by rw [hm]; exact hP blk key rfl) (by rw [hm]; exact hp)
    rw [hm] at this
    exact this
  | OFBStream blk key =>
    have h : ¬ iv.length ≠ blk.BlockSize := by simpa [StreamCipher.IVSize] using hiv
    exact ⟨.keystream (ofbKeystream (P.encryptBlock blk key) blk.BlockSize iv) 0,
      .keystream (ofbKeystream (P.encryptBlock blk key) blk.BlockSize iv) 0,
      by simp only [Encrypter, if_neg h], by simp only [Decrypter, Encrypter, if_neg h],
      fun _ => rfl, fun _ _ => rfl⟩
  | ctrStream blk key =>
    have h : ¬ iv.length ≠ blk.BlockSize := by simpa [StreamCipher.IVSize] using hiv
    exact ⟨.keystream (ctrKeystream (P.encryptBlock blk key) blk.BlockSize iv) 0,
      .keystream (ctrKeystream (P.encryptBlock blk key) blk.BlockSize iv) 0,
      by simp only [Encrypter, if_neg h], by simp only [Decrypter, Encrypter, if_neg h],
      fun _ => rfl, fun _ _ => rfl⟩
  | Salsa20Stream key =>
    have h : ¬ iv.length ≠ 8 := by simpa [StreamCipher.IVSize] using hiv
    exact ⟨.salsa20 { nonce := iv, key := key, counter := 0 },
      .salsa20 { nonce := iv, key := key, counter := 0 },
      by simp only [Encrypter, if_neg h], by simp only [Decrypter, if_neg h],
      fun _ => rfl, fun _ _ => rfl⟩
  | chacha20Key k =>
    have h8 : iv.length = 8 := by simpa [StreamCipher.IVSize] using hiv
    have hk := hkey k (Or.inl rfl)
    have h : ¬ (k.length ≠ 32 ∨ ¬ (iv.length = 8 ∨ iv.length = 12 ∨ iv.length = 24)) := by
      simp [hk, h8]
    exact ⟨.keystream (P.chacha20 k iv) 0, .keystream (P.chacha20 k iv) 0,
      by simp only [Encrypter, if_neg h], by simp only [Decrypter, Encrypter, if_neg h],
      fun _ => rfl, fun _ _ => rfl⟩
  | chacha20ietfkey k =>
    have h12 : iv.length = 12 := by simpa [StreamCipher.IVSize] using hiv
    have hk := hkey k (Or.inr rfl)
    have h : ¬ (k.length ≠ 32 ∨ ¬ (iv.length = 12 ∨ iv.length = 24)) := by
      simp [hk, h12]
    exact ⟨.keystream (P.chacha20 k iv) 0, .keystream (P.chacha20 k iv) 0,
      by simp only [Encrypter, if_neg h], by simp only [Decrypter, Encrypter, if_neg h],
      fun _ => rfl, fun _ _ => rfl⟩

theorem digitsVal_none : ∀ (ds : List Char) (acc : Nat),
    ds.all (fun c => 48 ≤ c.toNat && c.toNat ≤ 57) = false → digitsVal ds acc = none := by
  intro ds
  induction ds with
  | nil => intro acc h; simp at h
  | cons c cs ih =>
    intro acc h
    unfold digitsVal
    by_cases hc : 48 ≤ c.toNat ∧ c.toNat ≤ 57
    · rw [if_pos hc]
      apply ih
      simpa [hc.1, hc.2] using h
    · rw [if_neg hc]

theorem Atoi_not_integer (t : List Char) (h : isInteger t = false) : Atoi t = 0 := by
  unfold isInteger at h
  unfold Atoi
  dsimp only at h ⊢
  generalize (if t.head? = some '-' ∨ t.head? = some '+' then t.tail else t) = ds at h ⊢
  by_cases hds : ds = []
  · rw [if_pos hds]
  · rw [if_neg hds]
    have : ds.all (fun c => 48 ≤ c.toNat && c.toNat ≤ 57) = false := by
      cases ds with
      | nil => exact absurd rfl hds
      | cons d ds => simpa using h
    rw [digitsVal_none ds 0 this]

theorem Join_not_mem (sep ch : Char) (hne : ch ≠ sep) :
    ∀ xs : List (List Char), (∀ x ∈ xs, ch ∉ x) → ch ∉ Join sep xs := by
  intro xs
  induction xs with
  | nil => intro _; simp [Join]
  | cons x rest ih =>
    intro h
    cases rest with
    | nil => simpa [Join] using h x (by simp)
    | cons y rest =>
      have h1 := h x (by simp)
      have h2 := ih (fun z hz => h z (List.mem_cons_of_mem _ hz))
      simp only [Join, List.mem_append, List.mem_cons, not_or]
      exact ⟨h1, hne, h2⟩

theorem Split_Join (sep : Char) :
    ∀ xs : List (List Char), xs ≠ [] → (∀ x ∈ xs, sep ∉ x) → Split sep (Join sep xs) = xs := by
  intro xs
  induction xs with
  | nil => intro h; exact absurd rfl h
  | cons x rest ih =>
    intro _ h
    cases rest with
    | nil => simpa [Join] using Split_no_sep sep x (h x (by simp))
    | cons y rest =>
      simp only [Join]
      rw [Split_append sep x _ (h x (by simp)),
        ih (List.cons_ne_nil _ _) (fun z hz => h z (List.mem_cons_of_mem _ hz))]

theorem Split_head (sep : Char) (s rest : List Char) (hs : sep ∉ s)
    (hrest : rest = [] ∨ ∃ more, rest = sep :: more) :
    ∃ ps, Split sep (s ++ rest) = s :: ps := by
  rcases hrest with rfl | ⟨more, rfl⟩
  · exact ⟨[], by rw [List.append_nil, Split_no_sep sep s hs]⟩
  · exact ⟨_, Split_append sep s more hs⟩

theorem New_bad_port (alts : List (List Char)) (rest : List Char) (rnd : Rand)
    (h t tail : List Char)
    (halt : ∀ a ∈ alts, '#' ∉ a ∧ ',' ∉ a)
    (hrest : rest = [] ∨ ∃ hdr, rest = '#' :: hdr)
    (hparam : Join ',' alts ++ rest ≠ [])
    (hch : alts.get? (randIntn alts.length rnd).1 = some (h ++ ':' :: (t ++ tail)))
    (hh : ':' ∉ h) (ht : ':' ∉ t) (htail : tail = [] ∨ ∃ more, tail = ':' :: more)
    (hbad : isInteger t = false) :
    ∃ c rnd', Obfs.NewShadowSocksRHTTPSimpleObfs (Join ',' alts ++ rest) rnd = .ok (c, rnd') ∧
      c.Port = 0 ∧ c.Host = TrimSpace h := by
  have hne : alts ≠ [] := by
    rintro rfl
    simp at hch
  have hJ : '#' ∉ Join ',' alts := Join_not_mem ',' '#' (by decide) alts (fun a ha => (halt a ha).1)
  obtain ⟨ps, hps⟩ := Split_head '#' (Join ',' alts) rest hJ hrest
  obtain ⟨qs, hqs⟩ := Split_head ':' t tail ht htail
  have hlen : (Join ',' alts ++ rest).length > 0 := List.length_pos.mpr hparam
  have hidx : goIndex alts (randIntn alts.length rnd).1 = .ok (h ++ ':' :: (t ++ tail)) := by
    unfold goIndex
    rw [hch]
  unfold Obfs.NewShadowSocksRHTTPSimpleObfs
  simp only [if_pos hlen, bind, Except.bind, pure, Except.pure, hps, goIndex_cons_zero,
    Split_Join ',' alts hne (fun a ha => (halt a ha).2), hidx, Split_append ':' h _ hh, hqs,
    goIndex_cons_one, Atoi_not_integer t hbad]
  obtain ⟨u0, u1, hu⟩ := requestURI_ok (randIntn alts.length rnd).2
  obtain ⟨ua, hua⟩ := userAgent_ok
    (randIntn Obfs.RequestURIs.length (randIntn alts.length rnd).2).2
  rcases ps with _ | ⟨p1, ps⟩ <;> simp [goIndex_cons_one, hu, hua]

theorem New_empty_domain (hdr : List Char) (rnd : Rand) :
    ∃ c rnd', Obfs.NewShadowSocksRHTTPSimpleObfs ('#' :: hdr) rnd = .ok (c, rnd') ∧
      c.Host = [] ∧ c.Port = 80 := by
  have hlen : ('#' :: hdr).length > 0 := by simp
  obtain ⟨p1, ps, hps⟩ := List.exists_cons_of_ne_nil (Split_ne_nil '#' hdr)
  have hsp : Split '#' ('#' :: hdr) = [] :: p1 :: ps := by
    have := Split_append '#' [] hdr (by simp)
    simpa [hps] using this
  have hc : Split ',' ([] : List Char) = [[]] := rfl
  have hd : Split ':' ([] : List Char) = [[]] := rfl
  unfold Obfs.NewShadowSocksRHTTPSimpleObfs
  simp only [if_pos hlen, bind, Except.bind, pure, Except.pure, hsp, goIndex_cons_zero,
    goIndex_cons_one, hc, hd, List.length_singleton, randIntn_one]
  obtain ⟨u0, u1, hu⟩ := requestURI_ok (randIntn 1 rnd).2
  obtain ⟨ua, hua⟩ := userAgent_ok (randIntn Obfs.RequestURIs.length (randIntn 1 rnd).2).2
  simp [hu, hua, TrimSpace]

theorem kdf_prefix (password : List Char) (n : Nat) :
    ∃ shorter longer, kdf password n = .ok shorter ∧ kdf password (n + 1) = .ok longer ∧
      shorter = longer.take n ∧ shorter <+: longer := by
  have hk : ((n : Nat) : Int) + 1 = ((n + 1 : Nat) : Int) := by push_cast; rfl
  have h1 : (kdfStream (strBytes password) n).take n
      = ((kdfStream (strBytes password) (n + 1)).take (n + 1)).take n := by
    rw [List.take_take, Nat.min_eq_left (Nat.le_succ n)]
    exact (kdfStream_take _ n n (n + 1) (by omega) (by omega)).symm
  refine ⟨_, (kdfStream (strBytes password) (n + 1)).take (n + 1), kdf_eq password n, ?_, h1, ?_⟩
  · rw [hk]; exact kdf_eq password (n + 1)
  · rw [h1]
    exact List.take_prefix _ _


theorem New_kind_cfb (kind : CipherKind) (key : List Nat) (ciph : StreamCipher)
    (hc : kind.New key = .ok ciph) :
    (∃ blk k, ciph = .CFBStream blk k)
      ↔ (kind = .AESCFB ∨ kind = .BFCFB ∨ kind = .Cast5CFB ∨ kind = .DESCFB) := by
  cases kind <;> simp only [CipherKind.New, newBlock] at hc <;> (try split_ifs at hc) <;>
    (injection hc with hc; subst hc; simp)

/-! ## The claims on reading, dialing, the identity, the modes and the parameter -/

/-- C21, as stated, fails when the end of the stream comes after some but not
all bytes of the IV: on a DES-CFB connection (8-byte IV) whose underlying
stream delivers three bytes and then answers `io.EOF`, the first `Read`
returns 0 and `io.ErrUnexpectedEOF`, not `io.EOF`; the reader stays nil. -/
theorem C21_counterexample :
    StreamConn.shortSource.answer 0 8 = ([7, 7, 7], none) ∧
    StreamConn.shortSource.answer 1 5 = ([], some .EOF) ∧
    StreamConn.Read samplePrimitives 5 StreamConn.sampleConn StreamConn.shortSource [0, 0]
      = .ok ((0, some .ErrUnexpectedEOF), [0, 0],
          { StreamConn.sampleConn with ReadIV := [7, 7, 7, 0, 0, 0, 0, 0] },
          { StreamConn.shortSource with calls := 2 }) :=
  ⟨rfl, rfl, rfl⟩

/-- C21, amended: on a connection without a reader, when the underlying
stream answers the reads of `ReadFull` with the chunks `chunks` without error
and then with `last` and the error `e`, all of it fewer bytes than the IV
size, the first `Read` (given fuel for these reads) returns 0 bytes and an
error, leaves the caller's buffer as it is and makes no decrypter (`r` stays
nil; only `ReadIV` holds the partly filled buffer). The error is `e` itself
when `e` is not `io.EOF` or when no IV byte has arrived; it is
`io.ErrUnexpectedEOF` when `e` is `io.EOF` and at least one IV byte has
arrived. -/
theorem C21_iv_read_error {ε : Type} (P : Primitives) (fuel : Nat)
    (c : StreamConn.ShadowSocksRStreamConn) (u : StreamConn.Source ε) (b : List Nat)
    (chunks : List (List Nat)) (last : List Nat) (e : StreamConn.ReadError ε)
    (hr : c.r = none) (hfuel : chunks.length < fuel)
    (hok : ∀ (j : Nat) (hj : j < chunks.length) (cap : Nat),
      u.answer (u.calls + j) cap = (chunks.get ⟨j, hj⟩, none))
    (herr : ∀ cap : Nat, u.answer (u.calls + chunks.length) cap = (last, some e))
    (hshort : (chunks.flatten ++ last).length < c.Cipher.IVSize) :
    ∃ (e' : StreamConn.ReadError ε) (iv' : List Nat),
      StreamConn.Read P fuel c u b
        = .ok ((0, some e'), b, { c with ReadIV := iv' },
            { u with calls := u.calls + chunks.length + 1 }) ∧
      ({ c with ReadIV := iv' } : StreamConn.ShadowSocksRStreamConn).r = none ∧
      iv'.length = c.Cipher.IVSize ∧
      (StreamConn.isEOF (some e) = false ∨ chunks.flatten ++ last = [] → e' = e) ∧
      (StreamConn.isEOF (some e) = true → chunks.flatten ++ last ≠ [] → e' = .ErrUnexpectedEOF) := by
  obtain ⟨buf', hb', hrun⟩ := readAtLeastLoop_fail c.Cipher.IVSize e last chunks fuel
    (makeBytes c.Cipher.IVSize) 0 u hfuel (by simp [makeBytes]) (by omega) hok herr
  have hm : (makeBytes c.Cipher.IVSize).length = c.Cipher.IVSize := by simp [makeBytes]
  rw [hm] at hb'
  have hge : ¬ (0 + (chunks.flatten ++ last).length ≥ c.Cipher.IVSize) := by omega
  by_cases hE : (0 + (chunks.flatten ++ last).length > 0 ∧ StreamConn.isEOF (some e) = true)
  · refine ⟨.ErrUnexpectedEOF, buf', ?_, hr, hb', ?_, fun _ _ => rfl⟩
    · unfold StreamConn.Read StreamConn.initReader StreamConn.ReadFull StreamConn.ReadAtLeast
      simp only [hr, hm, Nat.lt_irrefl, if_false, hrun, bind, Except.bind, pure, Except.pure,
        if_neg hge, if_pos hE]
    · rintro (h | h)
      · rw [hE.2] at h; exact absurd h (by decide)
      · rw [h] at hE; exact absurd hE.1 (by simp)
  · refine ⟨e, buf', ?_, hr, hb', fun _ => rfl, ?_⟩
    · unfold StreamConn.Read StreamConn.initReader StreamConn.ReadFull StreamConn.ReadAtLeast
      simp only [hr, hm, Nat.lt_irrefl, if_false, hrun, bind, Except.bind, pure, Except.pure,
        if_neg hge, if_neg hE]
    · intro h1 h2
      exfalso
      apply hE
      refine ⟨?_, h1⟩
      have := List.length_pos.mpr h2
      omega

/-- C21, amended, at a DES-CFB connection whose underlying stream delivers
three bytes and then the end of the stream. -/
theorem C21_witness :
    (StreamConn.sampleConn.r = none ∧ [[7, 7, 7]].length < 5 ∧
      (∀ (j : Nat) (hj : j < [[7, 7, 7]].length) (cap : Nat),
        StreamConn.shortSource.answer (StreamConn.shortSource.calls + j) cap
          = ([[7, 7, 7]].get ⟨j, hj⟩, none)) ∧
      (∀ cap : Nat,
        StreamConn.shortSource.answer (StreamConn.shortSource.calls + [[7, 7, 7]].length) cap
          = ([], some .EOF)) ∧
      ([[7, 7, 7]].flatten ++ []).length < StreamConn.sampleConn.Cipher.IVSize) ∧
    ∃ (e' : StreamConn.ReadError Unit) (iv' : List Nat),
      StreamConn.Read samplePrimitives 5 StreamConn.sampleConn StreamConn.shortSource [0, 0]
        = .ok ((0, some e'), [0, 0], { StreamConn.sampleConn with ReadIV := iv' },
            { StreamConn.shortSource with
              calls := StreamConn.shortSource.calls + [[7, 7, 7]].length + 1 }) ∧
      ({ StreamConn.sampleConn with ReadIV := iv' } : StreamConn.ShadowSocksRStreamConn).r
        = none ∧
      iv'.length = StreamConn.sampleConn.Cipher.IVSize ∧
      (StreamConn.isEOF (some (.EOF : StreamConn.ReadError Unit)) = false
          ∨ [[7, 7, 7]].flatten ++ [] = [] → e' = .EOF) ∧
      (StreamConn.isEOF (some (.EOF : StreamConn.ReadError Unit)) = true →
        [[7, 7, 7]].flatten ++ [] ≠ [] → e' = .ErrUnexpectedEOF) :=
  ⟨⟨rfl, by decide,
      fun j hj cap => by
        have h0 : j = 0 := by simpa using hj
        subst h0
        rfl,
      fun _ => rfl, by decide⟩,
    C21_iv_read_error samplePrimitives 5 StreamConn.sampleConn StreamConn.shortSource [0, 0]
      [[7, 7, 7]] [] .EOF rfl (by decide)
      (fun j hj cap => by
        have h0 : j = 0 := by simpa using hj
        subst h0
        rfl)
      (fun _ => rfl) (by decide)⟩

/-- C22: `DialContext` does not wrap the connection with the obfuscation or
the protocol layer. Its result does not depend on the configured `obfs`,
`obfsParam`, `protocol` and `protocolParam`; with the cipher `none` the one
buffer handed to the dialed connection is the address record itself; with a
stream cipher the address record itself is the buffer of the one `Write` on
the stream-cipher connection. So for the configuration that `NewShadowSocksR`
makes of cipher `none`, obfs `http_simple` and protocol `auth_sha1_v4`, the
bytes handed over are the bare address record `01 7f 00 00 01 00 50`, neither
an HTTP request nor an authenticated frame. -/
theorem C22_dial_writes_bare_address {ε : Type} (P : Primitives) (ssr : Outbound.ShadowSocksR)
    (dial : Except ε (StreamConn.Wire ε)) (u : StreamConn.Wire ε) (drawn : List Nat)
    (randErr : Option ε) (addr : List Nat)
    (obfs obfsParam protocol protocolParam : List Char) (s : StreamCipher) (key : List Nat) :
    Outbound.DialContext P
        { ssr with
          obfs := obfs
          obfsParam := obfsParam
          protocol := protocol
          protocolParam := protocolParam } dial drawn randErr addr
      = Outbound.DialContext P ssr dial drawn randErr addr ∧
    Outbound.DialContext P { ssr with cipher := some .none } (.ok u) drawn randErr addr
      = .ok (Outbound.dialed ssr (u.answer u.log addr, .dialed,
          { u with log := u.log ++ [addr] })) ∧
    Outbound.DialContext P { ssr with cipher := some (.ShadowSocksRStreamCipher (some s) key) }
        (.ok u) drawn none addr
      = (StreamConn.Write P
          { Cipher := s, r := none, w := none, ReadIV := []
            WriteIV := goCopy (makeBytes s.IVSize) drawn, Key := key } u addr).map
        (fun r => Outbound.dialed ssr (r.1, .stream r.2.1, r.2.2)) ∧
    Outbound.NewShadowSocksR asciiUpper Outbound.sampleOption
      = .ok (some { server := "example.com:8388".toList
                    cipher := some .none
                    host := "example.com".toList
                    port := 8388
                    protocol := "auth_sha1_v4".toList
                    protocolParam := []
                    obfs := "http_simple".toList
                    obfsParam := [] }, none) ∧
    Outbound.DialContext P
        { server := "example.com:8388".toList
          cipher := some .none
          host := "example.com".toList
          port := 8388
          protocol := "auth_sha1_v4".toList
          protocolParam := []
          obfs := "http_simple".toList
          obfsParam := [] }
        (.ok { answer := fun _ p => ((p.length : Int), (none : Option ε)), log := [] })
        drawn randErr [1, 127, 0, 0, 1, 0, 80]
      = .ok { conn := some .dialed
              err := none
              wire := some { answer := fun _ p => ((p.length : Int), none)
                             log := [[1, 127, 0, 0, 1, 0, 80]] } } := by
  refine ⟨rfl, rfl, ?_, ?_, rfl⟩
  · simp only [Outbound.DialContext, Encryption.Cipher.StreamConn,
      StreamConn.NewShadowSocksRStreamConn, Except.map, bind, Except.bind, pure, Except.pure,
      Conn.Write]
    cases StreamConn.Write P _ u addr <;> rfl
  · rfl

set_option maxRecDepth 100000 in
/-- C23, as stated, fails at the end of the `uint32` range: from a non-empty
client id and connection id `0xFFFFFFFF` the increment wraps to 0, which is not
above `0xFF000000`, so the client id is kept and the connection id becomes 0
(the claim has the identity replaced there). And a client id that is neither
empty nor 8 bytes long is kept as it is, so it does not have 8 bytes after the
step. -/
theorem C23_counterexample :
    (0xFF000000 < 0xFFFFFFFF + 1 ∧
      acquireIdentity { ClientID := [1, 2, 3, 4, 5, 6, 7, 8], ConnID := 0xFFFFFFFF } [9, 9]
        = ({ ClientID := [1, 2, 3, 4, 5, 6, 7, 8], ConnID := 0 }, [9, 9]) ∧
      (randRead 8 [9, 9]).1 = [9, 9, 0, 0, 0, 0, 0, 0]) ∧
    (acquireIdentity { ClientID := [1, 2, 3], ConnID := 5 } [9, 9]
        = ({ ClientID := [1, 2, 3], ConnID := 6 }, [9, 9]) ∧
      (acquireIdentity { ClientID := [1, 2, 3], ConnID := 5 } [9, 9]).1.ClientID.length = 3) := by
  decide

/-- C23, amended: with `next = (connection_id + 1) mod 2^32` (the `uint32`
increment, equal to `connection_id + 1` below `2^32 - 1`): if the client id is
non-empty and `next <= 0xFF000000`, the step keeps the client id, draws
nothing and sets the connection id to `next`; if the client id is empty or
`next > 0xFF000000`, the client id becomes the 8 bytes of `rand.Read` and the
connection id `rand.Uint32() & 0xFFFFF`, below `2^20`. After every step the
connection id is at most `0xFF000000`, and the client id has 8 bytes when it
was empty or had 8 bytes before. -/
theorem C23_identity_step (ci : ClientInfo) (rnd : Rand) :
    (ci.ClientID ≠ [] → (ci.ConnID + 1) % 2 ^ 32 ≤ 0xFF000000 →
      acquireIdentity ci rnd = ({ ci with ConnID := (ci.ConnID + 1) % 2 ^ 32 }, rnd)) ∧
    (ci.ConnID + 1 < 2 ^ 32 → (ci.ConnID + 1) % 2 ^ 32 = ci.ConnID + 1) ∧
    (ci.ClientID = [] ∨ 0xFF000000 < (ci.ConnID + 1) % 2 ^ 32 →
      acquireIdentity ci rnd
        = ({ ClientID := (randRead 8 rnd).1
             ConnID := (randUint32 (randRead 8 rnd).2).1 &&& 0xFFFFF },
           (randUint32 (randRead 8 rnd).2).2) ∧
      (randRead 8 rnd).1.length = 8 ∧
      (randUint32 (randRead 8 rnd).2).1 &&& 0xFFFFF < 2 ^ 20) ∧
    (acquireIdentity ci rnd).1.ConnID ≤ 0xFF000000 ∧
    (ci.ClientID.length = 0 ∨ ci.ClientID.length = 8 →
      (acquireIdentity ci rnd).1.ClientID.length = 8) := by
  have hmask : ∀ v : Nat, v &&& 0xFFFFF < 2 ^ 20 := by
    intro v
    have : v &&& 0xFFFFF ≤ 0xFFFFF := Nat.and_le_right
    omega
  have hlen : (randRead 8 rnd).1.length = 8 := randRead_length 8 rnd
  refine ⟨?_, fun h => Nat.mod_eq_of_lt h, ?_, ?_, ?_⟩
  · intro h1 h2
    have h1' : ¬ ci.ClientID.length = 0 := by
      intro h; exact h1 (List.length_eq_zero.mp h)
    simp only [acquireIdentity, if_neg (not_lt.mpr h2), if_neg h1']
  · intro h
    refine ⟨?_, hlen, hmask _⟩
    by_cases h2 : 0xFF000000 < (ci.ConnID + 1) % 2 ^ 32
    · simp only [acquireIdentity, gt_iff_lt, if_pos h2, List.length_nil, if_true]
    · have h1 : ci.ClientID = [] := h.resolve_right h2
      simp only [acquireIdentity, gt_iff_lt, if_neg h2, h1, List.length_nil, if_true]
  · unfold acquireIdentity
    dsimp only
    split_ifs with h2 h3 h3
    · have := hmask (randUint32 (randRead 8 rnd).2).1
      show _ &&& 0xFFFFF ≤ 0xFF000000
      omega
    · exact absurd rfl h3
    · have := hmask (randUint32 (randRead 8 rnd).2).1
      show _ &&& 0xFFFFF ≤ 0xFF000000
      omega
    · exact not_lt.mp h2
  · intro h
    unfold acquireIdentity
    dsimp only
    split_ifs with h2 h3 h3
    · exact hlen
    · exact absurd rfl h3
    · exact hlen
    · rcases h with h | h
      · exact absurd h h3
      · exact h

/-- C23, amended, at an identity in the middle of its range. -/
theorem C23_witness :
    ([1, 2, 3, 4, 5, 6, 7, 8] ≠ ([] : List Nat) ∧ (41 + 1) % 2 ^ 32 ≤ 0xFF000000) ∧
    acquireIdentity { ClientID := [1, 2, 3, 4, 5, 6, 7, 8], ConnID := 41 } [5, 6]
      = ({ ClientID := [1, 2, 3, 4, 5, 6, 7, 8], ConnID := (41 + 1) % 2 ^ 32 }, [5, 6]) :=
  ⟨⟨by decide, by decide⟩,
    (C23_identity_step { ClientID := [1, 2, 3, 4, 5, 6, 7, 8], ConnID := 41 } [5, 6]).1
      (by decide) (by decide)⟩

set_option maxRecDepth 1000000 in
/-- C24, as stated, fails for the CFB suites: with AES-128-CFB, the zero key
and the zero IV, on 17 zero bytes the encrypter writes `E(0)` and then `f7`,
the first byte of `E(E(0))`, while the decrypter writes `E(0)` and then `66`,
the first byte of `E(0)`: after the first block the encrypter feeds its output
back into the block cipher and the decrypter its input. -/
theorem C24_counterexample :
    CipherKind.New .AESCFB (makeBytes 16) = .ok (.CFBStream .aes (makeBytes 16)) ∧
    (Encrypter aesPrimitives (.CFBStream .aes (makeBytes 16)) (makeBytes 16)).toOption.map
        (fun s => (s.XORKeyStream (makeBytes 17)).1)
      = some [0x66, 0xe9, 0x4b, 0xd4, 0xef, 0x8a, 0x2c, 0x3b, 0x88, 0x4c, 0xfa, 0x59, 0xca, 0x34,
          0x2b, 0x2e, 0xf7] ∧
    (Decrypter aesPrimitives (.CFBStream .aes (makeBytes 16)) (makeBytes 16)).toOption.map
        (fun s => (s.XORKeyStream (makeBytes 17)).1)
      = some [0x66, 0xe9, 0x4b, 0xd4, 0xef, 0x8a, 0x2c, 0x3b, 0x88, 0x4c, 0xfa, 0x59, 0xca, 0x34,
          0x2b, 0x2e, 0x66] := by
  refine ⟨rfl, ?_, ?_⟩ <;> decide

/-- C24, amended: for every row of `streamList`, every key of the row's key
size and every IV of the cipher's `IVSize`, `Encrypter(iv)` and
`Decrypter(iv)` are made without a panic. The cipher is in CFB mode exactly
for the constructors `AESCFB`, `BFCFB`, `Cast5CFB` and `DESCFB`; for every
other cipher the two are the same stream (same initial state, same keystream
XORed into the input); for the CFB ciphers, whose decrypter is
`cipher.NewCFBDecrypter`, the two write the same bytes for an input no longer
than one block (the block cipher returning a whole block for the IV). -/
theorem C24_same_transform_outside_cfb (P : Primitives) (nm : List Char) (ks : Nat)
    (kind : CipherKind) (key iv p : List Nat) (hrow : (nm, ks, kind) ∈ streamList)
    (hk : key.length = ks) :
    ∃ ciph, kind.New key = .ok ciph ∧
      ((∃ blk k, ciph = .CFBStream blk k)
        ↔ (kind = .AESCFB ∨ kind = .BFCFB ∨ kind = .Cast5CFB ∨ kind = .DESCFB)) ∧
      (iv.length = ciph.IVSize →
        ∃ e d, Encrypter P ciph iv = .ok e ∧ Decrypter P ciph iv = .ok d ∧
          ((∀ blk k, ciph ≠ .CFBStream blk k) → d = e) ∧
          ((∀ blk k, ciph = .CFBStream blk k →
              (P.encryptBlock blk k iv).length = blk.BlockSize) →
            p.length ≤ ciph.IVSize → (d.XORKeyStream p).1 = (e.XORKeyStream p).1)) := by
  obtain ⟨ciph, hc, hkey⟩ := New_row ks kind nm hrow key hk
  exact ⟨ciph, hc, New_kind_cfb kind key ciph hc,
    fun hiv => cipher_same_transform P ciph iv p hiv hkey⟩

/-- C24, amended, at the row `AES-128-OFB`. -/
theorem C24_witness :
    (("AES-128-OFB".toList, 16, CipherKind.AESOFB) ∈ streamList ∧
      (List.range 16).length = 16) ∧
    ∃ ciph, CipherKind.New .AESOFB (List.range 16) = .ok ciph ∧
      ((∃ blk k, ciph = .CFBStream blk k)
        ↔ (CipherKind.AESOFB = .AESCFB ∨ CipherKind.AESOFB = .BFCFB
            ∨ CipherKind.AESOFB = .Cast5CFB ∨ CipherKind.AESOFB = .DESCFB)) ∧
      ((makeBytes 16).length = ciph.IVSize →
        ∃ e d, Encrypter samplePrimitives ciph (makeBytes 16) = .ok e ∧
          Decrypter samplePrimitives ciph (makeBytes 16) = .ok d ∧
          ((∀ blk k, ciph ≠ .CFBStream blk k) → d = e) ∧
          ((∀ blk k, ciph = .CFBStream blk k →
              (samplePrimitives.encryptBlock blk k (makeBytes 16)).length = blk.BlockSize) →
            [1, 2, 3].length ≤ ciph.IVSize →
            (d.XORKeyStream [1, 2, 3]).1 = (e.XORKeyStream [1, 2, 3]).1)) :=
  ⟨⟨by decide, by decide⟩,
    C24_same_transform_outside_cfb samplePrimitives "AES-128-OFB".toList 16 .AESOFB
      (List.range 16) (makeBytes 16) [1, 2, 3] (by decide) (by decide)⟩

set_option maxRecDepth 1000000 in
/-- C25, as stated, fails: no password and length are as the claim says. For
every password and every `n`, `kdf(p, n)` is a prefix of `kdf(p, n + 1)`. For
the password `test`, `kdf(p, 16)` is `MD5("test")` and `kdf(p, 17)` is the
same 16 bytes followed by `0a`, the first byte of the second digest: the
shorter key is a prefix of the longer one also across the digest boundary. -/
theorem C25_counterexample :
    ((kdf "test".toList 16).toOption
        = some [0x09, 0x8f, 0x6b, 0xcd, 0x46, 0x21, 0xd3, 0x73, 0xca, 0xde, 0x4e, 0x83, 0x26,
            0x27, 0xb4, 0xf6] ∧
      (kdf "test".toList 17).toOption
        = some [0x09, 0x8f, 0x6b, 0xcd, 0x46, 0x21, 0xd3, 0x73, 0xca, 0xde, 0x4e, 0x83, 0x26,
            0x27, 0xb4, 0xf6, 0x0a]) ∧
    ∀ (p : List Char) (n : Nat),
      ∃ a b, kdf p n = .ok a ∧ kdf p (n + 1) = .ok b ∧ a <+: b := by
  refine ⟨⟨?_, ?_⟩, fun p n => ?_⟩
  · decide
  · decide
  · obtain ⟨a, b, ha, hb, -, hab⟩ := kdf_prefix p n
    exact ⟨a, b, ha, hb, hab⟩

/-- C25, amended: `kdf` is prefix-stable. For every password and every key
length `n + 1 >= 1`, `kdf(p, n)` and `kdf(p, n + 1)` both return, and
`kdf(p, n)` is the first `n` bytes of `kdf(p, n + 1)`: each digest is computed
from the previous digest and the password only, and is appended to the bytes
made so far. -/
theorem C25_kdf_prefix_stable (password : List Char) (n : Nat) :
    ∃ shorter longer, kdf password n = .ok shorter ∧ kdf password (n + 1) = .ok longer ∧
      shorter = longer.take n ∧ shorter <+: longer :=
  kdf_prefix password n

/-- C26: for every buffer, connection state and underlying connection,
`AuthSHA1v4.Read` returns 0 and a nil error, makes no `Read` call on the
underlying connection, and leaves the buffer and the connection
(`authenticated`, identity, IV and key) as they are. -/
theorem C26_read_is_inert {ε : Type} (c : AuthSHA1v4) (u : StreamConn.Source ε) (b : List Nat) :
    (Read c u b).1 = (0, none) ∧
    (Read c u b).2.1 = b ∧
    (Read c u b).2.2.1 = c ∧
    (Read c u b).2.2.1.authenticated = c.authenticated ∧
    (Read c u b).2.2.1.clientInfo = c.clientInfo ∧
    (Read c u b).2.2.2 = u ∧
    (Read c u b).2.2.2.calls = u.calls :=
  ⟨rfl, rfl, rfl, rfl, rfl, rfl, rfl⟩

/-- C27: for every payload `b` and every random tape, `pack` returns a frame
`f` of `r + len b + 8` bytes, `r` the rand length drawn (`1 <= r <= 1024`),
from which `r` is read back: `f[4]` when that byte is not `0xFF`, else the
big-endian `uint16` in `f[5..7]`; the payload is `f[4 + r .. len f - 4)`; the
indicator, one byte for `r < 128` and three bytes otherwise, is no longer than
the `r` bytes of the filler region where it is stored, and the trailer is
still the Adler-32 of everything before it. -/
theorem C27_plain_frame_decodable (b : List Nat) (rnd : Rand) :
    ∃ (f : List Nat) (rnd' : Rand),
      pack b rnd = .ok (f, rnd') ∧
      1 ≤ (getRandomDataLength b rnd).1 ∧ (getRandomDataLength b rnd).1 ≤ 1024 ∧
      f.length = (getRandomDataLength b rnd).1 + b.length + 8 ∧
      decodeRandLength f = (getRandomDataLength b rnd).1 ∧
      (f.drop (4 + decodeRandLength f)).take (f.length - 4 - (4 + decodeRandLength f)) = b ∧
      (if (getRandomDataLength b rnd).1 < 128 then 1 else 3) ≤ (getRandomDataLength b rnd).1 ∧
      (f.drop 4).take (if (getRandomDataLength b rnd).1 < 128 then 1 else 3)
        = (if (getRandomDataLength b rnd).1 < 128 then [(getRandomDataLength b rnd).1]
           else 0xFF :: be16 (getRandomDataLength b rnd).1) ∧
      f.drop (f.length - 4) = le32 (adler32 (f.take (f.length - 4))) := by
  have h1 := getRandomDataLength_pos b rnd
  have h2 := getRandomDataLength_le b rnd
  have hl := plainFrame_length b rnd
  have hf := fillerBytes_length (getRandomDataLength b rnd).1 (getRandomDataLength b rnd).2 h1
  have hdec : decodeRandLength (plainFrame b rnd) = (getRandomDataLength b rnd).1 := by
    rw [plainFrame_split]
    exact fillerBytes_decode _ _ _ h1 h2 _ rfl
  have hb := plainBody_length b rnd
  have htr : (plainFrame b rnd).drop ((plainFrame b rnd).length - 4)
      = le32 (adler32 ((plainFrame b rnd).take ((plainFrame b rnd).length - 4))) := by
    rw [hl]
    unfold plainFrame
    rw [List.drop_append_of_le_length (by omega), List.drop_of_length_le (by omega),
      List.take_append_of_le_length (by omega), List.take_of_length_le (by omega)]
    rfl
  refine ⟨_, _, pack_eq b rnd, h1, h2, hl, hdec, ?_, ?_, ?_, htr⟩
  · rw [hdec, hl, plainFrame_split,
      List.drop_append_of_le_length (by simp [be16, le16, hf]; omega), List.drop_of_length_le
      (by simp [be16, le16, hf]; omega), List.nil_append]
    have : (getRandomDataLength b rnd).1 + b.length + 8 - 4 - (4 + (getRandomDataLength b rnd).1)
        = b.length := by omega
    rw [this, List.take_left]
  · split_ifs <;> omega
  · rw [plainFrame_split]
    unfold fillerBytes
    by_cases h : (getRandomDataLength b rnd).1 < 128
    · have hm : (getRandomDataLength b rnd).1 &&& 0xFF = (getRandomDataLength b rnd).1 := by
        have := Nat.and_pow_two_sub_one_eq_mod (getRandomDataLength b rnd).1 8
        norm_num at this
        rw [this]; omega
      simp [if_pos h, hm, be16, le16]
    · have hm : (getRandomDataLength b rnd).1 &&& 0xFFFF = (getRandomDataLength b rnd).1 := by
        rw [and_65535]; omega
      simp [if_neg h, hm, be16, le16]

/-- C28: for every non-empty buffer `b` written on an authenticated
connection whose underlying stream accepts every buffer in full, `Write`
returns no error and the count of the underlying write, the length of the
framed output; that count is at least `len b + 9 * ceil(len b / 4096)` and so
strictly greater than `len b`. -/
theorem C28_write_returns_framed_count {ε : Type} (ci : Option ClientInfo) (iv key : List Nat)
    (x : Nat) (xs : List Nat) (now : Int) (rnd : Rand) :
    ∃ r : WriteResult ε,
      Write (fun p => ((p.length : Int), none))
        { authenticated := true, clientInfo := ci, iv := iv, key := key } (x :: xs) now rnd
        = .ok r ∧
      r.err = none ∧
      r.n = (r.sent.length : Int) ∧
      r.sent = (framesOf (blocksOf blockSize (x :: xs).length (x :: xs)) rnd).1.flatten ∧
      ((x :: xs).length : Int) + 9 * ((((x :: xs).length + 4095) / 4096 : Nat) : Int) ≤ r.n ∧
      ((x :: xs).length : Int) < r.n := by
  have hw := Write_authenticated (fun p : List Nat => (((p.length : Int)), (none : Option ε)))
    { authenticated := true, clientInfo := ci, iv := iv, key := key } (x :: xs) now rnd rfl
  have hlen := framesOf_flatten_length (blocksOf blockSize (x :: xs).length (x :: xs)) rnd
  rw [blocksOf_join blockSize (by decide) _ _ (le_refl _),
    blocksOf_length blockSize (by decide) _ _ (le_refl _)] at hlen
  have hlen : (x :: xs).length + 9 * (((x :: xs).length + 4095) / 4096)
      ≤ (framesOf (blocksOf blockSize (x :: xs).length (x :: xs)) rnd).1.flatten.length := hlen
  have hpos : 1 ≤ ((x :: xs).length + 4095) / 4096 := by
    have : 4096 ≤ (x :: xs).length + 4095 := by simp
    exact Nat.div_pos this (by norm_num)
  refine ⟨_, hw, rfl, rfl, rfl, ?_, ?_⟩
  · show _ ≤ ((_ : Nat) : Int)
    exact_mod_cast hlen
  · show _ < ((_ : Nat) : Int)
    have : (x :: xs).length < (framesOf (blocksOf blockSize (x :: xs).length (x :: xs)) rnd).1.flatten.length := by
      omega
    exact_mod_cast this

/-- C29: on a connection that has not sent its header (two-part request URI,
non-negative head size), the first `Write` returns what the underlying write
of the disguised buffer returns, error included, and leaves
`headerSent = true` whatever that result is; on the connection so left every
later `Write` hands its buffer through as it is, for every underlying stream,
so the HTTP header is not sent again. -/
theorem C29_header_sent_before_write {ε : Type} (under1 under2 : List Nat → Int × Option ε)
    (c : Obfs.ShadowSocksRHTTPSimpleObfs) (b1 : List Nat) (rnd : Rand)
    (u0 u1 : List Char) (us : List (List Char))
    (hs : c.headerSent = false) (hu : c.RequestURI = u0 :: u1 :: us)
    (h0 : 0 ≤ c.ivLen + c.tcpHeaderLength) :
    ∃ r1 : Obfs.WriteResult ε,
      Obfs.Write under1 c b1 rnd = .ok r1 ∧
      r1.n = (under1 r1.sent).1 ∧
      r1.err = (under1 r1.sent).2 ∧
      r1.conn = { c with headerSent := true } ∧
      r1.conn.headerSent = true ∧
      (∀ (b : List Nat) (r : Rand),
        Obfs.Write under2 r1.conn b r
          = .ok { n := (under2 b).1, err := (under2 b).2, sent := b, conn := r1.conn, rnd := r }) ∧
      (∀ (bs : List (List Nat)) (r : Rand),
        Obfs.writeAll under2 r1.conn bs r = .ok (bs, r1.conn, r)) := by
  obtain ⟨e, rnd1, lines, rnd', -, -, -, hw⟩ := Obfs_Write_first under1 c b1 rnd u0 u1 us hs hu h0
  exact ⟨_, hw, rfl, rfl, rfl, rfl,
    fun b r => Obfs_Write_passthrough under2 _ b r rfl,
    fun bs r => Obfs_writeAll_passthrough under2 _ bs r rfl⟩

/-- C29 at a concrete connection whose underlying stream refuses the first
write. -/
theorem C29_witness :
    (Obfs.sampleConn.headerSent = false ∧
      Obfs.sampleConn.RequestURI = "/".toList :: "".toList :: [] ∧
      0 ≤ Obfs.sampleConn.ivLen + Obfs.sampleConn.tcpHeaderLength) ∧
    ∃ r1 : Obfs.WriteResult Unit,
      Obfs.Write refuseAll Obfs.sampleConn [1, 2, 3] [] = .ok r1 ∧
      r1.n = (refuseAll r1.sent).1 ∧
      r1.err = (refuseAll r1.sent).2 ∧
      r1.conn = { Obfs.sampleConn with headerSent := true } ∧
      r1.conn.headerSent = true ∧
      (∀ (b : List Nat) (r : Rand),
        Obfs.Write acceptAll r1.conn b r
          = .ok { n := (acceptAll b).1, err := (acceptAll b).2, sent := b, conn := r1.conn,
                  rnd := r }) ∧
      (∀ (bs : List (List Nat)) (r : Rand),
        Obfs.writeAll acceptAll r1.conn bs r = .ok (bs, r1.conn, r)) :=
  ⟨⟨rfl, rfl, by decide⟩,
    C29_header_sent_before_write refuseAll acceptAll Obfs.sampleConn [1, 2, 3] []
      "/".toList "".toList [] rfl rfl (by decide)⟩

/-- C30, as stated, fails: in the parameter `a:80:90` the text after the colon,
`80:90`, is not a decimal integer, and the port is 80, not 0: the domain is
split on every colon and only the text up to the second colon is read. -/
theorem C30_counterexample :
    isInteger "80:90".toList = false ∧
    ∃ c rnd', Obfs.NewShadowSocksRHTTPSimpleObfs "a:80:90".toList [] = .ok (c, rnd') ∧
      c.Port = 80 :=
  ⟨by decide, _, _, rfl, by decide⟩

/-- C30, amended: the constructor returns a connection for every parameter.
For a non-empty parameter `alts[0],alts[1],...` optionally followed by `#` and
text, when the alternative chosen by `rand.Intn` is `h:t` or `h:t:more` with
no colon in `h` and `t`, and `t` is not an optional sign followed by decimal
digits, `Port` is 0 and `Host` is `h` trimmed. For a parameter that begins
with `#`, `Host` is the empty string and `Port` is 80. -/
theorem C30_no_fallback (param hdr : List Char) (rnd0 : Rand)
    (alts : List (List Char)) (rest : List Char) (rnd : Rand) (h t tail : List Char)
    (halt : ∀ a ∈ alts, '#' ∉ a ∧ ',' ∉ a)
    (hrest : rest = [] ∨ ∃ text, rest = '#' :: text)
    (hparam : Join ',' alts ++ rest ≠ [])
    (hch : alts.get? (randIntn alts.length rnd).1 = some (h ++ ':' :: (t ++ tail)))
    (hh : ':' ∉ h) (ht : ':' ∉ t) (htail : tail = [] ∨ ∃ more, tail = ':' :: more)
    (hbad : isInteger t = false) :
    (∃ c rnd', Obfs.NewShadowSocksRHTTPSimpleObfs param rnd0 = .ok (c, rnd')) ∧
    (∃ c rnd', Obfs.NewShadowSocksRHTTPSimpleObfs (Join ',' alts ++ rest) rnd = .ok (c, rnd') ∧
      c.Port = 0 ∧ c.Host = TrimSpace h) ∧
    (∃ c rnd', Obfs.NewShadowSocksRHTTPSimpleObfs ('#' :: hdr) rnd0 = .ok (c, rnd') ∧
      c.Host = [] ∧ c.Port = 80) :=
  ⟨New_total param rnd0,
    New_bad_port alts rest rnd h t tail halt hrest hparam hch hh ht htail hbad,
    New_empty_domain hdr rnd0⟩

/-- C30, amended, at the parameter `a.com:80,b.com:8x:90#X: y` with the second
alternative chosen, and at `#X: y`. -/
theorem C30_witness :
    ((∀ a ∈ ["a.com:80".toList, "b.com:8x:90".toList], '#' ∉ a ∧ ',' ∉ a) ∧
      ("#X: y".toList = [] ∨ ∃ text, "#X: y".toList = '#' :: text) ∧
      Join ',' ["a.com:80".toList, "b.com:8x:90".toList] ++ "#X: y".toList ≠ [] ∧
      ["a.com:80".toList, "b.com:8x:90".toList].get?
          (randIntn ["a.com:80".toList, "b.com:8x:90".toList].length [5]).1
        = some ("b.com".toList ++ ':' :: ("8x".toList ++ ":90".toList)) ∧
      ':' ∉ "b.com".toList ∧ ':' ∉ "8x".toList ∧
      (":90".toList = [] ∨ ∃ more, ":90".toList = ':' :: more) ∧
      isInteger "8x".toList = false) ∧
    (∃ c rnd', Obfs.NewShadowSocksRHTTPSimpleObfs "::".toList [] = .ok (c, rnd')) ∧
    (∃ c rnd', Obfs.NewShadowSocksRHTTPSimpleObfs
        (Join ',' ["a.com:80".toList, "b.com:8x:90".toList] ++ "#X: y".toList) [5]
          = .ok (c, rnd') ∧
      c.Port = 0 ∧ c.Host = TrimSpace "b.com".toList) ∧
    (∃ c rnd', Obfs.NewShadowSocksRHTTPSimpleObfs ('#' :: "X: y".toList) [] = .ok (c, rnd') ∧
      c.Host = [] ∧ c.Port = 80) :=
  ⟨⟨by decide, Or.inr ⟨_, rfl⟩, by decide, rfl, by decide, by decide, Or.inr ⟨_, rfl⟩,
      by decide⟩,
    C30_no_fallback "::".toList "X: y".toList [] ["a.com:80".toList, "b.com:8x:90".toList]
      "#X: y".toList [5] "b.com".toList "8x".toList ":90".toList (by decide)
      (Or.inr ⟨_, rfl⟩) (by decide) rfl (by decide) (by decide) (Or.inr ⟨_, rfl⟩) (by decide)⟩

end SSR
